import Mathlib

/-! go-libvirt-rpc: lock registry, safety gates and backup protocol.

A shallow embedding of the request-serialization layer (`mutex.go`), the
safety-gate predicates and block-commit wait loop (`snapshots.go`), the
overlay clean-up (`backup.go`) and the JSON-RPC handlers (`jrpc.go`).

The hypervisor library is external: every call into it is answered by an
oracle and recorded in a trace, so that "which library calls were issued"
is a property of the value a handler returns.
-/

namespace LibvirtRpc

/-! ## Lock registry (`mutex.go`) -/

/-- A value held by the `sync.Map`: Go's `interface{}` is either a `bool`
or a value of some other dynamic type. -/
inductive Value where
  | bool (b : Bool)
  | other (tag : Nat)
  deriving DecidableEq, Repr

/-- The global `isLocked` map, as an association list with at most one entry per key. -/
abbrev Registry := List (String × Value)

/-- `sync.Map.Load`. -/
def Registry.load (r : Registry) (k : String) : Option Value :=
  match r with
  | [] => none
  | (k', v) :: rest => if k' = k then some v else Registry.load rest k

/-- `sync.Map.Delete`. -/
def Registry.delete (r : Registry) (k : String) : Registry :=
  match r with
  | [] => []
  | (k', v) :: rest => if k' = k then Registry.delete rest k else (k', v) :: Registry.delete rest k

/-- `sync.Map.Store`. -/
def Registry.store (r : Registry) (k : String) (v : Value) : Registry :=
  (k, v) :: Registry.delete r k

/-- `sync.Map.LoadOrStore`: the value now in the map, whether it was already there, and the map. -/
def Registry.loadOrStore (r : Registry) (k : String) (v : Value) : Value × Bool × Registry :=
  match Registry.load r k with
  | some w => (w, true, r)
  | none => (v, false, Registry.store r k v)

/-- What the other goroutines do to the registry during the `i`-th one-second sleep. -/
abbrev Interference := Nat → Registry → Registry

/-- No other goroutine touches the registry. -/
def quiet : Interference := fun _ r => r

/-- Outcome of `isLockedAndMakeLock`: the returned flag, the registry when the
call returns, and the number of polls (`isLocked.Load` in the loop) it made. -/
structure LockResult where
  locked : Bool
  registry : Registry
  polls : Nat
  deriving DecidableEq, Repr

/-- The polling loop `for i := 1; i <= count; i++`: `n` iterations remain and
`done` polls were made so far. -/
def pollLoop (env : Interference) (hash : String) : Nat → Nat → Registry → LockResult
  | 0, done, reg => ⟨true, reg, done⟩
  | n + 1, done, reg =>
    let reg1 := env (done + 1) reg
    match Registry.load reg1 hash with
    | none => ⟨false, reg1, done + 1⟩
    | some (Value.other _) => pollLoop env hash n (done + 1) reg1
    | some (Value.bool false) => ⟨false, reg1, done + 1⟩
    | some (Value.bool true) => pollLoop env hash n (done + 1) reg1

/-- The body of `isLockedAndMakeLock` before the deferred delete runs. -/
def isLockedAndMakeLockBody (env : Interference) (reg : Registry) (hash : String)
    (count : Int) : LockResult :=
  match Registry.loadOrStore reg hash (Value.bool true) with
  | (_, false, reg1) => ⟨false, reg1, 0⟩
  | (Value.other _, true, reg1) => ⟨false, reg1, 0⟩
  | (Value.bool false, true, reg1) => ⟨false, reg1, 0⟩
  | (Value.bool true, true, reg1) => pollLoop env hash count.toNat 0 reg1

/-- `isLockedAndMakeLock(ctx, hash, count)`; `defer isLocked.Delete(hash)` runs on every return. -/
def isLockedAndMakeLock (env : Interference) (reg : Registry) (hash : String)
    (count : Int) : LockResult :=
  let r := isLockedAndMakeLockBody env reg hash count
  { r with registry := Registry.delete r.registry hash }

/-- `removeLock(ctx, hash)`: the registry afterwards (the call returns `true`). -/
def removeLock (reg : Registry) (hash : String) : Registry :=
  Registry.delete reg hash

/-- `addLock(ctx, hash)`: the registry afterwards (the call returns `true`). -/
def addLock (reg : Registry) (hash : String) : Registry :=
  Registry.store reg hash (Value.bool true)

/-- `listLocks(ctx)`: the keys whose value is the boolean `true`. -/
def listLocks (reg : Registry) : List String :=
  reg.filterMap fun e =>
    match e.2 with
    | Value.bool true => some e.1
    | _ => none

/-- The registry as the `i`-th poll of a waiting call sees it. -/
def observed (env : Interference) (reg : Registry) : Nat → Registry
  | 0 => reg
  | i + 1 => env (i + 1) (observed env reg i)

/-- Every value the waiting call can see under key `k` is the marker `true`. -/
def MarkerOnly (env : Interference) (reg : Registry) (k : String) : Prop :=
  ∀ i v, Registry.load (observed env reg i) k = some v → v = Value.bool true

/-! ## The hypervisor library as an oracle -/

deriving instance DecidableEq for Except

/-- Flag words of the library, kept symbolic: `a | b` is the list of the names or-ed together. -/
abbrev Flags := List String

/-- A call that leaves the process: into the hypervisor library, the clock or the compressor. -/
inductive Call where
  | openConnection (flag : String)
  | lookupDomainByName (domain : String)
  | domainGetConnect
  | isActive
  | isPersistent
  | getXMLDesc (flags : Flags)
  | getName
  | getBlockJobInfo (disk : String)
  | snapshotNum (flags : Flags)
  | timeSince
  | sleep (seconds : Nat)
  | getMetadata
  | snapshotLookupByName (name : String)
  | listAllStoragePools (flags : Flags)
  | poolRefresh (pool : String)
  | listAllStorageVolumes (pool : String)
  | volGetPath (vol : String)
  | lookupStorageVolByPath (path : String)
  | guestAgent (command : String)
  | create
  | shutdownFlags (flags : Flags)
  | reboot (flags : Flags)
  | reset
  | destroyFlags (flags : Flags)
  | undefineFlags (flags : Flags)
  | setMemoryFlags (mem : Nat) (flags : Flags)
  | setMemoryStatsPeriod (period : Int) (flags : Flags)
  | setVcpusFlags (vcpus : Nat) (flags : Flags)
  | setSchedulerParametersFlags (cpuShares : Nat) (flags : Flags)
  | setBlockIoTune (dev : String) (read write : Nat) (flags : Flags)
  | setAutostart (autostart : Bool)
  | setUserPassword (user password : String)
  | setMetadata (data : String) (flags : Flags)
  | detachDeviceFlags (xml : String) (flags : Flags)
  | attachDeviceFlags (xml : String) (flags : Flags)
  | createSnapshotXML (xml : String) (flags : Flags)
  | snapshotDelete (name : String)
  | snapshotRevert (name : String)
  | blockCommit (disk : String) (flags : Flags)
  | blockJobAbort (disk : String) (flags : Flags)
  | storageVolDelete (vol : String) (flags : Flags)
  | lz4Compress (inputFile : String)
  /-- A call that only reads (a lookup, a listing, a file read), recorded by the name of the
  library function and its argument. -/
  | query (name arg : String)
  | storageVolCreateXMLFrom (pool xml vol : String)
  | domainDefineXMLFlags (xml : String) (flags : Flags)
  deriving DecidableEq, Repr

/-- The calls that change the domain, its storage or its guest (everything that is not a
query, a lookup, a refresh, the clock or a sleep). -/
def Call.mutating : Call → Bool
  | Call.create => true
  | Call.shutdownFlags _ => true
  | Call.reboot _ => true
  | Call.reset => true
  | Call.destroyFlags _ => true
  | Call.undefineFlags _ => true
  | Call.setMemoryFlags _ _ => true
  | Call.setMemoryStatsPeriod _ _ => true
  | Call.setVcpusFlags _ _ => true
  | Call.setSchedulerParametersFlags _ _ => true
  | Call.setBlockIoTune _ _ _ _ => true
  | Call.setAutostart _ => true
  | Call.setUserPassword _ _ => true
  | Call.setMetadata _ _ => true
  | Call.detachDeviceFlags _ _ => true
  | Call.attachDeviceFlags _ _ => true
  | Call.createSnapshotXML _ _ => true
  | Call.snapshotDelete _ => true
  | Call.snapshotRevert _ => true
  | Call.blockCommit _ _ => true
  | Call.blockJobAbort _ _ => true
  | Call.storageVolDelete _ _ => true
  | Call.lz4Compress _ => true
  | Call.storageVolCreateXMLFrom _ _ _ => true
  | Call.domainDefineXMLFlags _ _ => true
  | _ => false

/-- The calls that go to the guest agent. -/
def Call.guest : Call → Bool
  | Call.guestAgent _ => true
  | Call.setUserPassword _ _ => true
  | _ => false

/-- A `<disk>` element of the domain XML, as far as the code reads it. -/
structure DomainDisk where
  Device : String
  /-- `Target.Dev`, when `Target != nil`. -/
  Target : Option String
  /-- `Source.File.File`, when `Source != nil` and `Source.File != nil`. -/
  SourceFile : Option String
  ReadOnly : Bool := false
  Shareable : Bool := false
  Transient : Bool := false
  deriving DecidableEq, Repr

/-- An `<interface>` element of the domain XML, as far as the code reads it. -/
structure DomainInterface where
  /-- `MAC.Address`, when `MAC != nil`. -/
  MAC : Option String
  /-- `Source`, when not nil: `Source.Network.Network` when `Source.Network != nil`. -/
  Source : Option (Option String)
  /-- The VLAN tags (`VLan.Tags[*].ID`), when `VLan != nil`. -/
  VLan : Option (List Nat) := none
  deriving DecidableEq, Repr

/-- The `<devices>` section. -/
structure DomainDeviceList where
  Disks : List DomainDisk := []
  Interfaces : List DomainInterface := []
  deriving DecidableEq, Repr

/-- The parsed domain XML (`libvirtxml.Domain`). -/
structure DomainCfg where
  Devices : Option DomainDeviceList
  deriving DecidableEq, Repr

/-- The library's block job type (`libvirt.DomainBlockJobType`). -/
inductive DomainBlockJobType where
  | unknown
  | pull
  | copy
  | commit
  | activeCommit
  | other (code : Nat)
  deriving DecidableEq, Repr

/-- What `d.GetBlockJobInfo` returns: the library's job type and the progress. -/
structure RawBlockJobInfo where
  Type_ : DomainBlockJobType
  Bandwidth : Nat
  Cur : Nat
  End : Nat
  deriving DecidableEq, Repr

/-- The network metadata (`netMetadata`). -/
structure netMetadata where
  MaxTxRate : Nat := 0
  Trust : String := ""
  SpoofChk : String := ""
  QueryRss : String := ""
  QoS : Nat := 0
  deriving DecidableEq, Repr

/-- A Go string or byte slice as the bytes it holds. -/
abbrev Bytes := List (Fin 256)

/-- The `return` object of a parsed `guest-file-read` answer (`fileReadRaw`). -/
structure FileReadReturn where
  Count : Int
  BufB64 : String
  EOF : Bool
  deriving DecidableEq, Repr

/-- The node info of the library (`libvirt.NodeInfo`), as far as the code checks it. -/
structure NodeInfo where
  Cpus : Nat
  deriving DecidableEq, Repr

/-- The `nodeMemoryStats` struct (`structs.go`), in KiB; every field is a `uint64`. -/
structure nodeMemoryStats where
  Total : Nat := 0
  Available : Nat := 0
  Used : Nat := 0
  Free : Nat := 0
  Cached : Nat := 0
  Buffers : Nat := 0
  SwapTotal : Nat := 0
  SwapFree : Nat := 0
  SwapCached : Nat := 0
  deriving DecidableEq, Repr

/-- The pool info of the library (`libvirt.StoragePoolInfo`): whether the state is
`STORAGE_POOL_RUNNING`, and the available bytes. -/
structure StoragePoolInfo where
  running : Bool
  Available : Nat
  deriving DecidableEq, Repr

/-- The parsed volume XML (`libvirtxml.StorageVolume`), as far as `cloneVolumeByPath`
reads and rewrites it. -/
structure StorageVolumeCfg where
  Name : String
  Key : String
  hasAllocation : Bool := true
  hasCapacity : Bool := true
  hasPhysical : Bool := true
  hasBackingStore : Bool := false
  /-- `Target.Path` and whether `Target.Timestamps` is set, when `Target != nil`. -/
  Target : Option (String × Bool) := none
  deriving DecidableEq, Repr

/-- The values `prepareXMLforNewDomain` writes into the domain template. -/
structure NewDomainCfg where
  Name : String
  UUID : String
  Memory : Nat
  CurrentMemory : Nat
  VCPUCurrent : String
  VCPUValue : Int
  DiskFile : String
  MAC : String
  Network : String
  VLan : Nat
  deriving DecidableEq, Repr

/-- The library and the host, as oracles: each answer may depend on the calls made so far. -/
structure Lib where
  /-- The error of a call that returns nothing else (`none` is Go's `nil`). -/
  fails : List Call → Call → Option String := fun _ _ => none
  isActive : List Call → Except String Bool := fun _ => Except.ok false
  isPersistent : List Call → Except String Bool := fun _ => Except.ok true
  /-- `GetXMLDesc` followed by `Unmarshal`: the parsed description or the error of either. -/
  getXMLDesc : List Call → Flags → Except String DomainCfg :=
    fun _ _ => Except.ok ⟨some {}⟩
  getName : List Call → Except String String := fun _ => Except.ok ""
  getBlockJobInfo : List Call → String → Except String RawBlockJobInfo :=
    fun _ _ => Except.ok ⟨DomainBlockJobType.unknown, 0, 0, 0⟩
  snapshotNum : List Call → Flags → Except String Int := fun _ _ => Except.ok 0
  /-- `time.Since(t)` in nanoseconds. -/
  timeSince : List Call → Nat := fun _ => 0
  /-- `time.Now()` in the RFC 3339 format. -/
  timeNow : List Call → String := fun _ => ""
  /-- `getDomainMetadata`: the metadata read and parsed, or the error. -/
  getMetadata : List Call → Except String netMetadata := fun _ => Except.ok {}
  listAllStoragePools : List Call → Flags → Except String (List String) :=
    fun _ _ => Except.ok []
  listAllStorageVolumes : List Call → String → Except String (List String) :=
    fun _ _ => Except.ok []
  volGetPath : List Call → String → Except String String := fun _ v => Except.ok v
  /-- `c.LookupStorageVolByPath`: the volume handle or the error. -/
  lookupStorageVolByPath : List Call → String → Except String String :=
    fun _ p => Except.ok p
  /-- `DomainInterface.Marshal` and `xml.Marshal`: pure, may fail. -/
  marshalInterface : DomainInterface → Except String String := fun _ => Except.ok ""
  marshalMetadata : List (String × String) → Except String String := fun _ => Except.ok ""
  /-- The answer to `guest-file-read` on a handle, sent and parsed, or the error of either. -/
  agentFileRead : List Call → Int → Except String FileReadReturn :=
    fun _ _ => Except.ok ⟨0, "", true⟩
  nodeInfo : List Call → Except String NodeInfo := fun _ => Except.ok ⟨1⟩
  /-- The fields of `/proc/meminfo` as parsed, or the error of reading the file. -/
  procMeminfo : List Call → Except String nodeMemoryStats := fun _ => Except.ok {}
  /-- The 16 bytes of `rand.Read`, or its error. -/
  randRead : List Call → Except String Bytes := fun _ => Except.ok (List.replicate 16 0)
  poolInfo : List Call → String → Except String StoragePoolInfo :=
    fun _ _ => Except.ok ⟨true, 0⟩
  /-- `getPoolPath`: the target path of the pool XML, or the error of reading or parsing it
  or of a missing target. -/
  poolPath : List Call → String → Except String String := fun _ _ => Except.ok ""
  /-- `p.ListStorageVolumes()`: the names of the volumes of a pool. -/
  poolVolumes : List Call → String → Except String (List String) := fun _ _ => Except.ok []
  /-- `c.ListAllNetworks`: the handles of the networks. -/
  networks : List Call → Except String (List String) := fun _ => Except.ok []
  networkName : List Call → String → Except String String := fun _ n => Except.ok n
  /-- `getInterfacesFromNetwork`: the VF addresses of the forward section of a network, or
  the error of reading or parsing its XML. -/
  networkAddresses : List Call → String → Except String (List String) :=
    fun _ _ => Except.ok []
  /-- `getDomainsNetworkDevices`: the VF addresses used by the passthrough interfaces of all
  domains, or the error of listing the domains. -/
  domainsNetworkDevices : List Call → Except String (List String) := fun _ => Except.ok []
  /-- `GetXMLDesc` and `Unmarshal` of a volume. -/
  volumeCfg : List Call → String → Except String StorageVolumeCfg :=
    fun _ v => Except.ok { Name := v, Key := v }
  marshalVolume : StorageVolumeCfg → Except String String := fun _ => Except.ok ""
  marshalDomain : NewDomainCfg → Except String String := fun _ => Except.ok ""

/-- Issue a call that only reports an error: the error and the extended trace. -/
def Lib.exec (lib : Lib) (t : List Call) (c : Call) : Option String × List Call :=
  (lib.fails t c, t ++ [c])

/-! ## Strings -/

/-- `strings.HasPrefix`. -/
def startsWith (s p : String) : Bool := p.toList.isPrefixOf s.toList

/-- `strings.HasSuffix`. -/
def endsWith (s p : String) : Bool := p.toList.reverse.isPrefixOf s.toList.reverse

/-- Whether `p` occurs in `cs` as a contiguous run. -/
def containsChars (cs p : List Char) : Bool :=
  match cs with
  | [] => p.isEmpty
  | c :: rest => p.isPrefixOf (c :: rest) || containsChars rest p

/-- `strings.Contains`. -/
def containsStr (s p : String) : Bool := containsChars s.toList p.toList

/-! ## Domain queries (`domain.go`, `devices.go`, `block.go`, `snapshots.go`) -/

/-- `isDomainActive`: an error of `d.IsActive()` reads as "not active". -/
def isDomainActive (lib : Lib) (t : List Call) : Bool × List Call :=
  match lib.isActive t with
  | Except.error _ => (false, t ++ [Call.isActive])
  | Except.ok s => (s, t ++ [Call.isActive])

/-- `isDomainPersistent`: an error of `d.IsPersistent()` reads as "not persistent". -/
def isDomainPersistent (lib : Lib) (t : List Call) : Bool × List Call :=
  match lib.isPersistent t with
  | Except.error _ => (false, t ++ [Call.isPersistent])
  | Except.ok s => (s, t ++ [Call.isPersistent])

/-- The `disks` slice of `getDomainBlockDeviceNamesOrPaths`: the target of every `disk` device. -/
def diskTargets (disks : List DomainDisk) : List String :=
  disks.filterMap fun dev => if dev.Device = "disk" then dev.Target else none

/-- The `paths` slice of `getDomainBlockDeviceNamesOrPaths`: the source file of every `disk` device. -/
def diskPaths (disks : List DomainDisk) : List String :=
  disks.filterMap fun dev => if dev.Device = "disk" then dev.SourceFile else none

/-- `getDomainBlockDeviceNamesOrPaths(ctx, d, getPath)`. -/
def getDomainBlockDeviceNamesOrPaths (lib : Lib) (t : List Call) (getPath : Bool) :
    Except String (List String) × List Call :=
  match lib.getXMLDesc t [] with
  | Except.error e => (Except.error e, t ++ [Call.getXMLDesc []])
  | Except.ok domCfg =>
    match domCfg.Devices with
    | none => (Except.ok [], t ++ [Call.getXMLDesc []])
    | some devices =>
      if getPath then (Except.ok (diskPaths devices.Disks), t ++ [Call.getXMLDesc []])
      else (Except.ok (diskTargets devices.Disks), t ++ [Call.getXMLDesc []])

def domainBlockJobTypeActiveCommit : String := "DOMAIN_BLOCK_JOB_TYPE_ACTIVE_COMMIT"

def domainBlockJobTypeCommit : String := "DOMAIN_BLOCK_JOB_TYPE_COMMIT"

def domainBlockJobTypeCopy : String := "DOMAIN_BLOCK_JOB_TYPE_COPY"

def domainBlockJobTypePull : String := "DOMAIN_BLOCK_JOB_TYPE_PULL"

/-- The `blockJobInfo` struct (`structs.go`). -/
structure blockJobInfo where
  Type_ : String
  Bandwidth : Nat
  Cur : Nat
  End : Nat
  deriving DecidableEq, Repr

/-- The `switch s.Type` of `getDomainBlockJobInfo`. -/
def blockJobTypeName : DomainBlockJobType → String
  | DomainBlockJobType.unknown => ""
  | DomainBlockJobType.pull => domainBlockJobTypePull
  | DomainBlockJobType.copy => domainBlockJobTypeCopy
  | DomainBlockJobType.commit => domainBlockJobTypeCommit
  | DomainBlockJobType.activeCommit => domainBlockJobTypeActiveCommit
  | DomainBlockJobType.other _ => ""

/-- `getDomainBlockJobInfo(ctx, d, disk)`. -/
def getDomainBlockJobInfo (lib : Lib) (t : List Call) (disk : String) :
    Except String blockJobInfo × List Call :=
  match lib.getBlockJobInfo t disk with
  | Except.error e => (Except.error e, t ++ [Call.getBlockJobInfo disk])
  | Except.ok s =>
    (Except.ok ⟨blockJobTypeName s.Type_, s.Bandwidth, s.Cur, s.End⟩,
      t ++ [Call.getBlockJobInfo disk])

/-- `countDomainSnapshotsWithFlags(ctx, d, flags)`. -/
def countDomainSnapshotsWithFlags (lib : Lib) (t : List Call) (flags : Flags) :
    Except String Int × List Call :=
  (lib.snapshotNum t flags, t ++ [Call.snapshotNum flags])

/-- Whether a job type makes `isDomainBlockJobRunning` report a running job. -/
def blockingJobType (ty : String) : Bool :=
  ty = domainBlockJobTypePull || ty = domainBlockJobTypeCopy ||
    ty = domainBlockJobTypeCommit || ty = domainBlockJobTypeActiveCommit

/-- The `for _, disk := range disks` loop of `isDomainBlockJobRunning`. -/
def blockJobScan (lib : Lib) : List String → List Call → Bool × List Call
  | [], t => (false, t)
  | disk :: rest, t =>
    match getDomainBlockJobInfo lib t disk with
    | (Except.error _, t1) => blockJobScan lib rest t1
    | (Except.ok jobInfo, t1) =>
      if blockingJobType jobInfo.Type_ then (true, t1) else blockJobScan lib rest t1

/-- `isDomainBlockJobRunning(ctx, d)`: the Go pair `(bool, error)` and the trace. -/
def isDomainBlockJobRunning (lib : Lib) (t : List Call) : (Bool × Option String) × List Call :=
  match isDomainActive lib t with
  | (false, t1) => ((false, none), t1)
  | (true, t1) =>
    match getDomainBlockDeviceNamesOrPaths lib t1 false with
    | (Except.error e, t2) => ((false, some e), t2)
    | (Except.ok disks, t2) =>
      match blockJobScan lib disks t2 with
      | (found, t3) => ((found, none), t3)

/-- `isDomainBlockHasActiveExternalBackupSnashot(ctx, d)`. -/
def isDomainBlockHasActiveExternalBackupSnashot (lib : Lib) (t : List Call) :
    (Bool × Option String) × List Call :=
  match getDomainBlockDeviceNamesOrPaths lib t true with
  | (Except.error e, t1) => ((false, some e), t1)
  | (Except.ok paths, t1) =>
    if paths.any (fun path => endsWith path "external.snapshot.qcow2") then ((true, none), t1)
    else
      match countDomainSnapshotsWithFlags lib t1 ["DOMAIN_SNAPSHOT_LIST_EXTERNAL"] with
      | (Except.error e, t2) => ((false, some e), t2)
      | (Except.ok snapCount, t2) =>
        if snapCount ≠ 0 then ((true, none), t2) else ((false, none), t2)

/-! ## Block commit (`snapshots.go`) -/

/-- How the loop of `waitBlockCommitActive` ended: the one-hour budget ran out
(`return false`), the retry counter reached `retries` (`break`), or a probe showed
`cur == end == 0` (`break`). -/
inductive WaitExit where
  | timeout
  | retriesReached
  | jobStopped
  deriving DecidableEq, Repr

/-- The value `waitBlockCommitActive` returns for each way out of its loop. -/
def WaitExit.result : WaitExit → Bool
  | WaitExit.timeout => false
  | WaitExit.retriesReached => true
  | WaitExit.jobStopped => true

/-- One run of the wait loop: how it ended, the answers to its probes in order
(a record kept for the proofs; the code does not store them) and the trace. -/
structure WaitRun where
  exit : WaitExit
  probes : List (Except String blockJobInfo)
  calls : List Call
  deriving DecidableEq, Repr

/-- The counting condition of the loop: an active commit with `cur == end > 0`. -/
def commitReady (jobInfo : blockJobInfo) : Bool :=
  jobInfo.Type_ = domainBlockJobTypeActiveCommit && jobInfo.Cur = jobInfo.End && jobInfo.End > 0

/-- The budget of `waitBlockCommitActive`, `60*60*1` seconds, in nanoseconds. -/
def waitBudget : Nat := 60 * 60 * 1 * 1000000000

/-- The `for` loop of `waitBlockCommitActive` with `retries = 3`: `j` is the counter, `seen`
the probe answers so far; `fuel` bounds the number of iterations of the model. -/
def waitLoop (lib : Lib) (disk : String) :
    Nat → Nat → List (Except String blockJobInfo) → List Call → Option WaitRun
  | 0, _, _, _ => none
  | fuel + 1, j, seen, t =>
    if lib.timeSince t > waitBudget then
      some ⟨WaitExit.timeout, seen, t ++ [Call.timeSince]⟩
    else if j = 3 then
      some ⟨WaitExit.retriesReached, seen, t ++ [Call.timeSince]⟩
    else
      match getDomainBlockJobInfo lib (t ++ [Call.timeSince, Call.sleep 5]) disk with
      | (Except.error e, t1) => waitLoop lib disk fuel j (seen ++ [Except.error e]) t1
      | (Except.ok jobInfo, t1) =>
        if jobInfo.Cur = jobInfo.End ∧ jobInfo.End = 0 then
          some ⟨WaitExit.jobStopped, seen ++ [Except.ok jobInfo], t1⟩
        else if commitReady jobInfo then
          waitLoop lib disk fuel (j + 1) (seen ++ [Except.ok jobInfo]) t1
        else
          waitLoop lib disk fuel j (seen ++ [Except.ok jobInfo]) t1

/-- `waitBlockCommitActive(ctx, d, disk)`: the returned flag and the trace. -/
def waitBlockCommitActive (lib : Lib) (t : List Call) (disk : String) (fuel : Nat) :
    Option (Bool × List Call) :=
  (waitLoop lib disk fuel 0 [] t).map fun r => (r.exit.result, r.calls)

/-- `blockCommitActive(ctx, d, disk)`. -/
def blockCommitActive (lib : Lib) (t : List Call) (disk : String) :
    (Bool × Option String) × List Call :=
  match lib.exec t
    (Call.blockCommit disk ["DOMAIN_BLOCK_COMMIT_ACTIVE", "DOMAIN_BLOCK_COMMIT_SHALLOW"]) with
  | (some e, t1) => ((false, some e), t1)
  | (none, t1) => ((true, none), t1)

/-- `blockCommitActivePivot(ctx, d, disk)`. -/
def blockCommitActivePivot (lib : Lib) (t : List Call) (disk : String) :
    (Bool × Option String) × List Call :=
  match lib.exec t
    (Call.blockJobAbort disk ["DOMAIN_BLOCK_JOB_ABORT_PIVOT", "DOMAIN_BLOCK_JOB_ABORT_ASYNC"]) with
  | (some e, t1) => ((false, some e), t1)
  | (none, t1) => ((true, none), t1)

/-! ## Storage and overlay clean-up (`storage.go`, `backup.go`) -/

/-- The loop of `refreshAllStorgePools`: a pool that fails to refresh is skipped. -/
def refreshPools (lib : Lib) : List String → List Call → List Call
  | [], t => t
  | pool :: rest, t => refreshPools lib rest (lib.exec t (Call.poolRefresh pool)).2

/-- `refreshAllStorgePools(ctx, c)`. -/
def refreshAllStorgePools (lib : Lib) (t : List Call) : Option String × List Call :=
  let flags := ["CONNECT_LIST_STORAGE_POOLS_DIR", "CONNECT_LIST_STORAGE_POOLS_ACTIVE"]
  match lib.listAllStoragePools t flags with
  | Except.error e => (some e, t ++ [Call.listAllStoragePools flags])
  | Except.ok pools => (none, refreshPools lib pools (t ++ [Call.listAllStoragePools flags]))

/-- `lookupStorageVolByPath(ctx, c, path)`. -/
def lookupStorageVolByPath (lib : Lib) (t : List Call) (path : String) :
    Except String String × List Call :=
  (lib.lookupStorageVolByPath t path, t ++ [Call.lookupStorageVolByPath path])

/-- `deletePoolVolume(ctx, v, flags)`. -/
def deletePoolVolume (lib : Lib) (t : List Call) (vol : String) (flags : Flags) :
    Option String × List Call :=
  lib.exec t (Call.storageVolDelete vol flags)

/-- The condition under which `deleteTemporaryExternalSnapshot` removes a path. -/
def acceptedForDeletion (path : String) : Bool :=
  startsWith path "/var/lib/libvirt/" &&
    endsWith path ".external.snapshot.qcow2" &&
    !containsStr path " " &&
    !containsStr path "../" &&
    !containsStr path "*"

/-- The `for _, path := range paths` loop of `deleteTemporaryExternalSnapshot`. -/
def deleteCandidates (lib : Lib) : List String → List Call → Option String × List Call
  | [], t => (none, t)
  | path :: rest, t =>
    if acceptedForDeletion path then
      match lookupStorageVolByPath lib t path with
      | (Except.error e, t1) => (some e, t1)
      | (Except.ok vol, t1) =>
        match deletePoolVolume lib t1 vol ["STORAGE_VOL_DELETE_NORMAL"] with
        | (some e, t2) => (some e, t2)
        | (none, t2) => deleteCandidates lib rest t2
    else deleteCandidates lib rest t

/-- `deleteTemporaryExternalSnapshot(ctx, c, paths)`: the returned error and the trace. -/
def deleteTemporaryExternalSnapshot (lib : Lib) (t : List Call) (paths : List String) :
    Option String × List Call :=
  match refreshAllStorgePools lib t with
  | (some e, t1) => (some e, t1)
  | (none, t1) => deleteCandidates lib paths t1

/-! ## Operations behind the handlers -/

/-- How a call ended: it returned, it ended in a run-time panic, or the model ran out of
fuel inside the block-commit wait loop. -/
inductive Status where
  | returned
  | panicked
  | unfinished
  deriving DecidableEq, Repr

/-- The Go pair `(bool, error)` a handler hands back, with the trace of library calls. -/
structure BodyResult where
  ok : Bool
  err : Option String
  calls : List Call
  status : Status := Status.returned
  deriving DecidableEq, Repr

/-- The handler tail `if err != nil { return false, err }; return true, nil`. -/
def ofError (r : Option String × List Call) : BodyResult :=
  match r with
  | (some e, t) => ⟨false, some e, t, Status.returned⟩
  | (none, t) => ⟨true, none, t, Status.returned⟩

/-- The handler tail `if err != nil || !ok { return false, err }; return true, nil`. -/
def ofPair (r : (Bool × Option String) × List Call) : BodyResult :=
  match r with
  | ((_, some e), t) => ⟨false, some e, t, Status.returned⟩
  | ((false, none), t) => ⟨false, none, t, Status.returned⟩
  | ((true, none), t) => ⟨true, none, t, Status.returned⟩

/-- The flag word `base | CONFIG (if persistent) | LIVE (if active)` of the setters. -/
def affectFlags (lib : Lib) (t : List Call) (base config live : String) : Flags × List Call :=
  match isDomainPersistent lib t with
  | (persistent, t1) =>
    match isDomainActive lib t1 with
    | (active, t2) =>
      ([base] ++ (if persistent then [config] else []) ++ (if active then [live] else []), t2)

/-- `startDomain`. -/
def startDomain (lib : Lib) (t : List Call) : Option String × List Call :=
  lib.exec t Call.create

/-- `resetDomain`. -/
def resetDomain (lib : Lib) (t : List Call) : Option String × List Call :=
  lib.exec t Call.reset

/-- `shutdownDomain`. -/
def shutdownDomain (lib : Lib) (t : List Call) (flag : Flags) : Option String × List Call :=
  lib.exec t (Call.shutdownFlags flag)

/-- `rebootDomain`. -/
def rebootDomain (lib : Lib) (t : List Call) (flag : Flags) : Option String × List Call :=
  lib.exec t (Call.reboot flag)

/-- `setDomainAutostart`. -/
def setDomainAutostart (lib : Lib) (t : List Call) (autoStart : Bool) :
    Option String × List Call :=
  lib.exec t (Call.setAutostart autoStart)

/-- `setDomainCurrentMemory`. -/
def setDomainCurrentMemory (lib : Lib) (t : List Call) (mem : Nat) : Option String × List Call :=
  match affectFlags lib t "DOMAIN_MEM_CURRENT" "DOMAIN_MEM_CONFIG" "DOMAIN_MEM_LIVE" with
  | (flags, t1) => lib.exec t1 (Call.setMemoryFlags mem flags)

/-- `setDomainMemoryStatsPeriod`. -/
def setDomainMemoryStatsPeriod (lib : Lib) (t : List Call) (period : Int) :
    Option String × List Call :=
  match affectFlags lib t "DOMAIN_MEM_CURRENT" "DOMAIN_MEM_CONFIG" "DOMAIN_MEM_LIVE" with
  | (flags, t1) => lib.exec t1 (Call.setMemoryStatsPeriod period flags)

/-- `setDomainMaxMemory`. -/
def setDomainMaxMemory (lib : Lib) (t : List Call) (mem : Nat) : Option String × List Call :=
  lib.exec t (Call.setMemoryFlags mem ["DOMAIN_MEM_CONFIG", "DOMAIN_MEM_MAXIMUM"])

/-- `setDomainCurrentVCPUs`. -/
def setDomainCurrentVCPUs (lib : Lib) (t : List Call) (vCPUNum : Nat) :
    Option String × List Call :=
  match affectFlags lib t "DOMAIN_VCPU_CURRENT" "DOMAIN_VCPU_CONFIG" "DOMAIN_VCPU_LIVE" with
  | (flags, t1) => lib.exec t1 (Call.setVcpusFlags vCPUNum flags)

/-- `setDomainMaxVCPUs`. -/
def setDomainMaxVCPUs (lib : Lib) (t : List Call) (vCPUNum : Nat) : Option String × List Call :=
  lib.exec t (Call.setVcpusFlags vCPUNum
    ["DOMAIN_VCPU_CONFIG", "DOMAIN_VCPU_MAXIMUM", "DOMAIN_VCPU_HOTPLUGGABLE"])

/-- `setDomainSchedulerCPUShares`. -/
def setDomainSchedulerCPUShares (lib : Lib) (t : List Call) (CPUShares : Nat) :
    Option String × List Call :=
  match affectFlags lib t "DOMAIN_AFFECT_CURRENT" "DOMAIN_AFFECT_CONFIG" "DOMAIN_AFFECT_LIVE" with
  | (flags, t1) => lib.exec t1 (Call.setSchedulerParametersFlags CPUShares flags)

/-- `setDomainBlockIoTune`: the tuning record passed on is fixed by `read` and `write`. -/
def setDomainBlockIoTune (lib : Lib) (t : List Call) (dev : String) (read write : Nat) :
    Option String × List Call :=
  match affectFlags lib t "DOMAIN_AFFECT_CURRENT" "DOMAIN_AFFECT_CONFIG" "DOMAIN_AFFECT_LIVE" with
  | (flags, t1) => lib.exec t1 (Call.setBlockIoTune dev read write flags)

/-- `setGuestPassword`. -/
def setGuestPassword (lib : Lib) (t : List Call) (user password : String) :
    Option String × List Call :=
  lib.exec t (Call.setUserPassword user password)

/-- A hexadecimal digit in the sense of the pattern of `isMACvalid`. -/
def isHexChar (c : Char) : Bool :=
  ('0' ≤ c && c ≤ '9') || ('a' ≤ c && c ≤ 'f') || ('A' ≤ c && c ≤ 'F')

/-- The regular expression `macPattern`: six pairs of hexadecimal digits joined by colons. -/
def matchesMacPattern (mac : String) : Bool :=
  match mac.toList with
  | [a1, a2, s1, b1, b2, s2, c1, c2, s3, d1, d2, s4, e1, e2, s5, f1, f2] =>
    [a1, a2, b1, b2, c1, c2, d1, d2, e1, e2, f1, f2].all isHexChar &&
      [s1, s2, s3, s4, s5].all (fun c => c = ':')
  | _ => false

/-- `isMACvalid(ctx, mac)`. -/
def isMACvalid (mac : String) : Bool × Option String :=
  if !startsWith mac "52:54:00" then
    (false, some ("MAC: " ++ mac ++ " has non valid QEMU-KVM vendor prefix"))
  else if !matchesMacPattern mac then (false, some ("not valid MAC: " ++ mac))
  else (true, none)

/-- `getDomainInterfaces(ctx, d)`. -/
def getDomainInterfaces (lib : Lib) (t : List Call) :
    Except String (List DomainInterface) × List Call :=
  match lib.getXMLDesc t [] with
  | Except.error e => (Except.error e, t ++ [Call.getXMLDesc []])
  | Except.ok domCfg =>
    match domCfg.Devices with
    | none => (Except.error "devices XML section is empty", t ++ [Call.getXMLDesc []])
    | some devices =>
      if devices.Interfaces.isEmpty then
        (Except.error "no interfaces in device XML section", t ++ [Call.getXMLDesc []])
      else (Except.ok devices.Interfaces, t ++ [Call.getXMLDesc []])

/-- `detachNodeDeviceWithFlags`: a successful detach is followed by a 3-second sleep. -/
def detachNodeDeviceWithFlags (lib : Lib) (t : List Call) (xml : String) (flags : Flags) :
    Option String × List Call :=
  match lib.exec t (Call.detachDeviceFlags xml flags) with
  | (some e, t1) => (some e, t1)
  | (none, t1) => (none, t1 ++ [Call.sleep 3])

/-- `attachNodeDeviceWithFlags`: a successful attach is followed by a 3-second sleep. -/
def attachNodeDeviceWithFlags (lib : Lib) (t : List Call) (xml : String) (flags : Flags) :
    Option String × List Call :=
  match lib.exec t (Call.attachDeviceFlags xml flags) with
  | (some e, t1) => (some e, t1)
  | (none, t1) => (none, t1 ++ [Call.sleep 3])

/-- The steps of `setPVIDForDomainNetworkDevice` once the interface list is read. -/
def rebindInterface (lib : Lib) (t : List Call) (nics : List DomainInterface) (mac : String)
    (pvid : Nat) : (Bool × Option String) × List Call :=
  let nicOld : DomainInterface :=
    (nics.find? fun dev => dev.MAC = some mac).getD ⟨none, none, none⟩
  match nicOld.Source with
  | none => ((false, some "malformed XML description for interface"), t)
  | some none => ((false, some "malformed XML description for interface"), t)
  | some (some network) =>
    if !startsWith network "pf-" then
      ((false, some "malformed XML description for interface"), t)
    else if nicOld.MAC = none then ((false, some "no interfaces match specified MAC"), t)
    else
      match lib.marshalInterface nicOld with
      | Except.error e => ((false, some e), t)
      | Except.ok xmlOld =>
        match lib.marshalInterface { nicOld with VLan := some [pvid] } with
        | Except.error e => ((false, some e), t)
        | Except.ok xmlNew =>
          match detachNodeDeviceWithFlags lib t xmlOld ["DOMAIN_DEVICE_MODIFY_CURRENT"] with
          | (some e, t1) => ((false, some e), t1)
          | (none, t1) =>
            match attachNodeDeviceWithFlags lib t1 xmlNew ["DOMAIN_DEVICE_MODIFY_CURRENT"] with
            | (some e, t2) => ((false, some e), t2)
            | (none, t2) =>
              match getDomainInterfaces lib t2 with
              | (Except.error e, t3) => ((false, some e), t3)
              | (Except.ok nics2, t3) =>
                if nics2.any (fun dev => dev.MAC = some mac) then ((true, none), t3)
                else ((false, some "no interfaces match specified MAC"), t3)

/-- `setPVIDForDomainNetworkDevice(ctx, d, mac, pvid)`. -/
def setPVIDForDomainNetworkDevice (lib : Lib) (t : List Call) (mac : String) (pvid : Nat) :
    (Bool × Option String) × List Call :=
  match isMACvalid mac with
  | (_, some e) => ((false, some e), t)
  | (false, none) => ((false, none), t)
  | (true, none) =>
    match isDomainActive lib t with
    | (true, t1) =>
      ((false, some "domain must not be active while setting PVID for network device"), t1)
    | (false, t1) =>
      match lib.exec t1 Call.domainGetConnect with
      | (some e, t2) => ((false, some e), t2)
      | (none, t2) =>
        match getDomainInterfaces lib t2 with
        | (Except.error e, t3) => ((false, some e), t3)
        | (Except.ok nics, t3) => rebindInterface lib t3 nics mac pvid

/-- `getDomainMetadata(ctx, d)`: the metadata as read and parsed, or the error. -/
def getDomainMetadata (lib : Lib) (t : List Call) : Except String netMetadata × List Call :=
  (lib.getMetadata t, t ++ [Call.getMetadata])

/-- `int(rate)`: the conversion of a 64-bit unsigned value to `int`. -/
def toInt64 (n : Nat) : Int :=
  if n % 2 ^ 64 < 2 ^ 63 then (n % 2 ^ 64 : Nat) else (n % 2 ^ 64 : Nat) - 2 ^ 64

/-- The five `network` children `setDomainMetadataNetworkRate` writes, as (type, value). -/
def networkChildren (meta : netMetadata) (rate : Nat) : List (String × String) :=
  [("max_tx_rate", toString (toInt64 rate)),
   ("qos", toString (toInt64 meta.QoS)),
   ("trust", if meta.Trust.length = 0 then "off" else meta.Trust),
   ("spoofchk", if meta.SpoofChk.length = 0 then "on" else meta.SpoofChk),
   ("query_rss", if meta.QueryRss.length = 0 then "off" else meta.QueryRss)]

/-- `setDomainMetadataNetworkRate(ctx, d, rate)`. -/
def setDomainMetadataNetworkRate (lib : Lib) (t : List Call) (rate : Nat) :
    (Bool × Option String) × List Call :=
  match isDomainActive lib t with
  | (true, t1) =>
    ((false, some "domain must not be active while setting speed for network device"), t1)
  | (false, t1) =>
    match getDomainMetadata lib t1 with
    | (Except.error e, t2) => ((false, some e), t2)
    | (Except.ok meta, t2) =>
      match lib.marshalMetadata (networkChildren meta rate) with
      | Except.error _ => ((false, none), t2)
      | Except.ok data =>
        match lib.exec t2 (Call.setMetadata data ["DOMAIN_AFFECT_CURRENT"]) with
        | (some e, t3) => ((false, some e), t3)
        | (none, t3) => ((true, none), t3)

/-! ## Snapshots, destroy and backup -/

/-- `getDomainName(ctx, d)`: the empty string when the name cannot be read. -/
def getDomainName (lib : Lib) (t : List Call) : String × List Call :=
  match lib.getName t with
  | Except.error _ => ("", t ++ [Call.getName])
  | Except.ok name => (name, t ++ [Call.getName])

/-- The `<disk>` lines of the snapshot XML: one per `disk` device that is neither read-only
nor shareable nor transient and has a target. -/
def snapshotDisksXML (disks : List DomainDisk) (snapshotType : String) : List String :=
  disks.filterMap fun disk =>
    if disk.Device = "disk" && !disk.ReadOnly && !disk.Shareable && !disk.Transient then
      disk.Target.map fun dev =>
        "<disk name=\x27" ++ dev ++ "\x27 snapshot=\x27" ++ snapshotType ++ "\x27/>"
    else none

/-- `prepareXMLForSnapshot(ctx, d, name, isInternal)`: the pair `(xml, err)`. In the branches
for a missing devices section and for an empty disk list the code returns its variable `err`,
which is `nil` there. -/
def prepareXMLForSnapshot (lib : Lib) (t : List Call) (name : String) (isInternal : Bool) :
    (String × Option String) × List Call :=
  match getDomainName lib t with
  | (domain, t1) =>
    match lib.getXMLDesc t1 ["DOMAIN_XML_INACTIVE"] with
    | Except.error e => (("", some e), t1 ++ [Call.getXMLDesc ["DOMAIN_XML_INACTIVE"]])
    | Except.ok domCfg =>
      let t2 := t1 ++ [Call.getXMLDesc ["DOMAIN_XML_INACTIVE"]]
      match domCfg.Devices with
      | none => (("", none), t2)
      | some devices =>
        let disksXML :=
          snapshotDisksXML devices.Disks (if isInternal then "internal" else "external")
        if disksXML.isEmpty then (("", none), t2)
        else
          let description := "snapshot named as: " ++ name ++ "; for: " ++ domain ++
            "; taken at: " ++ lib.timeNow t2
          (("<domainsnapshot><name>" ++ name ++ "</name><description>" ++ description ++
            "</description><disks>" ++ String.join disksXML ++ "</disks></domainsnapshot>",
            none), t2)

/-- `makeDomainSnapshot(ctx, d, flags, xml)`. -/
def makeDomainSnapshot (lib : Lib) (t : List Call) (flags : Flags) (xml : String) :
    (Bool × Option String) × List Call :=
  match lib.exec t (Call.createSnapshotXML xml flags) with
  | (some e, t1) => ((false, some e), t1)
  | (none, t1) => ((true, none), t1)

/-- `lookupDomainSnapshotByName(ctx, d, name)`: the error, if the snapshot is not found. -/
def lookupDomainSnapshotByName (lib : Lib) (t : List Call) (name : String) :
    Option String × List Call :=
  lib.exec t (Call.snapshotLookupByName name)

/-- `deleteSnapshot(ctx, s, 0)` on the snapshot called `name`. -/
def deleteSnapshot (lib : Lib) (t : List Call) (name : String) :
    (Bool × Option String) × List Call :=
  match lib.exec t (Call.snapshotDelete name) with
  | (some e, t1) => ((false, some e), t1)
  | (none, t1) => ((true, none), t1)

/-- `revertToSnapshot(ctx, s)` on the snapshot called `name`. -/
def revertToSnapshot (lib : Lib) (t : List Call) (name : String) :
    (Bool × Option String) × List Call :=
  match lib.exec t (Call.snapshotRevert name) with
  | (some e, t1) => ((false, some e), t1)
  | (none, t1) => ((true, none), t1)

/-- `createBackup(ctx, c, inputFile)`: compress the file beside itself. -/
def createBackup (lib : Lib) (t : List Call) (inputFile : String) : Option String × List Call :=
  lib.exec t (Call.lz4Compress inputFile)

/-- The loop `for _, path := range paths { createBackup }`: the first error ends it. -/
def createBackups (lib : Lib) : List String → List Call → Option String × List Call
  | [], t => (none, t)
  | path :: rest, t =>
    match createBackup lib t path with
    | (some e, t1) => (some e, t1)
    | (none, t1) => createBackups lib rest t1

/-- `destroyAndUndefineDomain(ctx, c, d, flags)`. -/
def destroyAndUndefineDomain (lib : Lib) (t : List Call) (flags : Flags) :
    (Bool × Option String) × List Call :=
  match isDomainPersistent lib t with
  | (isPersistent, t1) =>
    match isDomainActive lib t1 with
    | (isActive, t2) =>
      match (if isActive then lib.exec t2 (Call.destroyFlags flags) else (none, t2)) with
      | (some e, t3) => ((false, some e), t3)
      | (none, t3) =>
        if isPersistent then
          match lib.exec t3 (Call.undefineFlags ["DOMAIN_UNDEFINE_MANAGED_SAVE",
            "DOMAIN_UNDEFINE_SNAPSHOTS_METADATA", "DOMAIN_UNDEFINE_NVRAM"]) with
          | (some e, t4) => ((false, some e), t4)
          | (none, t4) => ((true, none), t4)
        else ((true, none), t3)

/-- The inner loop of `destroyDomain` over the block paths for one volume: the volume is
deleted once for every path equal to its own; a failed delete is skipped. -/
def deleteMatching (lib : Lib) (vol volPath : String) : List String → List Call → List Call
  | [], t => t
  | p :: rest, t =>
    if p = volPath then
      deleteMatching lib vol volPath rest
        (deletePoolVolume lib t vol ["STORAGE_VOL_DELETE_NORMAL"]).2
    else deleteMatching lib vol volPath rest t

/-- The loop of `destroyDomain` over the volumes of a pool. -/
def sweepVolumes (lib : Lib) (paths : List String) : List String → List Call → List Call
  | [], t => t
  | v :: rest, t =>
    match lib.volGetPath t v with
    | Except.error _ => sweepVolumes lib paths rest (t ++ [Call.volGetPath v])
    | Except.ok volPath =>
      sweepVolumes lib paths rest (deleteMatching lib v volPath paths (t ++ [Call.volGetPath v]))

/-- The loop of `destroyDomain` over the pools. -/
def sweepPools (lib : Lib) (paths : List String) : List String → List Call → List Call
  | [], t => t
  | p :: rest, t =>
    match lib.exec t (Call.poolRefresh p) with
    | (some _, t1) => sweepPools lib paths rest t1
    | (none, t1) =>
      match lib.listAllStorageVolumes t1 p with
      | Except.error _ => sweepPools lib paths rest (t1 ++ [Call.listAllStorageVolumes p])
      | Except.ok volumes =>
        sweepPools lib paths rest
          (sweepVolumes lib paths volumes (t1 ++ [Call.listAllStorageVolumes p]))

/-- The last loop of `destroyDomain`: a lookup that succeeds (`err == nil`) reaches
`err.Error()` on the nil error, a run-time panic; a lookup that fails does nothing. -/
def finalLookups (lib : Lib) : List String → List Call → Status × List Call
  | [], t => (Status.returned, t)
  | path :: rest, t =>
    match lookupStorageVolByPath lib t path with
    | (Except.ok _, t1) => (Status.panicked, t1)
    | (Except.error _, t1) => finalLookups lib rest t1

/-- `destroyDomain(ctx, d, flags)`, as the tail of the `Destroy` handler. -/
def destroyDomain (lib : Lib) (t : List Call) (flags : Flags) : BodyResult :=
  match lib.exec t Call.domainGetConnect with
  | (some e, t1) => ⟨false, some e, t1, Status.returned⟩
  | (none, t1) =>
    match getDomainBlockDeviceNamesOrPaths lib t1 true with
    | (Except.error e, t2) => ⟨false, some e, t2, Status.returned⟩
    | (Except.ok paths, t2) =>
      match createBackups lib paths t2 with
      | (some e, t3) => ⟨false, some e, t3, Status.returned⟩
      | (none, t3) =>
        match destroyAndUndefineDomain lib t3 flags with
        | ((_, some e), t4) => ⟨false, some e, t4, Status.returned⟩
        | ((_, none), t4) =>
          let poolFlags :=
            ["CONNECT_LIST_STORAGE_POOLS_ACTIVE", "CONNECT_LIST_STORAGE_POOLS_PERSISTENT"]
          match lib.listAllStoragePools t4 poolFlags with
          | Except.error e =>
            ⟨false, some e, t4 ++ [Call.listAllStoragePools poolFlags], Status.returned⟩
          | Except.ok pools =>
            if pools.isEmpty then
              ⟨false, some "pool array can not be zero sized",
                t4 ++ [Call.listAllStoragePools poolFlags], Status.returned⟩
            else
              match finalLookups lib paths
                (sweepPools lib paths pools (t4 ++ [Call.listAllStoragePools poolFlags])) with
              | (Status.returned, t5) => ⟨true, none, t5, Status.returned⟩
              | (st, t5) => ⟨false, none, t5, st⟩

/-- One run of the commit loop of `MakeBackup`: the early `return false, err` if there was
one, the way each wait ended, in order (a record kept for the proofs), and the trace;
`none` when the model ran out of fuel inside a wait. -/
structure CommitRun where
  failed : Option (Option String)
  waits : List (String × WaitExit)
  calls : List Call
  deriving DecidableEq, Repr

/-- The loop `for _, disk := range disks` of `MakeBackup`: commit, wait, pivot. -/
def commitDisks (lib : Lib) (fuel : Nat) :
    List String → List (String × WaitExit) → List Call → Option CommitRun
  | [], waits, t => some ⟨none, waits, t⟩
  | disk :: rest, waits, t =>
    match blockCommitActive lib t disk with
    | ((_, some e), t1) => some ⟨some (some e), waits, t1⟩
    | ((false, none), t1) => some ⟨some none, waits, t1⟩
    | ((true, none), t1) =>
      match waitLoop lib disk fuel 0 [] t1 with
      | none => none
      | some run =>
        if !run.exit.result then commitDisks lib fuel rest (waits ++ [(disk, run.exit)]) run.calls
        else
          match blockCommitActivePivot lib run.calls disk with
          | ((_, some e), t3) => some ⟨some (some e), waits ++ [(disk, run.exit)], t3⟩
          | ((false, none), t3) => some ⟨some none, waits ++ [(disk, run.exit)], t3⟩
          | ((true, none), t3) => commitDisks lib fuel rest (waits ++ [(disk, run.exit)]) t3

/-- The result of `MakeBackup` once the gates are passed, with the record of the waits. -/
structure BackupRun where
  result : BodyResult
  waits : List (String × WaitExit) := []
  deriving DecidableEq, Repr

/-- The tail of `MakeBackup` after the commit loop: clean-up and the final check. -/
def finishBackup (lib : Lib) (t : List Call) (paths : List String) : BodyResult :=
  match deleteTemporaryExternalSnapshot lib t paths with
  | (some e, t1) => ⟨false, some e, t1, Status.returned⟩
  | (none, t1) =>
    match isDomainBlockHasActiveExternalBackupSnashot lib t1 with
    | ((_, some e), t2) => ⟨false, some e, t2, Status.returned⟩
    | ((true, none), t2) =>
      ⟨false, some "T_T domain backup job failed miserably", t2, Status.returned⟩
    | ((false, none), t2) => ⟨true, none, t2, Status.returned⟩

/-- The part of `MakeBackup` that follows the snapshot: archive the paths read before the
snapshot, re-read disks and paths, commit and pivot every disk, clean up. -/
def backupAfterSnapshot (lib : Lib) (t : List Call) (paths : List String) (fuel : Nat) :
    BackupRun :=
  match createBackups lib paths t with
  | (some e, t1) => ⟨⟨false, some e, t1, Status.returned⟩, []⟩
  | (none, t1) =>
    match getDomainBlockDeviceNamesOrPaths lib t1 false with
    | (Except.error e, t2) => ⟨⟨false, some e, t2, Status.returned⟩, []⟩
    | (Except.ok disks, t2) =>
      match getDomainBlockDeviceNamesOrPaths lib t2 true with
      | (Except.error e, t3) => ⟨⟨false, some e, t3, Status.returned⟩, []⟩
      | (Except.ok paths2, t3) =>
        match commitDisks lib fuel disks [] t3 with
        | none => ⟨⟨false, none, t3, Status.unfinished⟩, []⟩
        | some ⟨some err, waits, t4⟩ => ⟨⟨false, err, t4, Status.returned⟩, waits⟩
        | some ⟨none, waits, t4⟩ => ⟨finishBackup lib t4 paths2, waits⟩

/-- The body of `MakeBackup` once the gates are passed. -/
def makeBackupBody (lib : Lib) (t : List Call) (fuel : Nat) : BackupRun :=
  match prepareXMLForSnapshot lib t "external.snapshot.qcow2" false with
  | ((_, some e), t1) => ⟨⟨false, some e, t1, Status.returned⟩, []⟩
  | ((xml, none), t1) =>
    match getDomainBlockDeviceNamesOrPaths lib t1 true with
    | (Except.error e, t2) => ⟨⟨false, some e, t2, Status.returned⟩, []⟩
    | (Except.ok paths, t2) =>
      match makeDomainSnapshot lib t2
        ["DOMAIN_SNAPSHOT_CREATE_DISK_ONLY", "DOMAIN_SNAPSHOT_CREATE_QUIESCE",
          "DOMAIN_SNAPSHOT_CREATE_ATOMIC", "DOMAIN_SNAPSHOT_CREATE_NO_METADATA"] xml with
      | ((_, some e), t3) => ⟨⟨false, some e, t3, Status.returned⟩, []⟩
      | ((false, none), t3) => ⟨⟨false, none, t3, Status.returned⟩, []⟩
      | ((true, none), t3) => backupAfterSnapshot lib t3 paths fuel

/-- The guest-agent queries `getQemuAgentInfoResponse` makes once the agent answered the
ping; their answers only fill the response and are not modelled. -/
def agentQueries : List String :=
  ["guest-info", "guest-get-time", "guest-get-fsinfo", "guest-get-osinfo", "guest-get-timezone",
    "guest-get-host-name", "guest-network-get-interfaces", "guest-file-read /proc/loadavg",
    "guest-file-read /etc/passwd", "guest-file-read /proc/uptime"]

/-- `getQemuAgentInfoResponse(ctx, d)`, reduced to its `Available` field and its calls. -/
def getQemuAgentInfoResponse (lib : Lib) (t : List Call) : Bool × List Call :=
  match lib.exec t (Call.guestAgent "guest-ping") with
  | (some _, t1) => (false, t1)
  | (none, t1) => (true, t1 ++ agentQueries.map Call.guestAgent)

/-! ## JSON-RPC handlers (`jrpc.go`) -/

/-- What a handler runs against: the lock registry, the other goroutines, the library. -/
structure World where
  reg : Registry := []
  env : Interference := quiet
  lib : Lib := {}

/-- What a handler hands back, the library calls it made and the registry it leaves. -/
structure HandlerResult where
  ok : Bool
  err : Option String
  calls : List Call
  registry : Registry
  status : Status := Status.returned
  waits : List (String × WaitExit) := []
  deriving DecidableEq, Repr

/-- The activity gate of a handler: refuse with `msg` when `isDomainActive` equals `whenActive`. -/
def activeGate (lib : Lib) (t : List Call) : Option (Bool × String) → Option String × List Call
  | none => (none, t)
  | some (whenActive, msg) =>
    match isDomainActive lib t with
    | (isActive, t1) => (if isActive = whenActive then some msg else none, t1)

/-- The block-job gate every handler has. -/
def blockJobGate (lib : Lib) (t : List Call) : Option String × List Call :=
  match isDomainBlockJobRunning lib t with
  | ((_, some e), t1) => (some e, t1)
  | ((true, none), t1) => (some "sanity lock, block device job is currently in process", t1)
  | ((false, none), t1) => (none, t1)

/-- The external-snapshot gate of a handler, refusing with `msg`. -/
def snapshotGate (lib : Lib) (t : List Call) : Option String → Option String × List Call
  | none => (none, t)
  | some msg =>
    match isDomainBlockHasActiveExternalBackupSnashot lib t with
    | ((_, some e), t1) => (some e, t1)
    | ((true, none), t1) => (some msg, t1)
    | ((false, none), t1) => (none, t1)

/-- The gates of a handler in the order of the code: activity, block job, external snapshot. -/
def gates (lib : Lib) (t : List Call) (active : Option (Bool × String))
    (snapshot : Option String) : Option String × List Call :=
  match activeGate lib t active with
  | (some e, t1) => (some e, t1)
  | (none, t1) =>
    match blockJobGate lib t1 with
    | (some e, t2) => (some e, t2)
    | (none, t2) => snapshotGate lib t2 snapshot

/-- The shape all domain handlers share: take the lock with a budget of 10, open a
read-write connection, look the domain up, pass the gates, run the operation. -/
def domainHandler (w : World) (Domain : String) (active : Option (Bool × String))
    (snapshot : Option String) (body : Lib → List Call → BackupRun) : HandlerResult :=
  let l := isLockedAndMakeLock w.env w.reg Domain 10
  if l.locked then
    ⟨false, some "thread safety lock, function is temporarily unavailable", [], l.registry,
      Status.returned, []⟩
  else
    match w.lib.exec [] (Call.openConnection "rw") with
    | (some e, t1) => ⟨false, some e, t1, l.registry, Status.returned, []⟩
    | (none, t1) =>
      match w.lib.exec t1 (Call.lookupDomainByName Domain) with
      | (some e, t2) => ⟨false, some e, t2, l.registry, Status.returned, []⟩
      | (none, t2) =>
        match gates w.lib t2 active snapshot with
        | (some e, t3) => ⟨false, some e, t3, l.registry, Status.returned, []⟩
        | (none, t3) =>
          let r := body w.lib t3
          ⟨r.result.ok, r.result.err, r.result.calls, l.registry, r.result.status, r.waits⟩

/-- A handler tail that keeps no record of waits. -/
def plain (r : BodyResult) : BackupRun := ⟨r, []⟩

/-- `QemuAgentInfo`: the `ok` field is the `Available` field of the response. -/
def QemuAgentInfo (w : World) (Domain : String) : HandlerResult :=
  domainHandler w Domain (some (false, "domain must be active while setting maximum memory value"))
    none fun lib t =>
      match getQemuAgentInfoResponse lib t with
      | (available, t1) => plain ⟨available, none, t1, Status.returned⟩

/-- `SetPVIDForNetworkDevice`. -/
def SetPVIDForNetworkDevice (w : World) (Domain MAC : String) (PVID : Nat) : HandlerResult :=
  domainHandler w Domain none none fun lib t =>
    plain (ofPair (setPVIDForDomainNetworkDevice lib t MAC PVID))

/-- `SetNetworkSpeed`. -/
def SetNetworkSpeed (w : World) (Domain : String) (Speed : Nat) : HandlerResult :=
  domainHandler w Domain none none fun lib t =>
    plain (ofPair (setDomainMetadataNetworkRate lib t Speed))

/-- `SetPassword`. -/
def SetPassword (w : World) (Domain VMUser VMPassword : String) : HandlerResult :=
  domainHandler w Domain none none fun lib t =>
    plain (ofError (setGuestPassword lib t VMUser VMPassword))

/-- `SetMemory`. -/
def SetMemory (w : World) (Domain : String) (Memory : Nat) : HandlerResult :=
  domainHandler w Domain none none fun lib t =>
    plain (ofError (setDomainCurrentMemory lib t Memory))

/-- `SetMemoryStatsPeriod`. -/
def SetMemoryStatsPeriod (w : World) (Domain : String) (Period : Int) : HandlerResult :=
  domainHandler w Domain none none fun lib t =>
    plain (ofError (setDomainMemoryStatsPeriod lib t Period))

/-- `SetMaxMemory`. -/
def SetMaxMemory (w : World) (Domain : String) (Memory : Nat) : HandlerResult :=
  domainHandler w Domain
    (some (true, "domain must not be active while setting maximum memory value")) none
    fun lib t => plain (ofError (setDomainMaxMemory lib t Memory))

/-- `SetVCPUs`. -/
def SetVCPUs (w : World) (Domain : String) (VCPUsNum : Nat) : HandlerResult :=
  domainHandler w Domain none none fun lib t =>
    plain (ofError (setDomainCurrentVCPUs lib t VCPUsNum))

/-- `SetMaxVCPUs`. -/
def SetMaxVCPUs (w : World) (Domain : String) (VCPUsNum : Nat) : HandlerResult :=
  domainHandler w Domain
    (some (true, "domain must not be active while setting maximum vCPU value")) none
    fun lib t => plain (ofError (setDomainMaxVCPUs lib t VCPUsNum))

/-- `SetDomainSchedulerCPUShares`. -/
def SetDomainSchedulerCPUShares (w : World) (Domain : String) (CPUShares : Nat) :
    HandlerResult :=
  domainHandler w Domain none none fun lib t =>
    plain (ofError (setDomainSchedulerCPUShares lib t CPUShares))

/-- `SetDomainDeviceIOPS`. -/
def SetDomainDeviceIOPS (w : World) (Domain Device : String) (Read Write : Nat) :
    HandlerResult :=
  domainHandler w Domain none none fun lib t =>
    plain (ofError (setDomainBlockIoTune lib t Device Read Write))

/-- `SetAutostart`. -/
def SetAutostart (w : World) (Domain : String) (Autostart : Bool) : HandlerResult :=
  domainHandler w Domain none none fun lib t =>
    plain (ofError (setDomainAutostart lib t Autostart))

/-- `Reboot`. -/
def Reboot (w : World) (Domain : String) : HandlerResult :=
  domainHandler w Domain none none fun lib t =>
    plain (ofError (rebootDomain lib t ["DOMAIN_REBOOT_DEFAULT"]))

/-- `Shutdown`. -/
def Shutdown (w : World) (Domain : String) : HandlerResult :=
  domainHandler w Domain none none fun lib t =>
    plain (ofError (shutdownDomain lib t ["DOMAIN_SHUTDOWN_DEFAULT"]))

/-- `Reset`. -/
def Reset (w : World) (Domain : String) : HandlerResult :=
  domainHandler w Domain none none fun lib t => plain (ofError (resetDomain lib t))

/-- `Start`. -/
def Start (w : World) (Domain : String) : HandlerResult :=
  domainHandler w Domain none none fun lib t => plain (ofError (startDomain lib t))

/-- `Destroy`. -/
def Destroy (w : World) (Domain : String) : HandlerResult :=
  domainHandler w Domain (some (true, "domain must not be active while being destroyed"))
    (some "sanity lock, domain has unfinished internal backup")
    fun lib t => plain (destroyDomain lib t ["DOMAIN_DESTROY_GRACEFUL"])

/-- `MakeSnapshot`. -/
def MakeSnapshot (w : World) (Domain Name : String) : HandlerResult :=
  domainHandler w Domain
    (some (true, "domain must not be active while creating internal snapshot"))
    (some "sanity lock, domain has unfinished internal backup")
    fun lib t =>
      match prepareXMLForSnapshot lib t Name true with
      | ((_, some e), t1) => plain ⟨false, some e, t1, Status.returned⟩
      | ((xml, none), t1) =>
        plain (ofPair (makeDomainSnapshot lib t1
          ["DOMAIN_SNAPSHOT_CREATE_ATOMIC", "DOMAIN_SNAPSHOT_CREATE_HALT"] xml))

/-- `RemoveSnapshot`. -/
def RemoveSnapshot (w : World) (Domain Name : String) : HandlerResult :=
  domainHandler w Domain (some (true, "domain must not be active while deleting snapshot"))
    (some "sanity lock, domain has unfinished internal backup")
    fun lib t =>
      match lookupDomainSnapshotByName lib t Name with
      | (some e, t1) => plain ⟨false, some e, t1, Status.returned⟩
      | (none, t1) => plain (ofPair (deleteSnapshot lib t1 Name))

/-- `RevertToSnapshot`. -/
def RevertToSnapshot (w : World) (Domain Name : String) : HandlerResult :=
  domainHandler w Domain (some (true, "domain must not be active while reverting to snapshot"))
    (some "sanity lock, domain has unfinished internal backup")
    fun lib t =>
      match lookupDomainSnapshotByName lib t Name with
      | (some e, t1) => plain ⟨false, some e, t1, Status.returned⟩
      | (none, t1) => plain (ofPair (revertToSnapshot lib t1 Name))

/-- `MakeBackup`; `fuel` bounds the iterations of each wait loop in the model. -/
def MakeBackup (w : World) (Domain : String) (fuel : Nat) : HandlerResult :=
  domainHandler w Domain (some (false, "domain must be active while creating backup"))
    (some "sanity lock, domain has unfinished backup")
    fun lib t => makeBackupBody lib t fuel

/-- The domain-scoped mutations of the JSON-RPC surface, with their arguments. -/
inductive Mutation where
  | Start
  | Shutdown
  | Reboot
  | Reset
  | Destroy
  | SetMemory (Memory : Nat)
  | SetMaxMemory (Memory : Nat)
  | SetMemoryStatsPeriod (Period : Int)
  | SetVCPUs (VCPUsNum : Nat)
  | SetMaxVCPUs (VCPUsNum : Nat)
  | SetDomainSchedulerCPUShares (CPUShares : Nat)
  | SetDomainDeviceIOPS (Device : String) (Read Write : Nat)
  | SetAutostart (Autostart : Bool)
  | SetPassword (VMUser VMPassword : String)
  | SetNetworkSpeed (Speed : Nat)
  | SetPVIDForNetworkDevice (MAC : String) (PVID : Nat)
  | MakeSnapshot (Name : String)
  | RemoveSnapshot (Name : String)
  | RevertToSnapshot (Name : String)
  | MakeBackup (fuel : Nat)
  deriving DecidableEq, Repr

/-- Dispatch of a mutation on `Domain` to its handler. -/
def Mutation.run (w : World) (Domain : String) : Mutation → HandlerResult
  | Mutation.Start => LibvirtRpc.Start w Domain
  | Mutation.Shutdown => LibvirtRpc.Shutdown w Domain
  | Mutation.Reboot => LibvirtRpc.Reboot w Domain
  | Mutation.Reset => LibvirtRpc.Reset w Domain
  | Mutation.Destroy => LibvirtRpc.Destroy w Domain
  | Mutation.SetMemory m => LibvirtRpc.SetMemory w Domain m
  | Mutation.SetMaxMemory m => LibvirtRpc.SetMaxMemory w Domain m
  | Mutation.SetMemoryStatsPeriod p => LibvirtRpc.SetMemoryStatsPeriod w Domain p
  | Mutation.SetVCPUs n => LibvirtRpc.SetVCPUs w Domain n
  | Mutation.SetMaxVCPUs n => LibvirtRpc.SetMaxVCPUs w Domain n
  | Mutation.SetDomainSchedulerCPUShares c => LibvirtRpc.SetDomainSchedulerCPUShares w Domain c
  | Mutation.SetDomainDeviceIOPS dev r wr => LibvirtRpc.SetDomainDeviceIOPS w Domain dev r wr
  | Mutation.SetAutostart a => LibvirtRpc.SetAutostart w Domain a
  | Mutation.SetPassword u p => LibvirtRpc.SetPassword w Domain u p
  | Mutation.SetNetworkSpeed s => LibvirtRpc.SetNetworkSpeed w Domain s
  | Mutation.SetPVIDForNetworkDevice mac pvid => LibvirtRpc.SetPVIDForNetworkDevice w Domain mac pvid
  | Mutation.MakeSnapshot n => LibvirtRpc.MakeSnapshot w Domain n
  | Mutation.RemoveSnapshot n => LibvirtRpc.RemoveSnapshot w Domain n
  | Mutation.RevertToSnapshot n => LibvirtRpc.RevertToSnapshot w Domain n
  | Mutation.MakeBackup fuel => LibvirtRpc.MakeBackup w Domain fuel

/-! ## Reading a trace -/

/-- The paths looked up with `LookupStorageVolByPath`, in order. -/
def lookupsOf (calls : List Call) : List String :=
  calls.filterMap fun c =>
    match c with
    | Call.lookupStorageVolByPath path => some path
    | _ => none

/-- The volumes deleted, in order. -/
def deletesOf (calls : List Call) : List String :=
  calls.filterMap fun c =>
    match c with
    | Call.storageVolDelete vol _ => some vol
    | _ => none

/-- The disks for which `BlockJobAbort` was called with the pivot flag, in order. -/
def pivotsOf (calls : List Call) : List String :=
  calls.filterMap fun c =>
    match c with
    | Call.blockJobAbort disk flags =>
      if "DOMAIN_BLOCK_JOB_ABORT_PIVOT" ∈ flags then some disk else none
    | _ => none

/-- The condition of the specification on one probe: the probe was answered and
`cur == end > 0`. -/
def probeComplete (p : Except String blockJobInfo) : Bool :=
  match p with
  | Except.ok jobInfo => jobInfo.Cur = jobInfo.End && jobInfo.End > 0
  | Except.error _ => false

/-- The condition the loop counts on one probe. -/
def probeReady (p : Except String blockJobInfo) : Bool :=
  match p with
  | Except.ok jobInfo => commitReady jobInfo
  | Except.error _ => false

/-- Whether three consecutive entries of the list are all `true`. -/
def threeInARow : List Bool → Bool
  | a :: b :: c :: rest => (a && b && c) || threeInARow (b :: c :: rest)
  | _ => false

/-- The trace `t2` is `t1` followed by calls that all satisfy `P`. -/
def Extends (P : Call → Prop) (t1 t2 : List Call) : Prop :=
  ∃ new, t2 = t1 ++ new ∧ ∀ c ∈ new, P c

/-- A call that is not a mutation. -/
def ReadOnly (c : Call) : Prop := c.mutating = false

/-- A call that is not a `BlockJobAbort` with the pivot flag. -/
def NotPivot (c : Call) : Prop := pivotsOf [c] = []

/-- A handler refused: it returned `false` with an error, and none of the library calls it
made is a mutation. -/
def Refused (r : HandlerResult) : Prop :=
  r.ok = false ∧ r.err ≠ none ∧ r.status = Status.returned ∧ ∀ c ∈ r.calls, c.mutating = false

/-- The mutations the gate table allows on a stopped domain only. -/
def Mutation.stoppedOnly : Mutation → Bool
  | Mutation.Destroy => true
  | Mutation.SetMaxMemory _ => true
  | Mutation.SetMaxVCPUs _ => true
  | Mutation.MakeSnapshot _ => true
  | Mutation.RevertToSnapshot _ => true
  | Mutation.RemoveSnapshot _ => true
  | Mutation.SetPVIDForNetworkDevice _ _ => true
  | _ => false

/-! ## Concrete registries, libraries and worlds used as examples -/

/-- Another goroutine removes the entry of `vm01` during the second sleep. -/
def releaseAtSecondPoll : Interference :=
  fun i r => if i = 2 then Registry.delete r "vm01" else r

/-- The number of block-job probes in a trace. -/
def probeCount (calls : List Call) : Nat :=
  (calls.filter fun c => match c with
    | Call.getBlockJobInfo _ => true
    | _ => false).length

/-- A domain whose only disk `sda` is an image named `myexternal.snapshot.qcow2`, with no
registered external snapshot. -/
def undottedLib : Lib :=
  { getXMLDesc := fun _ _ => Except.ok
      ⟨some { Disks := [⟨"disk", some "sda",
        some "/var/lib/libvirt/images/myexternal.snapshot.qcow2", false, false, false⟩] }⟩ }

/-- An active commit on `sda` that reports completion on the first probe, progress 50/100
on the second, and completion again on the third and fourth; the clock stays within budget. -/
def flickerLib : Lib :=
  { getBlockJobInfo := fun t _ =>
      if probeCount t = 1 then Except.ok ⟨DomainBlockJobType.activeCommit, 0, 50, 100⟩
      else Except.ok ⟨DomainBlockJobType.activeCommit, 0, 100, 100⟩ }

/-- A running domain `vm01` with one disk `sda` on which a block pull is in progress. -/
def pullingLib : Lib :=
  { isActive := fun _ => Except.ok true
    getXMLDesc := fun _ _ => Except.ok
      ⟨some { Disks := [⟨"disk", some "sda", some "/var/lib/libvirt/images/vm01.qcow2",
        false, false, false⟩] }⟩
    getBlockJobInfo := fun _ _ => Except.ok ⟨DomainBlockJobType.pull, 0, 10, 100⟩ }

/-- A running domain `vm01` with one disk `sda` and no block job. -/
def runningLib : Lib :=
  { isActive := fun _ => Except.ok true
    getXMLDesc := fun _ _ => Except.ok
      ⟨some { Disks := [⟨"disk", some "sda", some "/var/lib/libvirt/images/vm01.qcow2",
        false, false, false⟩] }⟩ }

/-- Two overlay files that pass the deletion filter and one path that does not. -/
def overlayPaths : List String :=
  ["/var/lib/libvirt/images/a.external.snapshot.qcow2", "/tmp/b.external.snapshot.qcow2",
    "/var/lib/libvirt/images/c.external.snapshot.qcow2"]

/-! ## Guest-agent file read (`agent.go`) -/

/-- The alphabet of `base64.StdEncoding` (RFC 4648). -/
def encodeStd : List Char :=
  "ABCDEFGHIJKLMNOPQRSTUVWXYZabcdefghijklmnopqrstuvwxyz0123456789+/".toList

/-- The character that stands for the six-bit value `n`. -/
def b64Char (n : Nat) : Char := encodeStd.getD n 'A'

/-- The six-bit value a character stands for, if it is in the alphabet. -/
def b64Value (c : Char) : Option Nat :=
  if encodeStd.indexOf c < 64 then some (encodeStd.indexOf c) else none

/-- `base64.StdEncoding.EncodeToString`: three bytes give four characters; a last group of
one or two bytes is padded with `=`. -/
def stdEncodeChars : Bytes → List Char
  | a :: b :: c :: rest =>
    [b64Char (a.val / 4), b64Char (a.val % 4 * 16 + b.val / 16),
      b64Char (b.val % 16 * 4 + c.val / 64), b64Char (c.val % 64)] ++ stdEncodeChars rest
  | [a, b] =>
    [b64Char (a.val / 4), b64Char (a.val % 4 * 16 + b.val / 16), b64Char (b.val % 16 * 4), '=']
  | [a] => [b64Char (a.val / 4), b64Char (a.val % 4 * 16), '=', '=']
  | [] => []

/-- The standard base64 encoding of a byte string. -/
def stdEncode (p : Bytes) : String := String.mk (stdEncodeChars p)

/-- The decoder of `base64.StdEncoding` on input without line breaks: groups of four
characters, padding only in the last group, no strict check of the unused bits. -/
def stdDecodeChars : List Char → Except String Bytes
  | [] => Except.ok []
  | a :: b :: c :: d :: rest =>
    if rest = [] ∧ c = '=' ∧ d = '=' then
      match b64Value a, b64Value b with
      | some x, some y => Except.ok [Fin.ofNat (x * 4 + y / 16)]
      | _, _ => Except.error "illegal base64 data"
    else if rest = [] ∧ d = '=' then
      match b64Value a, b64Value b, b64Value c with
      | some x, some y, some z =>
        Except.ok [Fin.ofNat (x * 4 + y / 16), Fin.ofNat (y % 16 * 16 + z / 4)]
      | _, _, _ => Except.error "illegal base64 data"
    else
      match b64Value a, b64Value b, b64Value c, b64Value d with
      | some x, some y, some z, some w =>
        match stdDecodeChars rest with
        | Except.ok more =>
          Except.ok (Fin.ofNat (x * 4 + y / 16) :: Fin.ofNat (y % 16 * 16 + z / 4) ::
            Fin.ofNat (z % 4 * 64 + w) :: more)
        | Except.error e => Except.error e
      | _, _, _, _ => Except.error "illegal base64 data"
  | _ => Except.error "illegal base64 data"

/-- `base64.StdEncoding.DecodeString`: carriage returns and line feeds are skipped; the
position the library adds to its error message is left out. -/
def stdDecodeString (s : String) : Except String Bytes :=
  stdDecodeChars (s.toList.filter fun c => c ≠ '\r' ∧ c ≠ '\n')

/-- The command `guestFileRead` sends for the handle `fd`. -/
def fileReadCommand (fd : Int) : String :=
  "\x7b\"execute\": \"guest-file-read\",\"arguments\": \x7b\"handle\": " ++ toString fd ++
    "\x7d\x7d"

/-- The part of `guestFileRead` that follows the parse of the answer. -/
def checkFileRead (r : FileReadReturn) : Bytes × Option String :=
  if !r.EOF then ([], some "not reached EOF")
  else
    match stdDecodeString r.BufB64 with
    | Except.error e => ([], some e)
    | Except.ok decoded =>
      if (decoded.length : Int) ≠ r.Count then
        ([], some "decoded base64 payload does not match original string size")
      else (decoded, none)

/-- `guestFileRead(ctx, d, fd)`: the Go pair `(string, error)` and the trace. -/
def guestFileRead (lib : Lib) (t : List Call) (fd : Int) :
    (Bytes × Option String) × List Call :=
  match lib.agentFileRead t fd with
  | Except.error e => (([], some e), t ++ [Call.guestAgent (fileReadCommand fd)])
  | Except.ok s => (checkFileRead s, t ++ [Call.guestAgent (fileReadCommand fd)])

/-- The bytes of the text `short`. -/
def shortBytes : Bytes := [115, 104, 111, 114, 116]

/-- An agent whose `guest-file-read` answer is `count: 10`, the encoding of `short`, `eof: true`. -/
def shortReadLib : Lib :=
  { agentFileRead := fun _ _ => Except.ok ⟨10, "c2hvcnQ=", true⟩ }

/-- An agent whose `guest-file-read` answer is `count: 5`, the encoding of `short`, `eof: true`. -/
def exactReadLib : Lib :=
  { agentFileRead := fun _ _ => Except.ok ⟨5, "c2hvcnQ=", true⟩ }

/-! ## Validation of a new domain (`uuid.go`, `domain.go`, `cpu.go`, `memory.go`,
`storage.go`, `sriov.go`, `validate.go`) -/

/-- A read-only query of the host, recorded by the name of the library function. -/
def Lib.ask (lib : Lib) (t : List Call) (name arg : String) : Option String × List Call :=
  lib.exec t (Call.query name arg)

/-- The pattern `uuidPattern`: hexadecimal digits in groups of 8, 4, 4, 4 and 12 joined by
hyphens, anchored at both ends. -/
def matchesUUIDPattern (uuid : String) : Bool :=
  uuid.toList.length = 36 &&
    (List.zip (List.range 36) uuid.toList).all fun p =>
      if p.1 = 8 ∨ p.1 = 13 ∨ p.1 = 18 ∨ p.1 = 23 then p.2 = '-' else isHexChar p.2

/-- `isUUIDValid(ctx, uuid)`. -/
def isUUIDValid (uuid : String) : Bool × Option String :=
  if !matchesUUIDPattern uuid then (false, some ("not valid UUID " ++ uuid)) else (true, none)

/-- The lower-case hexadecimal digit of a value below 16. -/
def hexDigit (n : Nat) : Char := "0123456789abcdef".toList.getD n '0'

/-- Two lower-case hexadecimal digits for a byte. -/
def hexByte (b : Nat) : List Char := [hexDigit (b / 16 % 16), hexDigit (b % 16)]

/-- The bytes `genUUID` formats: byte 6 becomes `(u[6] | 0x40) & 0x4F`, byte 8 becomes
`(u[8] | 0x80) & 0xBF`. -/
def uuidBytes (u : Bytes) : List Nat :=
  (List.range 16).map fun i =>
    if i = 6 then ((u.getD i 0).val ||| 0x40) &&& 0x4F
    else if i = 8 then ((u.getD i 0).val ||| 0x80) &&& 0xBF
    else (u.getD i 0).val

/-- The `%X-%X-%X-%X-%X` rendering of the sixteen bytes, lower-cased. -/
def formatUUID (b : List Nat) : String :=
  String.mk ((b.take 4).flatMap hexByte ++ ['-'] ++ ((b.drop 4).take 2).flatMap hexByte ++ ['-'] ++
    ((b.drop 6).take 2).flatMap hexByte ++ ['-'] ++ ((b.drop 8).take 2).flatMap hexByte ++ ['-'] ++
    (b.drop 10).flatMap hexByte)

/-- `genUUID(ctx)`: the empty string when the random source fails. -/
def genUUID (lib : Lib) (t : List Call) : String × List Call :=
  match lib.randRead t with
  | Except.error _ => ("", t ++ [Call.query "rand.Read" "16"])
  | Except.ok u => (formatUUID (uuidBytes u), t ++ [Call.query "rand.Read" "16"])

/-- A character of the class `[0-9a-zA-Z]|-|_` of `namePattern`. -/
def isNameChar (c : Char) : Bool :=
  ('0' ≤ c && c ≤ '9') || ('a' ≤ c && c ≤ 'z') || ('A' ≤ c && c ≤ 'Z') || c = '-' || c = '_'

/-- `regexp.Match(namePattern, name)` for `namePattern = "([0-9a-zA-Z]|-|_)+"`: the
pattern has no anchors, so it matches when some character of the name is in the class. -/
def matchesNamePattern (name : String) : Bool := name.toList.any isNameChar

/-- `isDomainExists(ctx, c, domain)`. -/
def isDomainExists (lib : Lib) (t : List Call) (domain : String) : Bool × List Call :=
  match lib.exec t (Call.lookupDomainByName domain) with
  | (some _, t1) => (false, t1)
  | (none, t1) => (true, t1)

/-- `isDomainNameValidAndAvailable(ctx, c, name)`. -/
def isDomainNameValidAndAvailable (lib : Lib) (t : List Call) (name : String) :
    (Bool × Option String) × List Call :=
  if name.length = 0 then ((false, some "domain name is empty"), t)
  else if !matchesNamePattern name then
    ((false, some ("not valid name, should contain only this symbols: (0-9,a-z,A-Z,_,-): " ++
      name)), t)
  else
    match isDomainExists lib t name with
    | (true, t1) => ((false, some ("domain: " ++ name ++ " already exists")), t1)
    | (false, t1) => ((true, none), t1)

/-- `getNodeInfo(ctx, c)`. -/
def getNodeInfo (lib : Lib) (t : List Call) : Except String NodeInfo × List Call :=
  (lib.nodeInfo t, t ++ [Call.query "GetNodeInfo" ""])

/-- `uint(v)` for a Go `int`: the value modulo `2^64`. -/
def toUint (v : Int) : Nat := (v % 2 ^ 64).toNat

/-- `isVCPUAvailable(ctx, c, vCPU)`. -/
def isVCPUAvailable (lib : Lib) (t : List Call) (vCPU : Int) :
    (Bool × Option String) × List Call :=
  match getNodeInfo lib t with
  | (Except.error e, t1) => ((false, some e), t1)
  | (Except.ok nodeInfo, t1) =>
    if vCPU = 0 then ((false, some "vCPU can not be 0"), t1)
    else if toUint vCPU > nodeInfo.Cpus then
      ((false, some ("amount of vCPUs: " ++ toString vCPU ++
        " are greater than physically available hypervisor cores: " ++
        toString nodeInfo.Cpus)), t1)
    else ((true, none), t1)

/-- Subtraction of `uint64` values: the difference modulo `2^64`. -/
def subUint64 (a b : Nat) : Nat := ((a : Int) - (b : Int)) % 2 ^ 64 |>.toNat

/-- The adjustments `getNodeMemoryStats` makes to the parsed fields: `Available` falls
back to `Free` when it exceeds `Total`; `Used` is computed in `uint64`, and is replaced
when it is below zero. -/
def adjustMemoryStats (m : nodeMemoryStats) : nodeMemoryStats :=
  let m1 := if m.Available > m.Total then { m with Available := m.Free } else m
  let m2 := { m1 with
    Used := subUint64 (subUint64 (subUint64 m1.Total m1.Free) m1.Cached) m1.Buffers }
  if m2.Used < 0 then { m2 with Used := subUint64 m2.Total m2.Free } else m2

/-- `getNodeMemoryStats(ctx)`. -/
def getNodeMemoryStats (lib : Lib) (t : List Call) :
    Except String nodeMemoryStats × List Call :=
  match lib.procMeminfo t with
  | Except.error e =>
    (Except.error ("failed to parse /proc/meminfo: " ++ e),
      t ++ [Call.query "ReadFile" "/proc/meminfo"])
  | Except.ok m => (Except.ok (adjustMemoryStats m), t ++ [Call.query "ReadFile" "/proc/meminfo"])

/-- `isMemoryAvailable(ctx, c, memory)`: `memory` is a `uint`, and `2 * memory` is computed
in 64 bits. -/
def isMemoryAvailable (lib : Lib) (t : List Call) (memory : Nat) :
    (Bool × Option String) × List Call :=
  let maxMemory := 2 * memory % 2 ^ 64
  match getNodeMemoryStats lib t with
  | (Except.error e, t1) => ((false, some e), t1)
  | (Except.ok nodeMemStats, t1) =>
    if memory = 0 then ((false, some "memory can not be 0"), t1)
    else if memory < 256 * 1024 then
      ((false, some "memory can not be lesser that 256 MB"), t1)
    else if maxMemory > nodeMemStats.Available then
      ((false, some ("amount of maximum memory for domain: " ++ toString maxMemory ++
        " KiB is greater than available memory on hypervisor: " ++
        toString nodeMemStats.Free ++ " KiB")), t1)
    else ((true, none), t1)

/-- `lookupPoolByName(ctx, c, name)`: the error, if the pool is not found. -/
def lookupPoolByName (lib : Lib) (t : List Call) (name : String) : Option String × List Call :=
  lib.ask t "LookupStoragePoolByName" name

/-- `getPoolInfo(ctx, p)`. -/
def getPoolInfo (lib : Lib) (t : List Call) (pool : String) :
    Except String StoragePoolInfo × List Call :=
  (lib.poolInfo t pool, t ++ [Call.query "StoragePool.GetInfo" pool])

/-- `getPoolPath(ctx, p)`. -/
def getPoolPath (lib : Lib) (t : List Call) (pool : String) : Except String String × List Call :=
  (lib.poolPath t pool, t ++ [Call.query "StoragePool.GetXMLDesc" pool])

/-- `listPoolVolumes(ctx, p)`. -/
def listPoolVolumes (lib : Lib) (t : List Call) (pool : String) :
    Except String (List String) × List Call :=
  (lib.poolVolumes t pool, t ++ [Call.query "StoragePool.ListStorageVolumes" pool])

/-- `isStorageAvailable(ctx, c, poolName)`. -/
def isStorageAvailable (lib : Lib) (t : List Call) (poolName : String) :
    (Bool × Option String) × List Call :=
  if poolName.length = 0 then ((false, some "storage pool name can not be empty"), t)
  else
    match lookupPoolByName lib t poolName with
    | (some e, t1) => ((false, some e), t1)
    | (none, t1) =>
      match getPoolInfo lib t1 poolName with
      | (Except.error e, t2) => ((false, some e), t2)
      | (Except.ok poolInfo, t2) =>
        if !poolInfo.running then
          ((false, some ("storage pool " ++ poolName ++ " is not running normally")), t2)
        else if poolInfo.Available < 50 * 1024 * 1024 * 1024 then
          ((false, some ("storage pool " ++ poolName ++ " free space at critical: levels " ++
            toString poolInfo.Available ++ " bytes")), t2)
        else ((true, none), t2)

/-- `isTemplateInsideStorageAvailable(ctx, c, storage, template)`. -/
def isTemplateInsideStorageAvailable (lib : Lib) (t : List Call) (storage template : String) :
    (Bool × Option String) × List Call :=
  match lookupPoolByName lib t storage with
  | (some e, t1) => ((false, some e), t1)
  | (none, t1) =>
    match listPoolVolumes lib t1 storage with
    | (Except.error e, t2) => ((false, some e), t2)
    | (Except.ok volumes, t2) =>
      if volumes.any (fun v => v = template) then ((true, none), t2)
      else
        ((false, some ("failed to find template: " ++ template ++ " in storage " ++ storage)),
          t2)

/-- `getInterfacesFromNetwork(ctx, net)`. -/
def getInterfacesFromNetwork (lib : Lib) (t : List Call) (net : String) :
    Except String (List String) × List Call :=
  (lib.networkAddresses t net, t ++ [Call.query "Network.GetXMLDesc" net])

/-- `getDomainsNetworkDevices(ctx, c)`, as one listing of all domains. -/
def getDomainsNetworkDevices (lib : Lib) (t : List Call) :
    Except String (List String) × List Call :=
  (lib.domainsNetworkDevices t, t ++ [Call.query "ListAllDomains" ""])

/-- The nested loops of `getNetworkVFCount`: one is added for every pair of a network
address and an equal domain address. -/
def countUsedVFs (netHostDevPciDevices netDomainPciDevices : List String) : Int :=
  netHostDevPciDevices.foldl
    (fun usedVFs hostDevAddr =>
      netDomainPciDevices.foldl
        (fun used domainAddr => if hostDevAddr = domainAddr then used + 1 else used) usedVFs)
    0

/-- `getNetworkVFCount(ctx, c, n)`: the Go triple `(usedVFs, totalVFs, err)`. -/
def getNetworkVFCount (lib : Lib) (t : List Call) (net : String) :
    (Int × Int × Option String) × List Call :=
  match getInterfacesFromNetwork lib t net with
  | (Except.error e, t1) => ((0, 0, some ("failed to get list of interfaces: " ++ e)), t1)
  | (Except.ok netHostDevPciDevices, t1) =>
    let totalVFs : Int := (netHostDevPciDevices.length : Int) - 1
    match getDomainsNetworkDevices lib t1 with
    | (Except.error e, t2) => ((0, 0, some ("failed to get list of pci devices: " ++ e)), t2)
    | (Except.ok netDomainPciDevices, t2) =>
      ((countUsedVFs netHostDevPciDevices netDomainPciDevices, totalVFs, none), t2)

/-- `isNetworkVFAvailable(ctx, c, network)`. -/
def isNetworkVFAvailable (lib : Lib) (t : List Call) (network : String) :
    (Bool × Option String) × List Call :=
  if network.length = 0 then ((false, some "network name can not be empty"), t)
  else
    match lib.ask t "LookupNetworkByName" network with
    | (some e, t1) => ((false, some ("network " ++ network ++ " does not exist: " ++ e)), t1)
    | (none, t1) =>
      match getNetworkVFCount lib t1 network with
      | ((_, _, some e), t2) =>
        ((false, some ("failed to get list of interfaces inside network " ++ network ++ ": " ++
          e)), t2)
      | ((usedVFs, totalVFs, none), t2) =>
        if usedVFs ≥ totalVFs then ((false, some "no empty network VF available"), t2)
        else ((true, none), t2)

/-- `validateCreateDomain(ctx, c, uuid, name, vCPU, memory, storage, template, network, mac)`. -/
def validateCreateDomain (lib : Lib) (t : List Call) (uuid name : String) (vCPU : Int)
    (memory : Nat) (storage template network mac : String) :
    (Bool × Option String) × List Call :=
  match isUUIDValid uuid with
  | (_, some e) => ((false, some e), t)
  | (false, none) => ((false, none), t)
  | (true, none) =>
    match isDomainNameValidAndAvailable lib t name with
    | ((_, some e), t1) => ((false, some e), t1)
    | ((false, none), t1) => ((false, none), t1)
    | ((true, none), t1) =>
      match isVCPUAvailable lib t1 vCPU with
      | ((_, some e), t2) => ((false, some e), t2)
      | ((false, none), t2) => ((false, none), t2)
      | ((true, none), t2) =>
        match isMemoryAvailable lib t2 memory with
        | ((_, some e), t3) => ((false, some e), t3)
        | ((false, none), t3) => ((false, none), t3)
        | ((true, none), t3) =>
          match isStorageAvailable lib t3 storage with
          | ((_, some e), t4) => ((false, some e), t4)
          | ((false, none), t4) => ((false, none), t4)
          | ((true, none), t4) =>
            match isTemplateInsideStorageAvailable lib t4 storage template with
            | ((_, some e), t5) => ((false, some e), t5)
            | ((false, none), t5) => ((false, none), t5)
            | ((true, none), t5) =>
              match isNetworkVFAvailable lib t5 network with
              | ((_, some e), t6) => ((false, some e), t6)
              | ((false, none), t6) => ((false, none), t6)
              | ((true, none), t6) =>
                match isMACvalid mac with
                | (_, some e) => ((false, some e), t6)
                | (false, none) => ((false, none), t6)
                | (true, none) => ((true, none), t6)

/-! ## Create (`domain.go`, `storage.go`, `jrpc.go`) -/

/-- The elements of a path between its slashes. -/
def splitSlash : List Char → List (List Char)
  | [] => [[]]
  | c :: rest =>
    if c = '/' then [] :: splitSlash rest
    else
      match splitSlash rest with
      | [] => [[c]]
      | head :: tail => (c :: head) :: tail

/-- One step of `filepath.Clean` over the elements, `kept` holding the elements kept so far,
last first: empty elements and `.` are dropped, `..` removes the element before it when
there is one that is not `..`, is dropped at the root, and is kept otherwise. -/
def cleanElements (rooted : Bool) : List (List Char) → List (List Char) → List (List Char)
  | [], kept => kept.reverse
  | e :: rest, kept =>
    if e = [] ∨ e = ['.'] then cleanElements rooted rest kept
    else if e = ['.', '.'] then
      match kept with
      | last :: before =>
        if last = ['.', '.'] then cleanElements rooted rest (e :: kept)
        else cleanElements rooted rest before
      | [] => if rooted then cleanElements rooted rest [] else cleanElements rooted rest [e]
    else cleanElements rooted rest (e :: kept)

/-- `filepath.Clean` on a slash-separated path. -/
def filepathClean (path : String) : String :=
  let rooted := path.toList.head? = some '/'
  let kept := cleanElements rooted (splitSlash path.toList) []
  let body := List.intercalate ['/'] kept
  if rooted then String.mk ('/' :: body)
  else if body = [] then "." else String.mk body

/-- `getNewDomainImageName(ctx, c, domainName, storagePoolName)`. -/
def getNewDomainImageName (lib : Lib) (t : List Call) (domainName storagePoolName : String) :
    Except String String × List Call :=
  match lookupPoolByName lib t storagePoolName with
  | (some e, t1) => (Except.error e, t1)
  | (none, t1) =>
    match getPoolPath lib t1 storagePoolName with
    | (Except.error e, t2) => (Except.error e, t2)
    | (Except.ok poolPath, t2) =>
      let imagePath := filepathClean (poolPath ++ "/" ++ domainName ++ ".qcow2")
      match lookupStorageVolByPath lib t2 imagePath with
      | (Except.ok _, t3) => (Except.error ("image: " ++ imagePath ++ " exists"), t3)
      | (Except.error _, t3) => (Except.ok imagePath, t3)

/-- `prepareXMLforNewDomain`: the constant template is taken to parse; the values written
into it are handed to `Marshal`. -/
def prepareXMLforNewDomain (lib : Lib) (t : List Call) (uuid name : String) (vCPU maxVCPUs : Int)
    (memory maxMemory : Nat) (storagePool network mac : String) (vlan : Nat) :
    Except String String × List Call :=
  match getNewDomainImageName lib t name storagePool with
  | (Except.error e, t1) => (Except.error e, t1)
  | (Except.ok imagePath, t1) =>
    (lib.marshalDomain ⟨name, uuid, maxMemory, memory, toString vCPU, maxVCPUs, imagePath, mac,
      network, vlan⟩, t1)

/-- `cloneVolumeByPath(ctx, c, storage, leftImageName, rightImageName)`. -/
def cloneVolumeByPath (lib : Lib) (t : List Call) (storage leftImageName rightImageName : String) :
    Option String × List Call :=
  match lookupPoolByName lib t storage with
  | (some e, t1) => (some e, t1)
  | (none, t1) =>
    match getPoolPath lib t1 storage with
    | (Except.error e, t2) => (some e, t2)
    | (Except.ok poolPath, t2) =>
      let volPath := filepathClean (poolPath ++ "/" ++ rightImageName)
      match lib.exec t2 (Call.query "StoragePool.LookupStorageVolByName" leftImageName) with
      | (some e, t3) => (some e, t3)
      | (none, t3) =>
        match lib.volumeCfg t3 leftImageName with
        | Except.error e => (some e, t3 ++ [Call.query "StorageVol.GetXMLDesc" leftImageName])
        | Except.ok volCfg =>
          let t4 := t3 ++ [Call.query "StorageVol.GetXMLDesc" leftImageName]
          if volCfg.hasBackingStore then (some "not cloning, volume has backing strore", t4)
          else
            match volCfg.Target with
            | none => (some "not cloning, volume has no target description", t4)
            | some _ =>
              match lib.marshalVolume
                { Name := rightImageName, Key := volPath, hasAllocation := false,
                  hasCapacity := false, hasPhysical := false, hasBackingStore := false,
                  Target := some (volPath, false) } with
              | Except.error e => (some e, t4)
              | Except.ok xml =>
                lib.exec t4 (Call.storageVolCreateXMLFrom storage xml leftImageName)

/-- `Create`: the lock key is `Local Hypervisor` and the budget 60. -/
def Create (w : World) (UUID Name : String) (VCPU : Int) (Memory : Nat)
    (Storage Template Network MAC : String) (VLAN : Nat) : HandlerResult :=
  let maxMemory := 2 * Memory % 2 ^ 64
  let maxVcpus : Int := 16
  let l := isLockedAndMakeLock w.env w.reg "Local Hypervisor" 60
  if l.locked then
    ⟨false, some "thread safety lock, function is temporarily unavailable", [], l.registry,
      Status.returned, []⟩
  else
    match w.lib.exec [] (Call.openConnection "rw") with
    | (some e, t1) => ⟨false, some e, t1, l.registry, Status.returned, []⟩
    | (none, t1) =>
      match (if UUID.length = 0 then genUUID w.lib t1 else (UUID, t1)) with
      | (uuid, t2) =>
        match validateCreateDomain w.lib t2 uuid Name VCPU Memory Storage Template Network
          MAC with
        | ((_, some e), t3) =>
          ⟨false, some ("failed to validate domain options: " ++ e), t3, l.registry,
            Status.returned, []⟩
        | ((false, none), t3) =>
          ⟨false, some "failed to validate domain options", t3, l.registry,
            Status.returned, []⟩
        | ((true, none), t3) =>
          match prepareXMLforNewDomain w.lib t3 uuid Name VCPU maxVcpus Memory maxMemory
            Storage Network MAC VLAN with
          | (Except.error e, t4) => ⟨false, some e, t4, l.registry, Status.returned, []⟩
          | (Except.ok xml, t4) =>
            match cloneVolumeByPath w.lib t4 Storage Template (Name ++ ".qcow2") with
            | (some e, t5) => ⟨false, some e, t5, l.registry, Status.returned, []⟩
            | (none, t5) =>
              match w.lib.exec t5 (Call.domainDefineXMLFlags xml ["DOMAIN_DEFINE_VALIDATE"]) with
              | (some e, t6) => ⟨false, some e, t6, l.registry, Status.returned, []⟩
              | (none, t6) => ⟨true, none, t6, l.registry, Status.returned, []⟩

/-! ## Node info (`info.go`) -/

/-- The `nodeNetwork` struct (`structs.go`). -/
structure nodeNetwork where
  Name : String
  UsedVFs : Int
  AvaliableVFs : Int
  TotalVFs : Int
  deriving DecidableEq, Repr

/-- The entry `getNodeInfoResponse` builds from a name and the pair of `getNetworkVFCount`:
a negative total becomes 0, and so does a negative difference. -/
def networkEntry (name : String) (usedVFs totalVFs : Int) : nodeNetwork :=
  let total := if totalVFs < 0 then 0 else totalVFs
  let available := total - usedVFs
  ⟨name, usedVFs, if available < 0 then 0 else available, total⟩

/-- `getNetworkName(ctx, n)`. -/
def getNetworkName (lib : Lib) (t : List Call) (net : String) : Except String String × List Call :=
  (lib.networkName t net, t ++ [Call.query "Network.GetName" net])

/-- The loop of `getNodeInfoResponse` over the networks: a network whose name or VF count
cannot be read is skipped. -/
def networkEntries (lib : Lib) : List String → List nodeNetwork → List Call →
    List nodeNetwork × List Call
  | [], acc, t => (acc, t)
  | net :: rest, acc, t =>
    match getNetworkName lib t net with
    | (Except.error _, t1) => networkEntries lib rest acc t1
    | (Except.ok name, t1) =>
      match getNetworkVFCount lib t1 net with
      | ((_, _, some _), t2) => networkEntries lib rest acc t2
      | ((usedVFs, totalVFs, none), t2) =>
        networkEntries lib rest (acc ++ [networkEntry name usedVFs totalVFs]) t2

/-- `listNetworks(ctx, c)`. -/
def listNetworks (lib : Lib) (t : List Call) : Except String (List String) × List Call :=
  (lib.networks t, t ++ [Call.query "ListAllNetworks" ""])

/-- The queries of `getNodeInfoResponse` whose error ends the call, before the networks are
listed: library version, node info, CPU stats, memory stats, number of domains, number of
networks. The host name, the uptime and the vCPU count fall back to a default instead. -/
def nodeInfoPrelude (lib : Lib) (t : List Call) : Option String × List Call :=
  let t0 := (lib.ask (lib.ask t "GetHostname" "").2 "ReadFile" "/proc/uptime").2
  match lib.ask t0 "GetLibVersion" "" with
  | (some e, t1) => (some e, t1)
  | (none, t1) =>
    match getNodeInfo lib t1 with
    | (Except.error e, t2) => (some e, t2)
    | (Except.ok _, t2) =>
      match lib.ask t2 "GetCPUStats" "" with
      | (some e, t3) => (some e, t3)
      | (none, t3) =>
        match getNodeMemoryStats lib t3 with
        | (Except.error e, t4) => (some e, t4)
        | (Except.ok _, t4) =>
          match lib.ask t4 "NumOfDomains" "" with
          | (some e, t5) => (some e, t5)
          | (none, t5) =>
            lib.ask (lib.ask t5 "ListAllDomains" "").2 "NumOfNetworks" ""

/-- `getNodeInfoResponse(ctx, c)`, reduced to the `Network` field of the response; of the
pool part only the listing, whose error ends the call, is kept. -/
def getNodeInfoResponse (lib : Lib) (t : List Call) : Except String (List nodeNetwork) × List Call :=
  match nodeInfoPrelude lib t with
  | (some e, t1) => (Except.error e, t1)
  | (none, t1) =>
    match listNetworks lib t1 with
    | (Except.error e, t2) => (Except.error e, t2)
    | (Except.ok networks, t2) =>
      match networkEntries lib networks [] t2 with
      | (entries, t3) =>
        match lib.listAllStoragePools t3 ["CONNECT_LIST_STORAGE_POOLS_DIR"] with
        | Except.error e =>
          (Except.error e, t3 ++ [Call.listAllStoragePools ["CONNECT_LIST_STORAGE_POOLS_DIR"]])
        | Except.ok _ =>
          (Except.ok entries, t3 ++ [Call.listAllStoragePools ["CONNECT_LIST_STORAGE_POOLS_DIR"]])

/-! ## Concrete hosts used as examples -/

/-- A host on which no domain is defined yet: every lookup of a domain by name fails.
The node has 8 CPUs and 16 GiB of available memory. -/
def freshHostLib : Lib :=
  { fails := fun _ c =>
      match c with
      | Call.lookupDomainByName _ => some "Domain not found"
      | _ => none
    nodeInfo := fun _ => Except.ok ⟨8⟩
    procMeminfo := fun _ => Except.ok { Total := 33554432, Available := 16777216 } }

/-- A network with two VF addresses; two defined domains both name the first one. -/
def sharedVFLib : Lib :=
  { networks := fun _ => Except.ok ["net0"]
    networkName := fun _ _ => Except.ok "pf-enp6s2f0"
    networkAddresses := fun _ _ => Except.ok ["0000:03:10.0", "0000:03:10.1"]
    domainsNetworkDevices := fun _ => Except.ok ["0000:03:10.0", "0000:03:10.0"] }

/-- A network with two VF addresses, the second of which one domain uses. -/
def secondVFUsedLib : Lib :=
  { networkAddresses := fun _ _ => Except.ok ["0000:03:10.0", "0000:03:10.1"]
    domainsNetworkDevices := fun _ => Except.ok ["0000:03:10.1"] }

/-- A network with a single VF address, which is used by a domain. -/
def onlyVFUsedLib : Lib :=
  { networks := fun _ => Except.ok ["net0"]
    networkName := fun _ _ => Except.ok "pf-enp6s2f0"
    networkAddresses := fun _ _ => Except.ok ["0000:03:10.0"]
    domainsNetworkDevices := fun _ => Except.ok ["0000:03:10.0"] }

/-- The world of the fresh host: no lock is held and nothing interferes. -/
def freshHostWorld : World := { lib := freshHostLib }

/-! ## The specification's wording, for comparison with the code -/

/-- The canonical form of a MAC address in the words of the specification: six octets of
two hexadecimal digits each, separated by colons. -/
def SixOctetForm (mac : String) : Prop :=
  ∃ octets : List (Char × Char), octets.length = 6 ∧
    (∀ o ∈ octets, isHexChar o.1 = true ∧ isHexChar o.2 = true) ∧
    mac.toList = List.intercalate [':'] (octets.map fun o => [o.1, o.2])

/-- One check of a validation: from the calls made so far to the Go pair `(ok, err)` and the
calls made after it. -/
abbrev Check := List Call → (Bool × Option String) × List Call

/-- The validation in the words of the specification: the checks run in order, and the first
one that does not return `(true, nil)` ends the run with `false` and its error. -/
def firstFailing : List Check → List Call → (Bool × Option String) × List Call
  | [], t => ((true, none), t)
  | c :: rest, t =>
    if (c t).1 = (true, none) then firstFailing rest (c t).2
    else ((false, (c t).1.2), (c t).2)

/-- Every check of the list passes, each run on the calls left by the ones before it. -/
def allPass : List Check → List Call → Prop
  | [], _ => True
  | c :: rest, t => (c t).1 = (true, none) ∧ allPass rest (c t).2

/-- The calls made once every check of the list has run. -/
def runAll (cs : List Check) (t : List Call) : List Call := cs.foldl (fun t1 c => (c t1).2) t

/-- The eight checks of a new domain in the order of the specification: UUID, name, vCPU,
memory, storage pool, template, network VFs, MAC. -/
def createChecks (lib : Lib) (uuid name : String) (vCPU : Int) (memory : Nat)
    (storage template network mac : String) : List Check :=
  [fun t => (isUUIDValid uuid, t),
   fun t => isDomainNameValidAndAvailable lib t name,
   fun t => isVCPUAvailable lib t vCPU,
   fun t => isMemoryAvailable lib t memory,
   fun t => isStorageAvailable lib t storage,
   fun t => isTemplateInsideStorageAvailable lib t storage template,
   fun t => isNetworkVFAvailable lib t network,
   fun t => (isMACvalid mac, t)]


/-! ## Network of a virtual function (`sriov.go`) -/

/-- The loop `NetworksLoop` of `getNetworkNameForVFAddress`: `name` is the variable that
every iteration assigns from `getNetworkName` (the empty string when that fails); the loop
ends early at the first network whose address list holds `vfAddr`. -/
def networksLoop (lib : Lib) (vfAddr : String) :
    List String → String → List Call → String × List Call
  | [], name, t => (name, t)
  | net :: rest, _, t =>
    match getNetworkName lib t net with
    | (Except.error _, t1) => networksLoop lib vfAddr rest "" t1
    | (Except.ok name, t1) =>
      match getInterfacesFromNetwork lib t1 net with
      | (Except.error _, t2) => networksLoop lib vfAddr rest name t2
      | (Except.ok netHostDevPciDevices, t2) =>
        if netHostDevPciDevices.any (fun hostDevAddr => hostDevAddr = vfAddr) then (name, t2)
        else networksLoop lib vfAddr rest name t2

/-- `getNetworkNameForVFAddress(ctx, c, vfAddr)`. -/
def getNetworkNameForVFAddress (lib : Lib) (t : List Call) (vfAddr : String) :
    Except String String × List Call :=
  match listNetworks lib t with
  | (Except.error e, t1) => (Except.error e, t1)
  | (Except.ok networks, t1) =>
    match networksLoop lib vfAddr networks "" t1 with
    | (name, t2) =>
      if name.length = 0 then (Except.error "no defined network matches search criteria", t2)
      else (Except.ok name, t2)

/-! ## Further hosts and domains used as examples -/

/-- A stopped domain `vm01` with one disk whose image is a volume of the pool `default`;
the volume cannot be deleted and is still there afterwards. -/
def leftoverLib : Lib :=
  { getXMLDesc := fun _ _ => Except.ok
      ⟨some { Disks := [⟨"disk", some "sda", some "/var/lib/libvirt/images/vm01.qcow2",
        false, false, false⟩] }⟩
    listAllStoragePools := fun _ _ => Except.ok ["default"]
    listAllStorageVolumes := fun _ _ => Except.ok ["vm01.qcow2"]
    volGetPath := fun _ _ => Except.ok "/var/lib/libvirt/images/vm01.qcow2"
    fails := fun _ c =>
      match c with
      | Call.storageVolDelete _ _ => some "volume is in use"
      | _ => none }

/-- The same domain on a host where the volume is deleted at the first request: a lookup of
its path succeeds before the deletion and fails after it. -/
def cleanDestroyLib : Lib :=
  { getXMLDesc := fun _ _ => Except.ok
      ⟨some { Disks := [⟨"disk", some "sda", some "/var/lib/libvirt/images/vm01.qcow2",
        false, false, false⟩] }⟩
    listAllStoragePools := fun _ _ => Except.ok ["default"]
    listAllStorageVolumes := fun _ _ => Except.ok ["vm01.qcow2"]
    volGetPath := fun _ _ => Except.ok "/var/lib/libvirt/images/vm01.qcow2"
    lookupStorageVolByPath := fun t p =>
      if "vm01.qcow2" ∈ deletesOf t then Except.error "Storage volume not found"
      else Except.ok p }

/-- A container whose `/proc/meminfo` reports more cached and buffered memory than the total
leaves room for (KiB). -/
def containerLib : Lib :=
  { procMeminfo := fun _ => Except.ok
      { Total := 8388608, Available := 4194304, Free := 1048576, Cached := 6291456,
        Buffers := 2097152 } }

/-- The XML `xml.Marshal` gives for the `Custom` struct of `setDomainMetadataNetworkRate`. -/
def renderCustom (children : List (String × String)) : String :=
  "<custom>" ++ String.join (children.map fun child =>
    "<network type=\"" ++ child.1 ++ "\">" ++ child.2 ++ "</network>") ++ "</custom>"

/-- A stopped domain whose metadata parses to rate 100, trust on, spoofchk off, query_rss
on and qos 5. -/
def meteredLib : Lib :=
  { getMetadata := fun _ => Except.ok ⟨100, "on", "off", "on", 5⟩
    marshalMetadata := fun children => Except.ok (renderCustom children) }

/-- A stopped domain with one interface, of MAC `52:54:00:11:22:33`, on the network
`pf-enp6s2f0`. -/
def otherMacLib : Lib :=
  { getXMLDesc := fun _ _ => Except.ok
      ⟨some { Interfaces := [⟨some "52:54:00:11:22:33", some (some "pf-enp6s2f0"), none⟩] }⟩ }

/-- A stopped domain whose only block device is a read-only CD-ROM. -/
def cdromOnlyLib : Lib :=
  { getXMLDesc := fun _ _ => Except.ok
      ⟨some { Disks := [⟨"cdrom", some "sdb", some "/var/lib/libvirt/iso/install.iso",
        true, false, false⟩] }⟩ }

/-- A stopped domain whose XML has no devices section. -/
def noDevicesLib : Lib :=
  { getXMLDesc := fun _ _ => Except.ok ⟨none⟩ }

/-- A host with no domain and no volume yet, whose pools have the target path
`/var/lib/libvirt/images`. -/
def imagesPoolLib : Lib :=
  { fails := fun _ c =>
      match c with
      | Call.lookupDomainByName _ => some "Domain not found"
      | _ => none
    poolPath := fun _ _ => Except.ok "/var/lib/libvirt/images"
    lookupStorageVolByPath := fun _ _ => Except.error "Storage volume not found" }

/-- A host whose random source delivers sixteen bytes `0xff`. -/
def onesRandomLib : Lib :=
  { randRead := fun _ => Except.ok (List.replicate 16 255) }

/-! ## Further wording of the specification -/

/-- A lower-case hexadecimal digit. -/
def isLowerHexChar (c : Char) : Bool := ('0' ≤ c && c ≤ '9') || ('a' ≤ c && c ≤ 'f')

/-- The 8-4-4-4-12 form in lower case: five groups of lower-case hexadecimal digits of these
lengths, separated by hyphens. -/
def LowerUUIDForm (s : String) : Prop :=
  ∃ g1 g2 g3 g4 g5 : List Char,
    g1.length = 8 ∧ g2.length = 4 ∧ g3.length = 4 ∧ g4.length = 4 ∧ g5.length = 12 ∧
    (∀ c ∈ g1 ++ g2 ++ g3 ++ g4 ++ g5, isLowerHexChar c = true) ∧
    s.toList = g1 ++ '-' :: (g2 ++ '-' :: (g3 ++ '-' :: (g4 ++ '-' :: g5)))

/-- The hexadecimal digits of a UUID string in order: the string without its hyphens. -/
def hexDigitsOf (s : String) : List Char := s.toList.filter fun c => c ≠ '-'


/-! ## The overlay clean-up in the words of the specification -/

/-- One attempt on a candidate: look the path up and delete the volume that was found. -/
def attempt (lib : Lib) (path : String) (t : List Call) : Option String × List Call :=
  match lib.lookupStorageVolByPath t path with
  | Except.error e => (some e, t ++ [Call.lookupStorageVolByPath path])
  | Except.ok vol =>
    lib.exec (t ++ [Call.lookupStorageVolByPath path])
      (Call.storageVolDelete vol ["STORAGE_VOL_DELETE_NORMAL"])

/-- The attempts on a list of candidates in order: the first call that fails ends the run
with its error. -/
def attemptInOrder (lib : Lib) : List String → List Call → Option String × List Call
  | [], t => (none, t)
  | path :: rest, t =>
    match attempt lib path t with
    | (some e, t1) => (some e, t1)
    | (none, t1) => attemptInOrder lib rest t1

/-! ## Hosts on which a clean-up step fails -/

/-- A host on which no volume exists at `/var/lib/libvirt/images/a.external.snapshot.qcow2`;
every other path is found. -/
def firstMissingLib : Lib :=
  { lookupStorageVolByPath := fun _ p =>
      if p = "/var/lib/libvirt/images/a.external.snapshot.qcow2" then
        Except.error "Storage volume not found"
      else Except.ok p }

/-- A stopped domain `vm01` with one disk whose image is the volume `vm01.qcow2` of the pool
`default`: the deletion of the volume is refused, the pool goes on listing it, and a
lookup by path fails because the connection is lost. -/
def stuckVolumeLib : Lib :=
  { getXMLDesc := fun _ _ => Except.ok
      ⟨some { Disks := [⟨"disk", some "sda", some "/var/lib/libvirt/images/vm01.qcow2",
        false, false, false⟩] }⟩
    listAllStoragePools := fun _ _ => Except.ok ["default"]
    listAllStorageVolumes := fun _ _ => Except.ok ["vm01.qcow2"]
    volGetPath := fun _ _ => Except.ok "/var/lib/libvirt/images/vm01.qcow2"
    lookupStorageVolByPath := fun _ _ => Except.error "internal error: client socket is closed"
    fails := fun _ c =>
      match c with
      | Call.storageVolDelete _ _ => some "cannot unlink file: Permission denied"
      | _ => none }


/-! # Theorems -/

/-! ## Lock registry -/

theorem Registry.load_delete_self (r : Registry) (k : String) :
    Registry.load (Registry.delete r k) k = none := by
  induction r with
  | nil => rfl
  | cons e rest ih =>
    obtain ⟨k', v⟩ := e
    by_cases hk : k' = k
    · simp [Registry.delete, hk, ih]
    · simp [Registry.delete, Registry.load, hk, ih]

theorem not_mem_listLocks_delete (r : Registry) (k : String) :
    k ∉ listLocks (Registry.delete r k) := by
  induction r with
  | nil => simp [Registry.delete, listLocks]
  | cons e rest ih =>
    obtain ⟨k', v⟩ := e
    by_cases hk : k' = k
    · simpa [Registry.delete, hk] using ih
    · simp only [Registry.delete, hk, if_false]
      intro hmem
      simp only [listLocks, List.filterMap_cons] at hmem
      split at hmem
      · exact ih hmem
      · rename_i a heq
        rcases List.mem_cons.mp hmem with h | h
        · split at heq
          · simp only [Option.some.injEq] at heq
            exact hk (heq.trans h.symm)
          · exact absurd heq (by simp)
        · exact ih h

theorem mem_listLocks_addLock (r : Registry) (k : String) : k ∈ listLocks (addLock r k) := by
  simp [addLock, Registry.store, listLocks, List.filterMap_cons]

theorem observed_quiet (reg : Registry) (i : Nat) : observed quiet reg i = reg := by
  induction i with
  | zero => rfl
  | succ i ih => simp [observed, quiet, ih]

theorem pollLoop_quiet (reg : Registry) (k : String)
    (h : Registry.load reg k = some (Value.bool true)) (n done : Nat) :
    pollLoop quiet k n done reg = ⟨true, reg, done + n⟩ := by
  induction n generalizing done with
  | zero => simp [pollLoop]
  | succ n ih =>
    have hq : quiet (done + 1) reg = reg := rfl
    simp only [pollLoop, hq, h]
    rw [ih (done + 1)]
    simp only [LockResult.mk.injEq, true_and]
    omega

theorem pollLoop_spec (env : Interference) (reg0 : Registry) (k : String)
    (h : MarkerOnly env reg0 k) :
    ∀ n done,
      (pollLoop env k n done (observed env reg0 done)).polls ≤ done + n ∧
      ((pollLoop env k n done (observed env reg0 done)).locked = true ↔
        ∀ i, done < i → i ≤ done + n → Registry.load (observed env reg0 i) k ≠ none) ∧
      ((pollLoop env k n done (observed env reg0 done)).locked = false →
        done < (pollLoop env k n done (observed env reg0 done)).polls ∧
        Registry.load (observed env reg0
          (pollLoop env k n done (observed env reg0 done)).polls) k = none ∧
        ∀ j, done < j → j < (pollLoop env k n done (observed env reg0 done)).polls →
          Registry.load (observed env reg0 j) k ≠ none) := by
  intro n
  induction n with
  | zero =>
    intro done
    refine ⟨by simp [pollLoop], ?_, ?_⟩
    · simp only [pollLoop, true_iff]
      intro i h1 h2
      omega
    · simp [pollLoop]
  | succ n ih =>
    intro done
    have hobs : env (done + 1) (observed env reg0 done) = observed env reg0 (done + 1) := rfl
    cases hl : Registry.load (observed env reg0 (done + 1)) k with
    | none =>
      have hp : pollLoop env k (n + 1) done (observed env reg0 done)
          = ⟨false, observed env reg0 (done + 1), done + 1⟩ := by
        simp only [pollLoop, hobs, hl]
      rw [hp]
      refine ⟨by simp, ?_, ?_⟩
      · simp only [Bool.false_eq_true, false_iff, not_forall]
        exact ⟨done + 1, by omega, by omega, by simp [hl]⟩
      · intro _
        refine ⟨by simp, hl, ?_⟩
        intro j h1 h2
        simp only at h2
        omega
    | some v =>
      have hv := h (done + 1) v hl
      subst hv
      have hp : pollLoop env k (n + 1) done (observed env reg0 done)
          = pollLoop env k n (done + 1) (observed env reg0 (done + 1)) := by
        simp only [pollLoop, hobs, hl]
      rw [hp]
      obtain ⟨h1, h2, h3⟩ := ih (done + 1)
      refine ⟨by omega, ?_, ?_⟩
      · rw [h2]
        constructor
        · intro hh i hi1 hi2
          by_cases hi : i = done + 1
          · subst hi; simp [hl]
          · exact hh i (by omega) (by omega)
        · intro hh i hi1 hi2
          exact hh i (by omega) (by omega)
      · intro hf
        obtain ⟨a, b, c⟩ := h3 hf
        refine ⟨by omega, b, ?_⟩
        intro j hj1 hj2
        by_cases hj : j = done + 1
        · subst hj; simp [hl]
        · exact c j (by omega) hj2

theorem isLockedAndMakeLock_load_none (env : Interference) (reg : Registry) (k : String)
    (count : Int) : Registry.load (isLockedAndMakeLock env reg k count).registry k = none := by
  simp [isLockedAndMakeLock, Registry.load_delete_self]

theorem isLockedAndMakeLock_of_absent (env : Interference) (reg : Registry) (k : String)
    (count : Int) (h : Registry.load reg k = none) :
    (isLockedAndMakeLock env reg k count).locked = false ∧
      (isLockedAndMakeLock env reg k count).polls = 0 := by
  simp [isLockedAndMakeLock, isLockedAndMakeLockBody, Registry.loadOrStore, h]

/-- C1, as the code behaves: the entry a call inserts is removed again by the deferred
delete before the call returns, so a second call on the registry the first one left behind
is admitted as well (`locked = false`), whatever the budget and the interference. -/
theorem isLockedAndMakeLock_second_call_admitted (env env2 : Interference) (reg : Registry)
    (k : String) (n : Int) :
    (isLockedAndMakeLock env2 (isLockedAndMakeLock env reg k n).registry k n).locked = false :=
  (isLockedAndMakeLock_of_absent env2 _ k n (isLockedAndMakeLock_load_none env reg k n)).1

/-- C2: with only the marker `true` stored under `k`, a call with budget `n` returns `false`
without a poll when `k` has no entry; when `k` has an entry it polls at most `n` times, is
denied exactly when `k` has an entry at every one of the `n` polls, and when admitted it
stopped at the first poll that found no entry. -/
theorem isLockedAndMakeLock_polling (env : Interference) (reg : Registry) (k : String)
    (n : Nat) (h : MarkerOnly env reg k) :
    (Registry.load reg k = none →
      (isLockedAndMakeLock env reg k n).locked = false ∧
      (isLockedAndMakeLock env reg k n).polls = 0) ∧
    (Registry.load reg k ≠ none →
      (isLockedAndMakeLock env reg k n).polls ≤ n ∧
      ((isLockedAndMakeLock env reg k n).locked = true ↔
        ∀ i, 1 ≤ i → i ≤ n → Registry.load (observed env reg i) k ≠ none) ∧
      ((isLockedAndMakeLock env reg k n).locked = false →
        1 ≤ (isLockedAndMakeLock env reg k n).polls ∧
        Registry.load (observed env reg (isLockedAndMakeLock env reg k n).polls) k = none ∧
        ∀ j, 1 ≤ j → j < (isLockedAndMakeLock env reg k n).polls →
          Registry.load (observed env reg j) k ≠ none)) := by
  refine ⟨isLockedAndMakeLock_of_absent env reg k n, ?_⟩
  intro hne
  cases hl : Registry.load reg k with
  | none => exact absurd hl hne
  | some v =>
    have hv := h 0 v hl
    subst hv
    have hb : isLockedAndMakeLockBody env reg k n = pollLoop env k n 0 (observed env reg 0) := by
      simp [isLockedAndMakeLockBody, Registry.loadOrStore, hl, observed]
    obtain ⟨h1, h2, h3⟩ := pollLoop_spec env reg k h n 0
    simp only [isLockedAndMakeLock, hb]
    refine ⟨by omega, ?_, ?_⟩
    · rw [h2]
      constructor
      · intro hh i hi1 hi2
        exact hh i (by omega) (by omega)
      · intro hh i hi1 hi2
        exact hh i (by omega) (by omega)
    · intro hf
      obtain ⟨a, b, c⟩ := h3 hf
      exact ⟨by omega, b, fun j hj1 hj2 => c j (by omega) hj2⟩

theorem observed_releaseAtSecondPoll (i : Nat) :
    observed releaseAtSecondPoll [("vm01", Value.bool true)] i = [("vm01", Value.bool true)] ∨
      observed releaseAtSecondPoll [("vm01", Value.bool true)] i = [] := by
  induction i with
  | zero => exact Or.inl rfl
  | succ i ih =>
    rcases ih with h | h
    · by_cases hi : i + 1 = 2
      · right
        simp only [observed, h, releaseAtSecondPoll, hi, if_true]
        decide
      · left
        simp only [observed, h, releaseAtSecondPoll, hi, if_false]
    · right
      by_cases hi : i + 1 = 2
      · simp only [observed, h, releaseAtSecondPoll, hi, if_true]
        rfl
      · simp only [observed, h, releaseAtSecondPoll, hi, if_false]

/-- Witness of C2: `vm01` is locked, the budget is 3 and the entry disappears during the
second sleep; the call polls twice and is admitted. -/
theorem isLockedAndMakeLock_polling_witness :
    MarkerOnly releaseAtSecondPoll [("vm01", Value.bool true)] "vm01" ∧
    isLockedAndMakeLock releaseAtSecondPoll [("vm01", Value.bool true)] "vm01" 3
      = ⟨false, [], 2⟩ ∧
    ((isLockedAndMakeLock releaseAtSecondPoll [("vm01", Value.bool true)] "vm01"
        ((3 : Nat) : Int)).locked = true ↔
      ∀ i, 1 ≤ i → i ≤ 3 → Registry.load
        (observed releaseAtSecondPoll [("vm01", Value.bool true)] i) "vm01" ≠ none) := by
  have hm : MarkerOnly releaseAtSecondPoll [("vm01", Value.bool true)] "vm01" := by
    intro i v hv
    rcases observed_releaseAtSecondPoll i with h | h
    · rw [h] at hv
      simp only [Registry.load, if_true, Option.some.injEq] at hv
      exact hv.symm
    · rw [h] at hv
      simp [Registry.load] at hv
  exact ⟨hm, by decide,
    ((isLockedAndMakeLock_polling releaseAtSecondPoll [("vm01", Value.bool true)] "vm01" 3 hm).2
      (by decide)).2.1⟩

/-- C3, as the code behaves: a call that finds the entry placed by `addLock(k)` and is
denied after its `n` polls has removed that entry when it returns: the key is gone from
the registry and from `listLocks`, although it was listed before the call. -/
theorem isLockedAndMakeLock_denied_removes_entry (reg : Registry) (k : String) (n : Nat) :
    (isLockedAndMakeLock quiet (addLock reg k) k n).locked = true ∧
    Registry.load (isLockedAndMakeLock quiet (addLock reg k) k n).registry k = none ∧
    k ∈ listLocks (addLock reg k) ∧
    k ∉ listLocks (isLockedAndMakeLock quiet (addLock reg k) k n).registry := by
  have hl : Registry.load (addLock reg k) k = some (Value.bool true) := by
    simp [addLock, Registry.store, Registry.load]
  have hb : isLockedAndMakeLockBody quiet (addLock reg k) k n
      = ⟨true, addLock reg k, 0 + n⟩ := by
    simp only [isLockedAndMakeLockBody, Registry.loadOrStore, hl, Int.toNat_ofNat]
    exact pollLoop_quiet _ k hl n 0
  refine ⟨?_, isLockedAndMakeLock_load_none _ _ _ _, mem_listLocks_addLock reg k, ?_⟩
  · simp [isLockedAndMakeLock, hb]
  · simp only [isLockedAndMakeLock, hb]
    exact not_mem_listLocks_delete _ k

/-! ## External-snapshot gate -/

/-- C7, as the code behaves: a domain whose only disk image is
`/var/lib/libvirt/images/myexternal.snapshot.qcow2`, with no registered external snapshot,
makes `isDomainBlockHasActiveExternalBackupSnashot` return `true`, although the path does
not end in `.external.snapshot.qcow2`: the code tests the suffix without the leading dot. -/
theorem externalSnapshotGate_fires_without_dot :
    (isDomainBlockHasActiveExternalBackupSnashot undottedLib []).1 = (true, none) ∧
    (getDomainBlockDeviceNamesOrPaths undottedLib [] true).1
      = Except.ok ["/var/lib/libvirt/images/myexternal.snapshot.qcow2"] ∧
    endsWith "/var/lib/libvirt/images/myexternal.snapshot.qcow2" ".external.snapshot.qcow2"
      = false ∧
    undottedLib.snapshotNum [Call.getXMLDesc []] ["DOMAIN_SNAPSHOT_LIST_EXTERNAL"]
      = Except.ok 0 := by
  decide

/-! ## Overlay clean-up -/

theorem lookupsOf_append (a b : List Call) : lookupsOf (a ++ b) = lookupsOf a ++ lookupsOf b := by
  simp [lookupsOf, List.filterMap_append]

theorem deletesOf_append (a b : List Call) : deletesOf (a ++ b) = deletesOf a ++ deletesOf b := by
  simp [deletesOf, List.filterMap_append]

theorem refreshPools_lookups (lib : Lib) (pools : List String) (t : List Call) :
    lookupsOf (refreshPools lib pools t) = lookupsOf t ∧
      deletesOf (refreshPools lib pools t) = deletesOf t := by
  induction pools generalizing t with
  | nil => simp [refreshPools]
  | cons p rest ih =>
    simp only [refreshPools, Lib.exec]
    rw [(ih _).1, (ih _).2, lookupsOf_append, deletesOf_append]
    simp [lookupsOf, deletesOf]

theorem refreshAllStorgePools_lookups (lib : Lib) (t : List Call) :
    lookupsOf (refreshAllStorgePools lib t).2 = lookupsOf t ∧
      deletesOf (refreshAllStorgePools lib t).2 = deletesOf t := by
  simp only [refreshAllStorgePools]
  cases lib.listAllStoragePools t
      ["CONNECT_LIST_STORAGE_POOLS_DIR", "CONNECT_LIST_STORAGE_POOLS_ACTIVE"] with
  | error e => simp [lookupsOf_append, deletesOf_append, lookupsOf, deletesOf]
  | ok pools =>
    simp only
    rw [(refreshPools_lookups _ _ _).1, (refreshPools_lookups _ _ _).2, lookupsOf_append,
      deletesOf_append]
    simp [lookupsOf, deletesOf]

theorem deleteCandidates_filter (lib : Lib) (paths : List String) (t : List Call) :
    deleteCandidates lib paths t
      = deleteCandidates lib (paths.filter acceptedForDeletion) t := by
  induction paths generalizing t with
  | nil => rfl
  | cons p rest ih =>
    by_cases hp : acceptedForDeletion p = true
    · simp only [List.filter_cons, hp, if_true, deleteCandidates]
      split
      · rfl
      · split
        · rfl
        · exact ih _
    · simp only [List.filter_cons, hp, deleteCandidates]
      exact ih t

theorem deleteCandidates_lookups (lib : Lib) (paths : List String) (t : List Call) :
    (∃ k, lookupsOf (deleteCandidates lib paths t).2
        = lookupsOf t ++ (paths.filter acceptedForDeletion).take k) ∧
    ((deleteCandidates lib paths t).1 = none →
      lookupsOf (deleteCandidates lib paths t).2
        = lookupsOf t ++ paths.filter acceptedForDeletion ∧
      (deletesOf (deleteCandidates lib paths t).2).length
        = (deletesOf t).length + (paths.filter acceptedForDeletion).length) := by
  induction paths generalizing t with
  | nil =>
    refine ⟨⟨0, by simp [deleteCandidates]⟩, fun _ => by simp [deleteCandidates]⟩
  | cons p rest ih =>
    by_cases hp : acceptedForDeletion p = true
    · simp only [List.filter_cons, hp, if_true, deleteCandidates, lookupStorageVolByPath,
        deletePoolVolume, Lib.exec]
      cases hl : lib.lookupStorageVolByPath t p with
      | error e =>
        simp only
        refine ⟨⟨1, by simp [lookupsOf_append, lookupsOf]⟩, fun h => by simp at h⟩
      | ok vol =>
        simp only
        cases hd : lib.fails (t ++ [Call.lookupStorageVolByPath p])
            (Call.storageVolDelete vol ["STORAGE_VOL_DELETE_NORMAL"]) with
        | some e =>
          simp only
          refine ⟨⟨1, by simp [lookupsOf_append, lookupsOf]⟩, fun h => by simp at h⟩
        | none =>
          simp only
          obtain ⟨⟨k, hk⟩, h2⟩ := ih (t ++ [Call.lookupStorageVolByPath p] ++
            [Call.storageVolDelete vol ["STORAGE_VOL_DELETE_NORMAL"]])
          refine ⟨⟨k + 1, ?_⟩, ?_⟩
          · rw [hk]
            simp [lookupsOf_append, lookupsOf]
          · intro hn
            obtain ⟨a, b⟩ := h2 hn
            rw [a, b]
            simp [lookupsOf_append, deletesOf_append, lookupsOf, deletesOf]
            omega
    · simp only [List.filter_cons, hp, deleteCandidates]
      exact ih t

theorem deleteCandidates_eq_attemptInOrder (lib : Lib) (paths : List String) (t : List Call) :
    deleteCandidates lib paths t
      = attemptInOrder lib (paths.filter acceptedForDeletion) t := by
  induction paths generalizing t with
  | nil => rfl
  | cons p rest ih =>
    by_cases hp : acceptedForDeletion p = true
    · simp only [List.filter_cons, hp, if_true, deleteCandidates, attemptInOrder, attempt,
        lookupStorageVolByPath, deletePoolVolume, Lib.exec]
      cases lib.lookupStorageVolByPath t p with
      | error e => rfl
      | ok vol =>
        simp only
        cases lib.fails (t ++ [Call.lookupStorageVolByPath p])
            (Call.storageVolDelete vol ["STORAGE_VOL_DELETE_NORMAL"]) with
        | some e => rfl
        | none => exact ih _
    · simp only [List.filter_cons, hp, deleteCandidates]
      exact ih t

theorem attemptInOrder_extends (lib : Lib) (ps : List String) (t : List Call) :
    ∃ new, (attemptInOrder lib ps t).2 = t ++ new := by
  induction ps generalizing t with
  | nil => exact ⟨[], by simp [attemptInOrder]⟩
  | cons p rest ih =>
    simp only [attemptInOrder, attempt, Lib.exec]
    cases lib.lookupStorageVolByPath t p with
    | error e => exact ⟨_, rfl⟩
    | ok vol =>
      simp only
      cases lib.fails (t ++ [Call.lookupStorageVolByPath p])
          (Call.storageVolDelete vol ["STORAGE_VOL_DELETE_NORMAL"]) with
      | some e => exact ⟨_, List.append_assoc _ _ _⟩
      | none =>
        obtain ⟨new, hnew⟩ := ih (t ++ [Call.lookupStorageVolByPath p] ++
          [Call.storageVolDelete vol ["STORAGE_VOL_DELETE_NORMAL"]])
        exact ⟨_, hnew.trans (by rw [List.append_assoc, List.append_assoc])⟩

theorem attempt_split (t new pre post : List Call) (p vol v : String) (fl : Flags)
    (h : t ++ Call.lookupStorageVolByPath p ::
        Call.storageVolDelete vol ["STORAGE_VOL_DELETE_NORMAL"] :: new
      = pre ++ Call.storageVolDelete v fl :: post)
    (h1 : t.length ≤ pre.length) (h2 : pre.length < t.length + 2) :
    pre = t ++ [Call.lookupStorageVolByPath p] ∧ v = vol := by
  rcases (by omega : pre.length = t.length ∨ pre.length = t.length + 1) with hl | hl
  · have := (List.append_inj h hl.symm).2
    simp at this
  · have h' : (t ++ [Call.lookupStorageVolByPath p]) ++
        Call.storageVolDelete vol ["STORAGE_VOL_DELETE_NORMAL"] :: new
        = pre ++ Call.storageVolDelete v fl :: post := by
      simpa using h
    obtain ⟨a, b⟩ := List.append_inj h' (by simp [hl])
    simp only [List.cons.injEq, Call.storageVolDelete.injEq] at b
    exact ⟨a.symm, b.1.1.symm⟩

theorem attemptInOrder_deletes (lib : Lib) (ps : List String) (t pre post : List Call)
    (v : String) (fl : Flags)
    (h : (attemptInOrder lib ps t).2 = pre ++ Call.storageVolDelete v fl :: post)
    (hlen : t.length ≤ pre.length) :
    ∃ pre' p, pre = pre' ++ [Call.lookupStorageVolByPath p] ∧ p ∈ ps ∧
      lib.lookupStorageVolByPath pre' p = Except.ok v := by
  induction ps generalizing t with
  | nil =>
    simp only [attemptInOrder] at h
    have := congrArg List.length h
    simp only [List.length_append, List.length_cons] at this
    omega
  | cons p rest ih =>
    simp only [attemptInOrder, attempt, Lib.exec] at h
    cases hl : lib.lookupStorageVolByPath t p with
    | error e =>
      rw [hl] at h
      simp only at h
      have hlen2 := congrArg List.length h
      simp only [List.length_append, List.length_cons, List.length_nil] at hlen2
      have := (List.append_inj h (by omega)).2
      simp at this
    | ok vol =>
      rw [hl] at h
      simp only at h
      cases hf : lib.fails (t ++ [Call.lookupStorageVolByPath p])
          (Call.storageVolDelete vol ["STORAGE_VOL_DELETE_NORMAL"]) with
      | some e =>
        rw [hf] at h
        simp only at h
        have hlen2 := congrArg List.length h
        simp only [List.length_append, List.length_cons, List.length_nil] at hlen2
        obtain ⟨a, b⟩ := attempt_split t [] pre post p vol v fl (by simpa using h) hlen
          (by omega)
        exact ⟨t, p, a, by simp, by rw [b]; exact hl⟩
      | none =>
        rw [hf] at h
        simp only at h
        by_cases hbig : (t ++ [Call.lookupStorageVolByPath p] ++
            [Call.storageVolDelete vol ["STORAGE_VOL_DELETE_NORMAL"]]).length ≤ pre.length
        · obtain ⟨pre', p', h1, h2, h3⟩ := ih _ h hbig
          exact ⟨pre', p', h1, by simp [h2], h3⟩
        · obtain ⟨new, hnew⟩ := attemptInOrder_extends lib rest (t ++
            [Call.lookupStorageVolByPath p] ++
            [Call.storageVolDelete vol ["STORAGE_VOL_DELETE_NORMAL"]])
          rw [hnew] at h
          simp only [List.length_append, List.length_cons, List.length_nil] at hbig
          obtain ⟨a, b⟩ := attempt_split t new pre post p vol v fl (by simpa using h) hlen
            (by omega)
          exact ⟨t, p, a, by simp, by rw [b]; exact hl⟩

theorem refreshPools_extends (lib : Lib) (pools : List String) (t : List Call) :
    ∃ new, refreshPools lib pools t = t ++ new := by
  induction pools generalizing t with
  | nil => exact ⟨[], by simp [refreshPools]⟩
  | cons p rest ih =>
    simp only [refreshPools, Lib.exec]
    obtain ⟨new, hnew⟩ := ih (t ++ [Call.poolRefresh p])
    exact ⟨_, hnew.trans (List.append_assoc _ _ _)⟩

theorem refreshAllStorgePools_extends (lib : Lib) (t : List Call) :
    ∃ new, (refreshAllStorgePools lib t).2 = t ++ new ∧ deletesOf new = [] := by
  have hd := (refreshAllStorgePools_lookups lib t).2
  have hex : ∃ new, (refreshAllStorgePools lib t).2 = t ++ new := by
    simp only [refreshAllStorgePools]
    cases lib.listAllStoragePools t
        ["CONNECT_LIST_STORAGE_POOLS_DIR", "CONNECT_LIST_STORAGE_POOLS_ACTIVE"] with
    | error e => exact ⟨_, rfl⟩
    | ok pools =>
      obtain ⟨new, hnew⟩ := refreshPools_extends lib pools (t ++
        [Call.listAllStoragePools
          ["CONNECT_LIST_STORAGE_POOLS_DIR", "CONNECT_LIST_STORAGE_POOLS_ACTIVE"]])
      exact ⟨_, hnew.trans (List.append_assoc _ _ _)⟩
  obtain ⟨new, hnew⟩ := hex
  refine ⟨new, hnew, ?_⟩
  rw [hnew, deletesOf_append] at hd
  simpa using hd

theorem no_delete_inside (t new more pre post : List Call) (v : String) (fl : Flags)
    (hnew : deletesOf new = [])
    (h : t ++ new ++ more = pre ++ Call.storageVolDelete v fl :: post)
    (h1 : t.length ≤ pre.length) : t.length + new.length ≤ pre.length := by
  by_contra hlt
  have hget : (pre ++ Call.storageVolDelete v fl :: post)[pre.length]?
      = some (Call.storageVolDelete v fl) := by
    rw [List.getElem?_append_right (Nat.le_refl _)]
    simp
  rw [← h, List.getElem?_append_left (by simp; omega),
    List.getElem?_append_right h1] at hget
  have hmem : Call.storageVolDelete v fl ∈ new := List.mem_iff_getElem?.mpr ⟨_, hget⟩
  have : v ∈ deletesOf new := by
    simp only [deletesOf, List.mem_filterMap]
    exact ⟨_, hmem, rfl⟩
  rw [hnew] at this
  simp at this

/-- C8 as stated fails: when the lookup of the first accepted candidate fails, the run ends
with that error, and the third candidate, which passes the filter as well, is neither looked
up nor deleted. -/
theorem deleteTemporaryExternalSnapshot_stops_at_first_failure :
    overlayPaths.map acceptedForDeletion = [true, false, true] ∧
    (deleteTemporaryExternalSnapshot firstMissingLib [] overlayPaths).1
      = some "Storage volume not found" ∧
    lookupsOf (deleteTemporaryExternalSnapshot firstMissingLib [] overlayPaths).2
      = ["/var/lib/libvirt/images/a.external.snapshot.qcow2"] ∧
    deletesOf (deleteTemporaryExternalSnapshot firstMissingLib [] overlayPaths).2 = [] := by
  decide

/-- C8, amended: `deleteTemporaryExternalSnapshot` behaves on a list of candidates as on the
sublist of those that start with `/var/lib/libvirt/`, end with `.external.snapshot.qcow2`
and contain no space, no `../` and no `*`, so every other candidate causes no call and no
error; once the pools are refreshed the run is the attempts on the accepted candidates in
order, each a lookup followed by the deletion of the volume found, up to the first call that
fails. On every run the paths looked up are the first accepted candidates in order, and every
deletion comes right after the lookup of an accepted candidate and deletes the volume that
lookup returned; a run that returns no error looked up every accepted candidate and deleted
a volume for each. -/
theorem deleteTemporaryExternalSnapshot_attempts (lib : Lib) (t : List Call)
    (paths : List String) :
    deleteTemporaryExternalSnapshot lib t paths
      = deleteTemporaryExternalSnapshot lib t (paths.filter acceptedForDeletion) ∧
    (∀ t1, refreshAllStorgePools lib t = (none, t1) →
      deleteTemporaryExternalSnapshot lib t paths
        = attemptInOrder lib (paths.filter acceptedForDeletion) t1) ∧
    (∃ k, lookupsOf (deleteTemporaryExternalSnapshot lib t paths).2
        = lookupsOf t ++ (paths.filter acceptedForDeletion).take k) ∧
    (∀ pre v fl post,
      (deleteTemporaryExternalSnapshot lib t paths).2
        = pre ++ Call.storageVolDelete v fl :: post →
      t.length ≤ pre.length →
      ∃ pre' p, pre = pre' ++ [Call.lookupStorageVolByPath p] ∧ p ∈ paths ∧
        acceptedForDeletion p = true ∧ lib.lookupStorageVolByPath pre' p = Except.ok v) ∧
    ((deleteTemporaryExternalSnapshot lib t paths).1 = none →
      lookupsOf (deleteTemporaryExternalSnapshot lib t paths).2
        = lookupsOf t ++ paths.filter acceptedForDeletion ∧
      (deletesOf (deleteTemporaryExternalSnapshot lib t paths).2).length
        = (deletesOf t).length + (paths.filter acceptedForDeletion).length) := by
  have hr := refreshAllStorgePools_lookups lib t
  obtain ⟨new, hnew, hdel⟩ := refreshAllStorgePools_extends lib t
  unfold deleteTemporaryExternalSnapshot
  cases hrf : refreshAllStorgePools lib t with
  | mk e t1 =>
    rw [hrf] at hr hnew
    simp only at hnew
    cases e with
    | some e =>
      simp only
      refine ⟨trivial, ?_, ⟨0, by simpa using hr.1⟩, ?_, fun h => by simp at h⟩
      · intro t2 h2
        simp at h2
      · intro pre v fl post h hlen
        rw [hnew] at h
        have := no_delete_inside t new [] pre post v fl hdel (by simpa using h) hlen
        have hl := congrArg List.length h
        simp only [List.length_append, List.length_cons] at hl
        omega
    | none =>
      simp only
      obtain ⟨⟨k, hk⟩, h2⟩ := deleteCandidates_lookups lib paths t1
      refine ⟨deleteCandidates_filter lib paths t1, ?_, ⟨k, ?_⟩, ?_, ?_⟩
      · intro t2 h2
        simp only [Prod.mk.injEq, true_and] at h2
        rw [← h2]
        exact deleteCandidates_eq_attemptInOrder lib paths t1
      · rw [hk, hr.1]
      · intro pre v fl post h hlen
        rw [deleteCandidates_eq_attemptInOrder] at h
        obtain ⟨more, hmore⟩ :=
          attemptInOrder_extends lib (paths.filter acceptedForDeletion) t1
        have hbig : t1.length ≤ pre.length := by
          rw [hmore, hnew] at h
          have := no_delete_inside t new more pre post v fl hdel h hlen
          rw [hnew, List.length_append]
          exact this
        obtain ⟨pre', p, h1, h2, h3⟩ := attemptInOrder_deletes lib _ t1 pre post v fl h hbig
        obtain ⟨hp1, hp2⟩ := List.mem_filter.mp h2
        exact ⟨pre', p, h1, hp1, hp2, h3⟩
      · intro hn
        obtain ⟨a, b⟩ := h2 hn
        rw [a, b, hr.1, hr.2]
        exact ⟨rfl, rfl⟩

/-- An instance of the amended C8: with a library whose calls all succeed, of the three
candidates the two under `/var/lib/libvirt/` are looked up and deleted and
`/tmp/b.external.snapshot.qcow2` is skipped; the run returns no error. -/
theorem deleteTemporaryExternalSnapshot_attempts_witness :
    (deleteTemporaryExternalSnapshot {} [] overlayPaths).1 = none ∧
    lookupsOf (deleteTemporaryExternalSnapshot {} [] overlayPaths).2
      = ["/var/lib/libvirt/images/a.external.snapshot.qcow2",
          "/var/lib/libvirt/images/c.external.snapshot.qcow2"] ∧
    (deletesOf (deleteTemporaryExternalSnapshot {} [] overlayPaths).2).length = 2 := by
  have h := (deleteTemporaryExternalSnapshot_attempts {} [] overlayPaths).2.2.2.2 (by decide)
  have hf : overlayPaths.filter acceptedForDeletion
      = ["/var/lib/libvirt/images/a.external.snapshot.qcow2",
          "/var/lib/libvirt/images/c.external.snapshot.qcow2"] := by decide
  rw [hf] at h
  exact ⟨by decide, h.1, h.2⟩

/-! ## Block-commit wait loop -/

theorem waitLoop_ready_count (lib : Lib) (disk : String) :
    ∀ (fuel j : Nat) (seen : List (Except String blockJobInfo)) (t : List Call) (run : WaitRun),
      waitLoop lib disk fuel j seen t = some run → run.exit = WaitExit.retriesReached →
      j ≤ 3 →
      (run.probes.filter probeReady).length = (seen.filter probeReady).length + (3 - j) := by
  intro fuel
  induction fuel with
  | zero =>
    intro j seen t run h
    simp [waitLoop] at h
  | succ fuel ih =>
    intro j seen t run h hexit hj
    unfold waitLoop at h
    split at h
    · simp only [Option.some.injEq] at h
      subst h
      simp at hexit
    · split at h
      · rename_i hj3
        simp only [Option.some.injEq] at h
        subst h
        simp [hj3]
      · rename_i hj3
        split at h
        · rename_i e t1 heq
          have := ih j _ t1 run h hexit hj
          rw [this]
          simp [List.filter_append, probeReady]
        · rename_i jobInfo t1 heq
          split at h
          · simp only [Option.some.injEq] at h
            subst h
            simp at hexit
          · split at h
            · rename_i hready
              have := ih (j + 1) _ t1 run h hexit (by omega)
              rw [this]
              simp [List.filter_append, probeReady, hready]
              omega
            · rename_i hready
              have := ih j _ t1 run h hexit hj
              rw [this]
              simp [List.filter_append, probeReady, hready]

/-- C9 as stated fails: with probes answering 100/100, 50/100, 100/100, 100/100 the loop
leaves through its retry counter after the fourth probe, although `cur == end > 0` never
held on three consecutive probes. -/
theorem waitLoop_counts_non_consecutive :
    (waitLoop flickerLib "sda" 10 0 [] []).map (fun r => r.exit)
      = some WaitExit.retriesReached ∧
    (waitLoop flickerLib "sda" 10 0 [] []).map (fun r => r.probes.map probeComplete)
      = some [true, false, true, true] ∧
    threeInARow [true, false, true, true] = false := by
  decide

/-- C9, amended: when the loop leaves through its retry counter, the counted condition
(an active commit with `cur == end > 0`) held on exactly three of the probes of the run,
wherever they fall among the other probes. -/
theorem waitLoop_retries_three_ready (lib : Lib) (disk : String) (fuel : Nat)
    (t : List Call) (run : WaitRun)
    (h : waitLoop lib disk fuel 0 [] t = some run)
    (hexit : run.exit = WaitExit.retriesReached) :
    (run.probes.filter probeReady).length = 3 := by
  simpa using waitLoop_ready_count lib disk fuel 0 [] t run h hexit (by omega)

/-- Witness of C9: the run with answers 100/100, 50/100, 100/100, 100/100 leaves through
the retry counter, and the counted condition held on three of its four probes. -/
theorem waitLoop_retries_three_ready_witness :
    (waitLoop flickerLib "sda" 10 0 [] []).map (fun r => r.exit)
      = some WaitExit.retriesReached ∧
    (waitLoop flickerLib "sda" 10 0 [] []).map
      (fun r => (r.probes.filter probeReady).length) = some 3 := by
  have hexit : (waitLoop flickerLib "sda" 10 0 [] []).map (fun r => r.exit)
      = some WaitExit.retriesReached := by decide
  refine ⟨hexit, ?_⟩
  cases h : waitLoop flickerLib "sda" 10 0 [] [] with
  | none => rw [h] at hexit; simp at hexit
  | some run =>
    rw [h] at hexit
    simp only [Option.map_some', Option.some.injEq] at hexit
    simp only [Option.map_some', Option.some.injEq]
    exact waitLoop_retries_three_ready flickerLib "sda" 10 [] run h hexit

/-! ## Traces -/

theorem Extends.refl (P : Call → Prop) (t : List Call) : Extends P t t :=
  ⟨[], by simp, by simp⟩

theorem Extends.trans {P : Call → Prop} {t1 t2 t3 : List Call} (h1 : Extends P t1 t2)
    (h2 : Extends P t2 t3) : Extends P t1 t3 := by
  obtain ⟨n1, e1, p1⟩ := h1
  obtain ⟨n2, e2, p2⟩ := h2
  refine ⟨n1 ++ n2, by rw [e2, e1, List.append_assoc], ?_⟩
  intro c hc
  rcases List.mem_append.mp hc with h | h
  · exact p1 c h
  · exact p2 c h

theorem Extends.single {P : Call → Prop} (t : List Call) (c : Call) (h : P c) :
    Extends P t (t ++ [c]) :=
  ⟨[c], rfl, by simpa using h⟩

theorem Extends.mono {P Q : Call → Prop} {t1 t2 : List Call} (hPQ : ∀ c, P c → Q c)
    (h : Extends P t1 t2) : Extends Q t1 t2 := by
  obtain ⟨n, e, p⟩ := h
  exact ⟨n, e, fun c hc => hPQ c (p c hc)⟩

theorem Extends.forall_mem {P : Call → Prop} {t1 t2 : List Call} (h : Extends P t1 t2)
    (h1 : ∀ c ∈ t1, P c) : ∀ c ∈ t2, P c := by
  obtain ⟨n, e, p⟩ := h
  subst e
  intro c hc
  rcases List.mem_append.mp hc with h | h
  · exact h1 c h
  · exact p c h

theorem readOnly_notPivot (c : Call) (h : ReadOnly c) : NotPivot c := by
  cases c <;> simp_all [ReadOnly, NotPivot, pivotsOf, Call.mutating]

theorem pivotsOf_append (a b : List Call) : pivotsOf (a ++ b) = pivotsOf a ++ pivotsOf b := by
  simp [pivotsOf, List.filterMap_append]

theorem Extends.pivotsOf_eq {t1 t2 : List Call} (h : Extends NotPivot t1 t2) :
    pivotsOf t2 = pivotsOf t1 := by
  obtain ⟨n, e, p⟩ := h
  subst e
  rw [pivotsOf_append]
  suffices hn : pivotsOf n = [] by simp [hn]
  induction n with
  | nil => rfl
  | cons c rest ih =>
    have h1 : pivotsOf [c] = [] := p c (by simp)
    have h2 := ih (fun c hc => p c (by simp [hc]))
    have : pivotsOf (c :: rest) = pivotsOf [c] ++ pivotsOf rest := by
      rw [← pivotsOf_append]; rfl
    rw [this, h1, h2]; rfl

/-! ## The queries only read -/

theorem isDomainActive_readOnly (lib : Lib) (t : List Call) :
    Extends ReadOnly t (isDomainActive lib t).2 := by
  unfold isDomainActive
  split <;> exact Extends.single _ _ rfl

theorem isDomainPersistent_readOnly (lib : Lib) (t : List Call) :
    Extends ReadOnly t (isDomainPersistent lib t).2 := by
  unfold isDomainPersistent
  split <;> exact Extends.single _ _ rfl

theorem getDomainBlockDeviceNamesOrPaths_calls (lib : Lib) (t : List Call) (getPath : Bool) :
    (getDomainBlockDeviceNamesOrPaths lib t getPath).2 = t ++ [Call.getXMLDesc []] := by
  unfold getDomainBlockDeviceNamesOrPaths
  split
  · rfl
  · split
    · rfl
    · split <;> rfl

theorem getDomainBlockDeviceNamesOrPaths_readOnly (lib : Lib) (t : List Call)
    (getPath : Bool) : Extends ReadOnly t (getDomainBlockDeviceNamesOrPaths lib t getPath).2 := by
  rw [getDomainBlockDeviceNamesOrPaths_calls]
  exact Extends.single _ _ rfl

theorem getDomainBlockJobInfo_calls (lib : Lib) (t : List Call) (disk : String) :
    (getDomainBlockJobInfo lib t disk).2 = t ++ [Call.getBlockJobInfo disk] := by
  unfold getDomainBlockJobInfo
  split <;> rfl

theorem blockJobScan_readOnly (lib : Lib) (disks : List String) (t : List Call) :
    Extends ReadOnly t (blockJobScan lib disks t).2 := by
  induction disks generalizing t with
  | nil => exact Extends.refl _ _
  | cons d rest ih =>
    have hc := getDomainBlockJobInfo_calls lib t d
    have hs : Extends ReadOnly t (t ++ [Call.getBlockJobInfo d]) := Extends.single _ _ rfl
    unfold blockJobScan
    split
    · rename_i e t1 heq
      rw [heq] at hc
      simp only at hc
      subst hc
      exact hs.trans (ih _)
    · rename_i jobInfo t1 heq
      rw [heq] at hc
      simp only at hc
      subst hc
      split
      · exact hs
      · exact hs.trans (ih _)

theorem isDomainBlockJobRunning_readOnly (lib : Lib) (t : List Call) :
    Extends ReadOnly t (isDomainBlockJobRunning lib t).2 := by
  have ha := isDomainActive_readOnly lib t
  unfold isDomainBlockJobRunning
  split
  · rename_i t1 heq
    rw [heq] at ha
    exact ha
  · rename_i t1 heq
    rw [heq] at ha
    have hd := getDomainBlockDeviceNamesOrPaths_readOnly lib t1 false
    split
    · rename_i e t2 heq2
      rw [heq2] at hd
      exact ha.trans hd
    · rename_i disks t2 heq2
      rw [heq2] at hd
      have hs := blockJobScan_readOnly lib disks t2
      split
      · rename_i found t3 heq3
        rw [heq3] at hs
        exact (ha.trans hd).trans hs

theorem isDomainBlockHasActiveExternalBackupSnashot_readOnly (lib : Lib) (t : List Call) :
    Extends ReadOnly t (isDomainBlockHasActiveExternalBackupSnashot lib t).2 := by
  have hd := getDomainBlockDeviceNamesOrPaths_readOnly lib t true
  unfold isDomainBlockHasActiveExternalBackupSnashot
  split
  · rename_i e t1 heq
    rw [heq] at hd
    exact hd
  · rename_i paths t1 heq
    rw [heq] at hd
    split
    · exact hd
    · have hs : Extends ReadOnly t1 (t1 ++ [Call.snapshotNum ["DOMAIN_SNAPSHOT_LIST_EXTERNAL"]]) :=
        Extends.single _ _ rfl
      unfold countDomainSnapshotsWithFlags
      split
      · rename_i e t2 heq2
        simp only [Prod.mk.injEq] at heq2
        rw [← heq2.2]
        exact hd.trans hs
      · rename_i n t2 heq2
        simp only [Prod.mk.injEq] at heq2
        rw [← heq2.2]
        split <;> exact hd.trans hs

theorem activeGate_readOnly (lib : Lib) (t : List Call) (active : Option (Bool × String)) :
    Extends ReadOnly t (activeGate lib t active).2 := by
  cases active with
  | none => exact Extends.refl _ _
  | some p =>
    obtain ⟨whenActive, msg⟩ := p
    have ha := isDomainActive_readOnly lib t
    simp only [activeGate]
    exact ha

theorem blockJobGate_readOnly (lib : Lib) (t : List Call) :
    Extends ReadOnly t (blockJobGate lib t).2 := by
  have h := isDomainBlockJobRunning_readOnly lib t
  unfold blockJobGate
  split <;> (rename_i heq; rw [heq] at h; exact h)

theorem snapshotGate_readOnly (lib : Lib) (t : List Call) (snapshot : Option String) :
    Extends ReadOnly t (snapshotGate lib t snapshot).2 := by
  cases snapshot with
  | none => exact Extends.refl _ _
  | some msg =>
    have h := isDomainBlockHasActiveExternalBackupSnashot_readOnly lib t
    simp only [snapshotGate]
    split <;> (rename_i heq; rw [heq] at h; exact h)

theorem gates_readOnly (lib : Lib) (t : List Call) (active : Option (Bool × String))
    (snapshot : Option String) : Extends ReadOnly t (gates lib t active snapshot).2 := by
  have ha := activeGate_readOnly lib t active
  unfold gates
  split
  · rename_i e t1 heq
    rw [heq] at ha
    exact ha
  · rename_i t1 heq
    rw [heq] at ha
    have hb := blockJobGate_readOnly lib t1
    split
    · rename_i e t2 heq2
      rw [heq2] at hb
      exact ha.trans hb
    · rename_i t2 heq2
      rw [heq2] at hb
      exact (ha.trans hb).trans (snapshotGate_readOnly lib t2 snapshot)

/-! ## Gates -/

theorem blockJobScan_found (lib : Lib) (disk : String) (raw : RawBlockJobInfo)
    (hjob : ∀ t, lib.getBlockJobInfo t disk = Except.ok raw)
    (hty : blockingJobType (blockJobTypeName raw.Type_) = true) :
    ∀ (disks : List String) (t : List Call), disk ∈ disks →
      (blockJobScan lib disks t).1 = true := by
  intro disks
  induction disks with
  | nil => intro t h; simp at h
  | cons d rest ih =>
    intro t hmem
    by_cases hd : d = disk
    · subst hd
      simp [blockJobScan, getDomainBlockJobInfo, hjob, hty]
    · have hrest : disk ∈ rest := by
        rcases List.mem_cons.mp hmem with h | h
        · exact absurd h.symm hd
        · exact h
      unfold blockJobScan
      split
      · exact ih _ hrest
      · split
        · rfl
        · exact ih _ hrest

theorem isDomainBlockJobRunning_running (lib : Lib) (devices : DomainDeviceList)
    (disk : String) (raw : RawBlockJobInfo)
    (hactive : ∀ t, lib.isActive t = Except.ok true)
    (hxml : ∀ t, lib.getXMLDesc t [] = Except.ok ⟨some devices⟩)
    (hdisk : disk ∈ diskTargets devices.Disks)
    (hjob : ∀ t, lib.getBlockJobInfo t disk = Except.ok raw)
    (hty : blockingJobType (blockJobTypeName raw.Type_) = true) (t : List Call) :
    (isDomainBlockJobRunning lib t).1 = (true, none) := by
  have hs := blockJobScan_found lib disk raw hjob hty (diskTargets devices.Disks)
    (t ++ [Call.isActive] ++ [Call.getXMLDesc []]) hdisk
  simp only [isDomainBlockJobRunning, isDomainActive, hactive,
    getDomainBlockDeviceNamesOrPaths, hxml]
  simp only [Bool.false_eq_true, if_false]
  rw [show blockJobScan lib (diskTargets devices.Disks)
      (t ++ [Call.isActive] ++ [Call.getXMLDesc []])
    = ((blockJobScan lib (diskTargets devices.Disks)
      (t ++ [Call.isActive] ++ [Call.getXMLDesc []])).1,
      (blockJobScan lib (diskTargets devices.Disks)
      (t ++ [Call.isActive] ++ [Call.getXMLDesc []])).2) from rfl]
  simp only [hs]

theorem blockJobGate_refuses (lib : Lib) (t : List Call)
    (h : (isDomainBlockJobRunning lib t).1 = (true, none)) :
    (blockJobGate lib t).1 = some "sanity lock, block device job is currently in process" := by
  unfold blockJobGate
  split
  · rename_i heq; rw [heq] at h; simp at h
  · rfl
  · rename_i heq; rw [heq] at h; simp at h

theorem gates_refuse_of_blockJob (lib : Lib) (active : Option (Bool × String))
    (snapshot : Option String)
    (h : ∀ t, (isDomainBlockJobRunning lib t).1 = (true, none)) (t : List Call) :
    (gates lib t active snapshot).1 ≠ none := by
  unfold gates
  split
  · simp
  · rename_i t1 heq
    have hb := blockJobGate_refuses lib t1 (h t1)
    split
    · simp
    · rename_i t2 heq2
      rw [heq2] at hb
      simp at hb

theorem gates_refuse_of_active (lib : Lib) (msg : String) (snapshot : Option String)
    (hactive : ∀ t, lib.isActive t = Except.ok true) (t : List Call) :
    (gates lib t (some (true, msg)) snapshot).1 = some msg := by
  simp [gates, activeGate, isDomainActive, hactive]

theorem gates_refuse_of_inactive (lib : Lib) (msg : String) (snapshot : Option String)
    (t : List Call) (hinactive : (isDomainActive lib t).1 = false) :
    (gates lib t (some (false, msg)) snapshot).1 = some msg := by
  simp only [gates, activeGate]
  rw [show isDomainActive lib t = ((isDomainActive lib t).1, (isDomainActive lib t).2) from rfl]
  simp [hinactive]

theorem domainHandler_refused (w : World) (Domain : String) (active : Option (Bool × String))
    (snapshot : Option String) (body : Lib → List Call → BackupRun)
    (h : ∀ t t1, gates w.lib t active snapshot = (none, t1) →
      (body w.lib t1).result.ok = false ∧ (body w.lib t1).result.err ≠ none ∧
      (body w.lib t1).result.status = Status.returned ∧
      Extends ReadOnly t1 (body w.lib t1).result.calls) :
    Refused (domainHandler w Domain active snapshot body) := by
  unfold domainHandler
  simp only
  split
  · exact ⟨rfl, by simp, rfl, by simp⟩
  · simp only [Lib.exec]
    cases ho : w.lib.fails [] (Call.openConnection "rw") with
    | some e =>
      refine ⟨rfl, by simp, rfl, ?_⟩
      intro c hc
      simp only [List.nil_append, List.mem_singleton] at hc
      subst hc
      rfl
    | none =>
      simp only
      have h0 : ∀ c ∈ [Call.openConnection "rw"] ++ [Call.lookupDomainByName Domain],
          ReadOnly c := by
        intro c hc
        simp only [List.singleton_append, List.mem_cons, List.mem_singleton, List.not_mem_nil,
          or_false] at hc
        rcases hc with hc | hc <;> subst hc <;> rfl
      cases hl : w.lib.fails ([] ++ [Call.openConnection "rw"])
          (Call.lookupDomainByName Domain) with
      | some e => exact ⟨rfl, by simp, rfl, h0⟩
      | none =>
        simp only
        have hg := gates_readOnly w.lib
          ([] ++ [Call.openConnection "rw"] ++ [Call.lookupDomainByName Domain]) active snapshot
        cases hgs : gates w.lib
            ([] ++ [Call.openConnection "rw"] ++ [Call.lookupDomainByName Domain])
            active snapshot with
        | mk e t3 =>
          rw [hgs] at hg
          cases e with
          | some e => exact ⟨rfl, by simp, rfl, hg.forall_mem h0⟩
          | none =>
            obtain ⟨a, b, c, d⟩ := h _ t3 hgs
            exact ⟨a, b, c, (hg.trans d).forall_mem h0⟩

theorem domainHandler_refused_of_gates (w : World) (Domain : String)
    (active : Option (Bool × String)) (snapshot : Option String)
    (body : Lib → List Call → BackupRun)
    (h : ∀ t, (gates w.lib t active snapshot).1 ≠ none) :
    Refused (domainHandler w Domain active snapshot body) := by
  apply domainHandler_refused
  intro t t1 hg
  have := h t
  rw [hg] at this
  exact absurd rfl this

/-! ## Handlers -/

/-- C4: on a running domain that has a disk target whose job info can be read and shows a
PULL, COPY, COMMIT or ACTIVE_COMMIT job, every domain-scoped mutation handler, with any
arguments, returns `false` with an error and makes no mutating library call. -/
theorem mutation_refused_while_block_job (w : World) (Domain : String) (m : Mutation)
    (devices : DomainDeviceList) (disk : String) (raw : RawBlockJobInfo)
    (hactive : ∀ t, w.lib.isActive t = Except.ok true)
    (hxml : ∀ t, w.lib.getXMLDesc t [] = Except.ok ⟨some devices⟩)
    (hdisk : disk ∈ diskTargets devices.Disks)
    (hjob : ∀ t, w.lib.getBlockJobInfo t disk = Except.ok raw)
    (hty : raw.Type_ = DomainBlockJobType.pull ∨ raw.Type_ = DomainBlockJobType.copy ∨
      raw.Type_ = DomainBlockJobType.commit ∨ raw.Type_ = DomainBlockJobType.activeCommit) :
    Refused (m.run w Domain) := by
  have hb : blockingJobType (blockJobTypeName raw.Type_) = true := by
    rcases hty with h | h | h | h <;> rw [h] <;> decide
  have hg : ∀ a s t, (gates w.lib t a s).1 ≠ none := fun a s =>
    gates_refuse_of_blockJob w.lib a s
      (isDomainBlockJobRunning_running w.lib devices disk raw hactive hxml hdisk hjob hb)
  cases m <;> exact domainHandler_refused_of_gates _ _ _ _ _ (hg _ _)

/-- Witness of C4: `Start` on a running domain whose disk `sda` has a block pull in
progress. -/
theorem mutation_refused_while_block_job_witness :
    Refused (Mutation.run { lib := pullingLib } "vm01" Mutation.Start) ∧
    (Mutation.run { lib := pullingLib } "vm01" Mutation.Start).err
      = some "sanity lock, block device job is currently in process" :=
  ⟨mutation_refused_while_block_job { lib := pullingLib } "vm01" Mutation.Start
    { Disks := [⟨"disk", some "sda", some "/var/lib/libvirt/images/vm01.qcow2",
        false, false, false⟩] } "sda" ⟨DomainBlockJobType.pull, 0, 10, 100⟩
    (fun _ => rfl) (fun _ => rfl) (by decide) (fun _ => rfl) (Or.inl rfl), by decide⟩

theorem isMACvalid_ne (mac : String) : isMACvalid mac ≠ (false, none) := by
  unfold isMACvalid
  split
  · simp
  · split <;> simp

theorem setPVID_refused_active (lib : Lib) (t : List Call) (mac : String) (pvid : Nat)
    (hactive : ∀ t, lib.isActive t = Except.ok true) :
    (ofPair (setPVIDForDomainNetworkDevice lib t mac pvid)).ok = false ∧
    (ofPair (setPVIDForDomainNetworkDevice lib t mac pvid)).err ≠ none ∧
    (ofPair (setPVIDForDomainNetworkDevice lib t mac pvid)).status = Status.returned ∧
    Extends ReadOnly t (ofPair (setPVIDForDomainNetworkDevice lib t mac pvid)).calls := by
  have hne := isMACvalid_ne mac
  unfold setPVIDForDomainNetworkDevice
  split
  · exact ⟨rfl, by simp [ofPair], rfl, Extends.refl _ _⟩
  · rename_i heq
    exact absurd heq hne
  · simp only [isDomainActive, hactive]
    exact ⟨rfl, by simp [ofPair], rfl, Extends.single _ _ rfl⟩

theorem setPVID_active_message (lib : Lib) (t : List Call) (mac : String) (pvid : Nat)
    (hactive : ∀ t, lib.isActive t = Except.ok true) (hmac : isMACvalid mac = (true, none)) :
    (ofPair (setPVIDForDomainNetworkDevice lib t mac pvid)).err
      = some "domain must not be active while setting PVID for network device" := by
  simp [setPVIDForDomainNetworkDevice, hmac, isDomainActive, hactive, ofPair]

theorem gates_pass (lib : Lib) (t : List Call)
    (h : (isDomainBlockJobRunning lib t).1 = (false, none)) :
    gates lib t none none = (none, (isDomainBlockJobRunning lib t).2) := by
  simp only [gates, activeGate, blockJobGate, snapshotGate]
  rw [show isDomainBlockJobRunning lib t
    = ((isDomainBlockJobRunning lib t).1, (isDomainBlockJobRunning lib t).2) from rfl, h]

theorem domainHandler_passed (w : World) (Domain : String) (active : Option (Bool × String))
    (snapshot : Option String) (body : Lib → List Call → BackupRun) (t3 : List Call)
    (hlock : (isLockedAndMakeLock w.env w.reg Domain 10).locked = false)
    (hopen : w.lib.fails [] (Call.openConnection "rw") = none)
    (hlookup : w.lib.fails [Call.openConnection "rw"] (Call.lookupDomainByName Domain) = none)
    (hg : gates w.lib [Call.openConnection "rw", Call.lookupDomainByName Domain]
      active snapshot = (none, t3)) :
    domainHandler w Domain active snapshot body
      = ⟨(body w.lib t3).result.ok, (body w.lib t3).result.err, (body w.lib t3).result.calls,
          (isLockedAndMakeLock w.env w.reg Domain 10).registry,
          (body w.lib t3).result.status, (body w.lib t3).waits⟩ := by
  simp [domainHandler, hlock, Lib.exec, hopen, hlookup, hg]

/-- C6: while the domain is running, `Destroy`, `SetMaxMemory`, `SetMaxVCPUs`,
`MakeSnapshot`, `RevertToSnapshot`, `RemoveSnapshot` and `SetPVIDForNetworkDevice` return
`false` with an error and make no mutating library call (so neither detach nor attach).
When moreover the lock is granted, the connection opens, the domain is found, the block-job
check finds no job and the MAC is valid, the error of `SetPVIDForNetworkDevice` is exactly
"domain must not be active while setting PVID for network device". -/
theorem stoppedOnly_refused_while_active (w : World) (Domain : String) (m : Mutation)
    (MAC : String) (PVID : Nat)
    (hactive : ∀ t, w.lib.isActive t = Except.ok true) :
    (m.stoppedOnly = true → Refused (m.run w Domain)) ∧
    ((isLockedAndMakeLock w.env w.reg Domain 10).locked = false →
      w.lib.fails [] (Call.openConnection "rw") = none →
      w.lib.fails [Call.openConnection "rw"] (Call.lookupDomainByName Domain) = none →
      (∀ t, (isDomainBlockJobRunning w.lib t).1 = (false, none)) →
      isMACvalid MAC = (true, none) →
      Refused (SetPVIDForNetworkDevice w Domain MAC PVID) ∧
      (SetPVIDForNetworkDevice w Domain MAC PVID).err
        = some "domain must not be active while setting PVID for network device") := by
  have hpvid : ∀ mac pvid, Refused (SetPVIDForNetworkDevice w Domain mac pvid) := by
    intro mac pvid
    apply domainHandler_refused
    intro t t1 _
    exact setPVID_refused_active w.lib t1 mac pvid hactive
  constructor
  · intro hm
    cases m <;> simp only [Mutation.stoppedOnly, Bool.false_eq_true] at hm
    · exact domainHandler_refused_of_gates _ _ _ _ _
        (fun t => by rw [gates_refuse_of_active _ _ _ hactive]; simp)
    · exact domainHandler_refused_of_gates _ _ _ _ _
        (fun t => by rw [gates_refuse_of_active _ _ _ hactive]; simp)
    · exact domainHandler_refused_of_gates _ _ _ _ _
        (fun t => by rw [gates_refuse_of_active _ _ _ hactive]; simp)
    · exact hpvid _ _
    · exact domainHandler_refused_of_gates _ _ _ _ _
        (fun t => by rw [gates_refuse_of_active _ _ _ hactive]; simp)
    · exact domainHandler_refused_of_gates _ _ _ _ _
        (fun t => by rw [gates_refuse_of_active _ _ _ hactive]; simp)
    · exact domainHandler_refused_of_gates _ _ _ _ _
        (fun t => by rw [gates_refuse_of_active _ _ _ hactive]; simp)
  · intro hlock hopen hlookup hjob hmac
    refine ⟨hpvid MAC PVID, ?_⟩
    unfold SetPVIDForNetworkDevice
    rw [domainHandler_passed w Domain none none _ _ hlock hopen hlookup
      (gates_pass w.lib _ (hjob _))]
    exact setPVID_active_message w.lib _ MAC PVID hactive hmac

theorem runningLib_no_job (t : List Call) :
    (isDomainBlockJobRunning runningLib t).1 = (false, none) := by
  simp [isDomainBlockJobRunning, isDomainActive, runningLib, getDomainBlockDeviceNamesOrPaths,
    diskTargets, blockJobScan, getDomainBlockJobInfo, blockJobTypeName, blockingJobType,
    domainBlockJobTypePull, domainBlockJobTypeCopy, domainBlockJobTypeCommit,
    domainBlockJobTypeActiveCommit]

/-- Witness of C6: `vm01` is running with no block job; `Destroy` is refused, and
`SetPVIDForNetworkDevice("vm01", "52:54:00:ab:cd:ef", 333)` is refused with the exact error. -/
theorem stoppedOnly_refused_while_active_witness :
    Refused (Mutation.run { lib := runningLib } "vm01" Mutation.Destroy) ∧
    Refused (SetPVIDForNetworkDevice { lib := runningLib } "vm01" "52:54:00:ab:cd:ef" 333) ∧
    (SetPVIDForNetworkDevice { lib := runningLib } "vm01" "52:54:00:ab:cd:ef" 333).err
      = some "domain must not be active while setting PVID for network device" :=
  ⟨(stoppedOnly_refused_while_active { lib := runningLib } "vm01" Mutation.Destroy
      "52:54:00:ab:cd:ef" 333 (fun _ => rfl)).1 rfl,
    (stoppedOnly_refused_while_active { lib := runningLib } "vm01" Mutation.Destroy
      "52:54:00:ab:cd:ef" 333 (fun _ => rfl)).2 (by decide) rfl rfl runningLib_no_job
      (by decide)⟩

/-- C5, as the code behaves: on a stopped domain `MakeBackup` is refused with "domain must
be active while creating backup" and `QemuAgentInfo` is refused with an error, neither
making a mutating or guest-agent call, but `SetPassword` has no activity check: it passes
the block-job gate and calls `SetUserPassword`, handing back the library's answer. -/
theorem SetPassword_not_gated_on_activity :
    (MakeBackup { lib := {} } "vm01" 5).err = some "domain must be active while creating backup" ∧
    Refused (MakeBackup { lib := {} } "vm01" 5) ∧
    Refused (QemuAgentInfo { lib := {} } "vm01") ∧
    (QemuAgentInfo { lib := {} } "vm01").calls.all (fun c => !c.guest) = true ∧
    SetPassword { lib := {} } "vm01" "root" "secret"
      = ⟨true, none, [Call.openConnection "rw", Call.lookupDomainByName "vm01", Call.isActive,
          Call.setUserPassword "root" "secret"], [], Status.returned, []⟩ := by
  refine ⟨by decide, ⟨by decide, by decide, by decide, by decide⟩,
    ⟨by decide, by decide, by decide, by decide⟩, by decide, by decide⟩

/-! ## Pivot after block commit -/

theorem prepareXMLForSnapshot_readOnly (lib : Lib) (t : List Call) (name : String)
    (isInternal : Bool) :
    Extends ReadOnly t (prepareXMLForSnapshot lib t name isInternal).2 := by
  have h1 : ∀ t1 : List Call, Extends ReadOnly t1 (t1 ++ [Call.getXMLDesc ["DOMAIN_XML_INACTIVE"]]) :=
    fun t1 => Extends.single _ _ rfl
  have hn : Extends ReadOnly t (getDomainName lib t).2 := by
    unfold getDomainName
    split <;> exact Extends.single _ _ rfl
  unfold prepareXMLForSnapshot
  split
  · rename_i domain t1 heq
    rw [heq] at hn
    split
    · exact hn.trans (h1 _)
    · simp only
      split
      · exact hn.trans (h1 _)
      · split <;> split <;> exact hn.trans (h1 _)

theorem createBackups_notPivot (lib : Lib) (paths : List String) (t : List Call) :
    Extends NotPivot t (createBackups lib paths t).2 := by
  induction paths generalizing t with
  | nil => exact Extends.refl _ _
  | cons p rest ih =>
    have hs : Extends NotPivot t (t ++ [Call.lz4Compress p]) := Extends.single _ _ rfl
    simp only [createBackups, createBackup, Lib.exec]
    split
    · rename_i e t1 heq
      simp only [Prod.mk.injEq] at heq
      rw [← heq.2]
      exact hs
    · rename_i t1 heq
      simp only [Prod.mk.injEq] at heq
      rw [← heq.2]
      exact hs.trans (ih _)

theorem refreshPools_notPivot (lib : Lib) (pools : List String) (t : List Call) :
    Extends NotPivot t (refreshPools lib pools t) := by
  induction pools generalizing t with
  | nil => exact Extends.refl _ _
  | cons p rest ih =>
    simp only [refreshPools, Lib.exec]
    exact (Extends.single (P := NotPivot) t (Call.poolRefresh p) rfl).trans (ih _)

theorem refreshAllStorgePools_notPivot (lib : Lib) (t : List Call) :
    Extends NotPivot t (refreshAllStorgePools lib t).2 := by
  simp only [refreshAllStorgePools]
  cases lib.listAllStoragePools t
      ["CONNECT_LIST_STORAGE_POOLS_DIR", "CONNECT_LIST_STORAGE_POOLS_ACTIVE"] with
  | error e =>
    exact Extends.single (P := NotPivot) t (Call.listAllStoragePools
      ["CONNECT_LIST_STORAGE_POOLS_DIR", "CONNECT_LIST_STORAGE_POOLS_ACTIVE"]) rfl
  | ok pools =>
    exact (Extends.single (P := NotPivot) t (Call.listAllStoragePools
      ["CONNECT_LIST_STORAGE_POOLS_DIR", "CONNECT_LIST_STORAGE_POOLS_ACTIVE"]) rfl).trans
      (refreshPools_notPivot lib pools _)

theorem deleteCandidates_notPivot (lib : Lib) (paths : List String) (t : List Call) :
    Extends NotPivot t (deleteCandidates lib paths t).2 := by
  induction paths generalizing t with
  | nil => exact Extends.refl _ _
  | cons p rest ih =>
    by_cases hp : acceptedForDeletion p = true
    · simp only [deleteCandidates, hp, if_true, lookupStorageVolByPath, deletePoolVolume,
        Lib.exec]
      have h1 : Extends NotPivot t (t ++ [Call.lookupStorageVolByPath p]) :=
        Extends.single _ _ rfl
      cases lib.lookupStorageVolByPath t p with
      | error e => exact h1
      | ok vol =>
        simp only
        have h2 : Extends NotPivot (t ++ [Call.lookupStorageVolByPath p])
            (t ++ [Call.lookupStorageVolByPath p] ++
              [Call.storageVolDelete vol ["STORAGE_VOL_DELETE_NORMAL"]]) :=
          Extends.single _ _ rfl
        cases lib.fails (t ++ [Call.lookupStorageVolByPath p])
            (Call.storageVolDelete vol ["STORAGE_VOL_DELETE_NORMAL"]) with
        | some e => exact h1.trans h2
        | none => exact (h1.trans h2).trans (ih _)
    · simp only [deleteCandidates, hp]
      exact ih t

theorem deleteTemporaryExternalSnapshot_notPivot (lib : Lib) (t : List Call)
    (paths : List String) :
    Extends NotPivot t (deleteTemporaryExternalSnapshot lib t paths).2 := by
  have hr := refreshAllStorgePools_notPivot lib t
  unfold deleteTemporaryExternalSnapshot
  split
  · rename_i e t1 heq
    rw [heq] at hr
    exact hr
  · rename_i t1 heq
    rw [heq] at hr
    exact hr.trans (deleteCandidates_notPivot lib paths t1)

theorem finishBackup_notPivot (lib : Lib) (t : List Call) (paths : List String) :
    Extends NotPivot t (finishBackup lib t paths).calls := by
  have hd := deleteTemporaryExternalSnapshot_notPivot lib t paths
  unfold finishBackup
  split
  · rename_i e t1 heq
    rw [heq] at hd
    exact hd
  · rename_i t1 heq
    rw [heq] at hd
    have hg := (isDomainBlockHasActiveExternalBackupSnashot_readOnly lib t1).mono
      readOnly_notPivot
    split <;> (rename_i heq2; rw [heq2] at hg; exact hd.trans hg)

theorem waitLoop_readOnly (lib : Lib) (disk : String) :
    ∀ (fuel j : Nat) (seen : List (Except String blockJobInfo)) (t : List Call) (run : WaitRun),
      waitLoop lib disk fuel j seen t = some run → Extends ReadOnly t run.calls := by
  intro fuel
  induction fuel with
  | zero =>
    intro j seen t run h
    simp [waitLoop] at h
  | succ fuel ih =>
    intro j seen t run h
    have hprobe : Extends ReadOnly t
        (t ++ [Call.timeSince, Call.sleep 5] ++ [Call.getBlockJobInfo disk]) :=
      ⟨[Call.timeSince, Call.sleep 5, Call.getBlockJobInfo disk], by simp, by
        intro c hc
        simp only [List.mem_cons, List.mem_singleton, List.not_mem_nil, or_false] at hc
        rcases hc with hc | hc | hc <;> subst hc <;> rfl⟩
    have hcalls := getDomainBlockJobInfo_calls lib (t ++ [Call.timeSince, Call.sleep 5]) disk
    unfold waitLoop at h
    split at h
    · simp only [Option.some.injEq] at h
      subst h
      exact Extends.single _ _ rfl
    · split at h
      · simp only [Option.some.injEq] at h
        subst h
        exact Extends.single _ _ rfl
      · split at h
        · rename_i e t1 heq
          rw [heq] at hcalls
          simp only at hcalls
          subst hcalls
          exact hprobe.trans (ih _ _ _ _ h)
        · rename_i jobInfo t1 heq
          rw [heq] at hcalls
          simp only at hcalls
          subst hcalls
          split at h
          · simp only [Option.some.injEq] at h
            subst h
            exact hprobe
          · split at h
            · exact hprobe.trans (ih _ _ _ _ h)
            · exact hprobe.trans (ih _ _ _ _ h)

theorem commitDisks_pivots (lib : Lib) (fuel : Nat) :
    ∀ (disks : List String) (waits : List (String × WaitExit)) (t : List Call) (run : CommitRun),
      commitDisks lib fuel disks waits t = some run →
      pivotsOf t = (waits.filter fun x => x.2.result).map Prod.fst →
      pivotsOf run.calls = (run.waits.filter fun x => x.2.result).map Prod.fst := by
  intro disks
  induction disks with
  | nil =>
    intro waits t run h hinv
    simp only [commitDisks, Option.some.injEq] at h
    subst h
    exact hinv
  | cons disk rest ih =>
    intro waits t run h hinv
    have hc : pivotsOf (t ++ [Call.blockCommit disk
        ["DOMAIN_BLOCK_COMMIT_ACTIVE", "DOMAIN_BLOCK_COMMIT_SHALLOW"]]) = pivotsOf t := by
      rw [pivotsOf_append]; simp [pivotsOf]
    simp only [commitDisks, blockCommitActive, Lib.exec] at h
    cases hb : lib.fails t (Call.blockCommit disk
        ["DOMAIN_BLOCK_COMMIT_ACTIVE", "DOMAIN_BLOCK_COMMIT_SHALLOW"]) with
    | some e =>
      rw [hb] at h
      simp only [Option.some.injEq] at h
      subst h
      simp only [hc, hinv]
    | none =>
      rw [hb] at h
      simp only at h
      cases hw : waitLoop lib disk fuel 0 [] (t ++ [Call.blockCommit disk
          ["DOMAIN_BLOCK_COMMIT_ACTIVE", "DOMAIN_BLOCK_COMMIT_SHALLOW"]]) with
      | none =>
        rw [hw] at h
        simp at h
      | some wrun =>
        rw [hw] at h
        simp only at h
        have hwp : pivotsOf wrun.calls = pivotsOf t := by
          rw [((waitLoop_readOnly lib disk fuel 0 [] _ wrun hw).mono
            readOnly_notPivot).pivotsOf_eq, hc]
        by_cases hres : wrun.exit.result = true
        · simp only [hres, Bool.not_true, Bool.false_eq_true, if_false,
            blockCommitActivePivot, Lib.exec] at h
          have hp : pivotsOf (wrun.calls ++ [Call.blockJobAbort disk
              ["DOMAIN_BLOCK_JOB_ABORT_PIVOT", "DOMAIN_BLOCK_JOB_ABORT_ASYNC"]])
              = ((waits ++ [(disk, wrun.exit)]).filter fun x => x.2.result).map Prod.fst := by
            rw [pivotsOf_append, hwp, hinv]
            simp [pivotsOf, List.filter_append, hres]
          cases hpv : lib.fails wrun.calls (Call.blockJobAbort disk
              ["DOMAIN_BLOCK_JOB_ABORT_PIVOT", "DOMAIN_BLOCK_JOB_ABORT_ASYNC"]) with
          | some e =>
            rw [hpv] at h
            simp only [Option.some.injEq] at h
            subst h
            exact hp
          | none =>
            rw [hpv] at h
            simp only at h
            exact ih _ _ run h hp
        · have hres2 : wrun.exit.result = false := by simpa using hres
          simp only [hres2, Bool.not_false, if_true] at h
          apply ih _ _ run h
          rw [hwp, hinv]
          simp [List.filter_append, hres2]

theorem backupAfterSnapshot_pivots (lib : Lib) (t : List Call) (paths : List String)
    (fuel : Nat) (ht : pivotsOf t = []) :
    pivotsOf (backupAfterSnapshot lib t paths fuel).result.calls
      = ((backupAfterSnapshot lib t paths fuel).waits.filter fun x => x.2.result).map
        Prod.fst := by
  have hb := (createBackups_notPivot lib paths t).pivotsOf_eq
  unfold backupAfterSnapshot
  split
  · rename_i e t1 heq
    rw [heq] at hb
    simpa [ht] using hb
  · rename_i t1 heq
    rw [heq] at hb
    have h1 := ((getDomainBlockDeviceNamesOrPaths_readOnly lib t1 false).mono
      readOnly_notPivot).pivotsOf_eq
    split
    · rename_i e t2 heq2
      rw [heq2] at h1
      simp only at h1 hb
      simp [h1, hb, ht]
    · rename_i disks t2 heq2
      rw [heq2] at h1
      have h2 := ((getDomainBlockDeviceNamesOrPaths_readOnly lib t2 true).mono
        readOnly_notPivot).pivotsOf_eq
      split
      · rename_i e t3 heq3
        rw [heq3] at h2
        simp only at h1 h2 hb
        simp [h2, h1, hb, ht]
      · rename_i paths2 t3 heq3
        rw [heq3] at h2
        simp only at h1 h2 hb
        have h3 : pivotsOf t3 = [] := by rw [h2, h1, hb, ht]
        split
        · simp [h3]
        · rename_i err waits t4 heq4
          simpa using commitDisks_pivots lib fuel disks [] t3 _ heq4 (by simp [h3])
        · rename_i waits t4 heq4
          have h4 := commitDisks_pivots lib fuel disks [] t3 _ heq4 (by simp [h3])
          simp only at h4 ⊢
          rw [(finishBackup_notPivot lib t4 paths2).pivotsOf_eq, h4]

theorem makeBackupBody_pivots (lib : Lib) (t : List Call) (fuel : Nat) (ht : pivotsOf t = []) :
    pivotsOf (makeBackupBody lib t fuel).result.calls
      = ((makeBackupBody lib t fuel).waits.filter fun x => x.2.result).map Prod.fst := by
  have hp := ((prepareXMLForSnapshot_readOnly lib t "external.snapshot.qcow2" false).mono
    readOnly_notPivot).pivotsOf_eq
  unfold makeBackupBody
  split
  · rename_i x e t1 heq
    rw [heq] at hp
    simp only at hp
    simp [hp, ht]
  · rename_i xml t1 heq
    rw [heq] at hp
    simp only at hp
    have h1 := ((getDomainBlockDeviceNamesOrPaths_readOnly lib t1 true).mono
      readOnly_notPivot).pivotsOf_eq
    split
    · rename_i e t2 heq2
      rw [heq2] at h1
      simp only at h1
      simp [h1, hp, ht]
    · rename_i paths t2 heq2
      rw [heq2] at h1
      simp only at h1
      have h2 : pivotsOf t2 = [] := by rw [h1, hp, ht]
      simp only [makeDomainSnapshot, Lib.exec]
      have h3 : ∀ (x : String) (fl : Flags),
          pivotsOf (t2 ++ [Call.createSnapshotXML x fl]) = [] := by
        intro x fl
        rw [pivotsOf_append, h2]
        rfl
      cases lib.fails t2 (Call.createSnapshotXML xml
          ["DOMAIN_SNAPSHOT_CREATE_DISK_ONLY", "DOMAIN_SNAPSHOT_CREATE_QUIESCE",
            "DOMAIN_SNAPSHOT_CREATE_ATOMIC", "DOMAIN_SNAPSHOT_CREATE_NO_METADATA"]) with
      | some e => simpa using h3 _ _
      | none => exact backupAfterSnapshot_pivots lib _ paths fuel (h3 _ _)

/-- C10 as stated fails: on a running domain whose job info reads `cur == end == 0` at the
first probe, the wait for `sda` ends because the job vanished, and `MakeBackup` still calls
`BlockJobAbort` with the pivot flag for `sda` (and then reports success). -/
theorem MakeBackup_pivots_after_vanished_job :
    (MakeBackup { lib := runningLib } "vm01" 5).waits = [("sda", WaitExit.jobStopped)] ∧
    pivotsOf (MakeBackup { lib := runningLib } "vm01" 5).calls = ["sda"] ∧
    (MakeBackup { lib := runningLib } "vm01" 5).ok = true := by
  decide

/-- C10, amended: the disks for which `MakeBackup` calls `BlockJobAbort` with the pivot flag
are, in order, exactly the disks whose wait returned `true`, that is the waits that ended
through the retry counter or because the job vanished; a wait that ended because the
one-hour budget ran out is followed by no pivot. -/
theorem MakeBackup_pivots_iff_wait_true (w : World) (Domain : String) (fuel : Nat) :
    pivotsOf (MakeBackup w Domain fuel).calls
      = ((MakeBackup w Domain fuel).waits.filter fun x => x.2 ≠ WaitExit.timeout).map
        Prod.fst := by
  have hf : (fun x : String × WaitExit => decide (x.2 ≠ WaitExit.timeout))
      = fun x => x.2.result := by
    funext x
    cases x.2 <;> simp [WaitExit.result]
  rw [hf]
  unfold MakeBackup domainHandler
  simp only
  split
  · rfl
  · simp only [Lib.exec]
    cases w.lib.fails [] (Call.openConnection "rw") with
    | some e => rfl
    | none =>
      simp only
      cases w.lib.fails ([] ++ [Call.openConnection "rw"])
          (Call.lookupDomainByName Domain) with
      | some e => rfl
      | none =>
        simp only
        have hg := ((gates_readOnly w.lib
          ([] ++ [Call.openConnection "rw"] ++ [Call.lookupDomainByName Domain])
          (some (false, "domain must be active while creating backup"))
          (some "sanity lock, domain has unfinished backup")).mono
          readOnly_notPivot).pivotsOf_eq
        cases hgs : gates w.lib
            ([] ++ [Call.openConnection "rw"] ++ [Call.lookupDomainByName Domain])
            (some (false, "domain must be active while creating backup"))
            (some "sanity lock, domain has unfinished backup") with
        | mk e t3 =>
          rw [hgs] at hg
          simp only at hg
          have h3 : pivotsOf t3 = [] := by rw [hg]; rfl
          cases e with
          | some e => simp [h3]
          | none => exact makeBackupBody_pivots w.lib t3 fuel h3

/-! ## Guest-agent file read -/

theorem b64Value_b64Char : ∀ n, n < 64 → b64Value (b64Char n) = some n := by
  decide

theorem b64Char_plain : ∀ n, n < 64 →
    b64Char n ≠ '=' ∧ b64Char n ≠ '\r' ∧ b64Char n ≠ '\n' := by
  decide

theorem ofNat_byte (x : Nat) (a : Fin 256) (h : x = a.val) : (Fin.ofNat x : Fin 256) = a := by
  apply Fin.ext
  simp only [Fin.ofNat, h]
  exact Nat.mod_eq_of_lt a.isLt

theorem stdDecodeChars_stdEncodeChars (p : Bytes) :
    stdDecodeChars (stdEncodeChars p) = Except.ok p := by
  induction p using stdEncodeChars.induct with
  | case1 a b c rest ih =>
    have ha := a.isLt
    have hb := b.isLt
    have hc := c.isLt
    have h3 := (b64Char_plain (b.val % 16 * 4 + c.val / 64) (by omega)).1
    have h4 := (b64Char_plain (c.val % 64) (by omega)).1
    simp only [stdEncodeChars, List.cons_append, List.nil_append, stdDecodeChars, h3, h4,
      false_and, and_false, if_false,
      b64Value_b64Char (a.val / 4) (by omega),
      b64Value_b64Char (a.val % 4 * 16 + b.val / 16) (by omega),
      b64Value_b64Char (b.val % 16 * 4 + c.val / 64) (by omega),
      b64Value_b64Char (c.val % 64) (by omega)]
    rw [show ([] : List Char).append (stdEncodeChars rest) = stdEncodeChars rest from rfl, ih]
    simp only [Except.ok.injEq, List.cons.injEq, and_true]
    exact ⟨ofNat_byte _ a (by omega), ofNat_byte _ b (by omega), ofNat_byte _ c (by omega)⟩
  | case2 a b =>
    have ha := a.isLt
    have hb := b.isLt
    have h3 := (b64Char_plain (b.val % 16 * 4) (by omega)).1
    simp only [stdEncodeChars, stdDecodeChars, h3, and_false, false_and, and_self, if_false,
      if_true, true_and,
      b64Value_b64Char (a.val / 4) (by omega),
      b64Value_b64Char (a.val % 4 * 16 + b.val / 16) (by omega),
      b64Value_b64Char (b.val % 16 * 4) (by omega)]
    rw [ofNat_byte _ a (by omega), ofNat_byte _ b (by omega)]
  | case3 a =>
    have ha := a.isLt
    simp only [stdEncodeChars, stdDecodeChars, and_self, if_true,
      b64Value_b64Char (a.val / 4) (by omega),
      b64Value_b64Char (a.val % 4 * 16) (by omega)]
    rw [ofNat_byte _ a (by omega)]
  | case4 => rfl

theorem stdEncodeChars_plain (p : Bytes) :
    ∀ c ∈ stdEncodeChars p, c ≠ '\r' ∧ c ≠ '\n' := by
  induction p using stdEncodeChars.induct with
  | case1 a b c rest ih =>
    have ha := a.isLt
    have hb := b.isLt
    have hc := c.isLt
    intro x hx
    simp only [stdEncodeChars, List.cons_append, List.nil_append, List.mem_cons] at hx
    rcases hx with h | h | h | h | h
    · rw [h]; exact (b64Char_plain _ (by omega)).2
    · rw [h]; exact (b64Char_plain _ (by omega)).2
    · rw [h]; exact (b64Char_plain _ (by omega)).2
    · rw [h]; exact (b64Char_plain _ (by omega)).2
    · exact ih x h
  | case2 a b =>
    have ha := a.isLt
    have hb := b.isLt
    intro x hx
    simp only [stdEncodeChars, List.mem_cons, List.mem_singleton, List.not_mem_nil,
      or_false] at hx
    rcases hx with h | h | h | h
    · rw [h]; exact (b64Char_plain _ (by omega)).2
    · rw [h]; exact (b64Char_plain _ (by omega)).2
    · rw [h]; exact (b64Char_plain _ (by omega)).2
    · rw [h]; decide
  | case3 a =>
    have ha := a.isLt
    intro x hx
    simp only [stdEncodeChars, List.mem_cons, List.mem_singleton, List.not_mem_nil,
      or_false] at hx
    rcases hx with h | h | h | h
    · rw [h]; exact (b64Char_plain _ (by omega)).2
    · rw [h]; exact (b64Char_plain _ (by omega)).2
    · rw [h]; decide
    · rw [h]; decide
  | case4 => intro x hx; simp [stdEncodeChars] at hx

theorem stdDecodeString_stdEncode (p : Bytes) : stdDecodeString (stdEncode p) = Except.ok p := by
  have hf : (stdEncodeChars p).filter (fun c => decide (c ≠ '\r' ∧ c ≠ '\n'))
      = stdEncodeChars p := by
    rw [List.filter_eq_self]
    intro c hc
    simpa using stdEncodeChars_plain p c hc
  show stdDecodeChars ((stdEncodeChars p).filter (fun c => decide (c ≠ '\r' ∧ c ≠ '\n')))
    = Except.ok p
  rw [hf]
  exact stdDecodeChars_stdEncodeChars p

/-- C11: when the agent answers `guest-file-read` with `count` the length of `P`, `buf-b64`
the standard base64 encoding of `P` and `eof: true`, `guestFileRead` returns exactly `P` and
no error, for every byte string `P`. -/
theorem guestFileRead_roundtrip (lib : Lib) (t : List Call) (fd : Int) (P : Bytes)
    (h : lib.agentFileRead t fd = Except.ok ⟨P.length, stdEncode P, true⟩) :
    (guestFileRead lib t fd).1 = (P, none) := by
  simp [guestFileRead, h, checkFileRead, stdDecodeString_stdEncode]

/-- Witness of C11: the five bytes of `short`, whose encoding is `c2hvcnQ=`. -/
theorem guestFileRead_roundtrip_witness :
    stdEncode shortBytes = "c2hvcnQ=" ∧ (guestFileRead exactReadLib [] 7).1 = (shortBytes, none) :=
  ⟨by decide, guestFileRead_roundtrip exactReadLib [] 7 shortBytes (by decide)⟩

/-- C12: for every parsed answer, `guestFileRead` fails with "not reached EOF" when `eof` is
false; fails with "decoded base64 payload does not match original string size" when `eof`
is true, the payload decodes and the decoded length differs from `count`; and returns no
error only if `eof` is true and the payload decodes to as many bytes as `count` says, which
are then the bytes returned. -/
theorem guestFileRead_checks (lib : Lib) (t : List Call) (fd : Int) (r : FileReadReturn)
    (h : lib.agentFileRead t fd = Except.ok r) :
    (r.EOF = false → (guestFileRead lib t fd).1 = ([], some "not reached EOF")) ∧
    (∀ decoded, r.EOF = true → stdDecodeString r.BufB64 = Except.ok decoded →
      (decoded.length : Int) ≠ r.Count →
      (guestFileRead lib t fd).1
        = ([], some "decoded base64 payload does not match original string size")) ∧
    ((guestFileRead lib t fd).1.2 = none →
      r.EOF = true ∧ ∃ decoded, stdDecodeString r.BufB64 = Except.ok decoded ∧
        (decoded.length : Int) = r.Count ∧ (guestFileRead lib t fd).1.1 = decoded) := by
  refine ⟨?_, ?_, ?_⟩
  · intro he
    simp [guestFileRead, h, checkFileRead, he]
  · intro decoded he hd hne
    simp [guestFileRead, h, checkFileRead, he, hd, hne]
  · simp only [guestFileRead, h, checkFileRead]
    cases he : r.EOF with
    | false => simp
    | true =>
      simp only [Bool.not_true, Bool.false_eq_true, if_false]
      cases hd : stdDecodeString r.BufB64 with
      | error e => simp
      | ok decoded =>
        simp only
        by_cases hl : (decoded.length : Int) = r.Count
        · simp [hl]
        · simp [hl]

/-- Witness of C12: `count: 10` with the encoding of `short` and `eof: true` is refused with
the size error. -/
theorem guestFileRead_checks_witness :
    stdDecodeString "c2hvcnQ=" = Except.ok shortBytes ∧
    (guestFileRead shortReadLib [] 7).1
      = ([], some "decoded base64 payload does not match original string size") :=
  ⟨by decide, (guestFileRead_checks shortReadLib [] 7 ⟨10, "c2hvcnQ=", true⟩ rfl).2.1
    shortBytes rfl (by decide) (by decide)⟩

/-! ## Validation of a new domain -/

theorem isDomainNameValidAndAvailable_accepts (lib : Lib) (t : List Call) (name : String) :
    (isDomainNameValidAndAvailable lib t name).1 = (true, none) ↔
      name.length ≠ 0 ∧ matchesNamePattern name = true ∧
        lib.fails t (Call.lookupDomainByName name) ≠ none := by
  unfold isDomainNameValidAndAvailable
  by_cases h0 : name.length = 0
  · simp [h0]
  · by_cases hm : matchesNamePattern name = true
    · simp only [h0, if_false, hm, Bool.not_true, Bool.false_eq_true, isDomainExists, Lib.exec]
      cases lib.fails t (Call.lookupDomainByName name) <;> simp [h0]
    · simp [h0, hm]

/-- C13, as the code behaves: the name `vm 01`, which contains a space, is accepted on a
host where no domain of that name is defined, because the pattern is not anchored and
matches as soon as one character of the name is in the class; the empty name is rejected. -/
theorem isDomainNameValidAndAvailable_accepts_space :
    (isDomainNameValidAndAvailable freshHostLib [] "vm 01").1 = (true, none) ∧
    "vm 01".toList.all isNameChar = false ∧
    (isDomainNameValidAndAvailable freshHostLib [] "").1
      = (false, some "domain name is empty") := by
  decide

/-- C15, as the code behaves: with 16 GiB available, the request `memory = 2^63 + 2^20` KiB
is accepted, because `2 * memory` is computed in 64 bits and wraps to `2^21`, although the
exact product exceeds the available memory. -/
theorem isMemoryAvailable_wraps :
    (isMemoryAvailable freshHostLib [] (2 ^ 63 + 2 ^ 20)).1 = (true, none) ∧
    (getNodeMemoryStats freshHostLib []).1.map (fun m => m.Available)
      = Except.ok 16777216 ∧
    ¬ (2 * (2 ^ 63 + 2 ^ 20) ≤ 16777216) ∧ 2 ^ 63 + 2 ^ 20 < 2 ^ 64 := by
  decide

/-- C16: with the node info read and `cpus` below `2^63`, `isVCPUAvailable` accepts a Go
`int` exactly when `0 < vCPU ≤ cpus`; zero and every negative value are rejected with an
error. -/
theorem isVCPUAvailable_iff (lib : Lib) (t : List Call) (vCPU : Int) (cpus : Nat)
    (hinfo : lib.nodeInfo t = Except.ok ⟨cpus⟩)
    (hlo : -(2 ^ 63) ≤ vCPU) (hhi : vCPU < 2 ^ 63) (hcpus : cpus < 2 ^ 63) :
    ((isVCPUAvailable lib t vCPU).1 = (true, none) ↔ 0 < vCPU ∧ vCPU ≤ cpus) ∧
    (vCPU ≤ 0 → (isVCPUAvailable lib t vCPU).1.1 = false ∧
      (isVCPUAvailable lib t vCPU).1.2 ≠ none) := by
  have hu : vCPU ≠ 0 → (toUint vCPU > cpus ↔ ¬ (0 < vCPU ∧ vCPU ≤ cpus)) := by
    intro hne
    unfold toUint
    by_cases hpos : 0 < vCPU
    · have : (vCPU % 2 ^ 64).toNat = vCPU.toNat := by
        rw [Int.emod_eq_of_lt (by omega) (by omega)]
      rw [this]
      omega
    · have hneg : vCPU < 0 := by omega
      have : vCPU % 2 ^ 64 = vCPU + 2 ^ 64 := by
        rw [← Int.add_mul_emod_self (a := vCPU) (b := 1) (c := 2 ^ 64)]
        simp only [one_mul]
        exact Int.emod_eq_of_lt (by omega) (by omega)
      rw [this]
      omega
  simp only [isVCPUAvailable, getNodeInfo, hinfo]
  by_cases h0 : vCPU = 0
  · subst h0
    simp
  · simp only [h0, if_false]
    by_cases hgt : toUint vCPU > cpus
    · have := (hu h0).mp hgt
      simp only [hgt, if_true]
      refine ⟨by simp [this], fun _ => by simp⟩
    · have hin : 0 < vCPU ∧ vCPU ≤ cpus := by
        by_contra hc
        exact hgt ((hu h0).mpr hc)
      simp only [hgt, if_false]
      refine ⟨by simp [hin], fun hle => by omega⟩

/-- Witness of C16: 2 vCPUs on a node with 8 CPUs are accepted. -/
theorem isVCPUAvailable_iff_witness :
    (isVCPUAvailable freshHostLib [] 2).1 = (true, none) ∧ (0 : Int) < 2 ∧ (2 : Int) ≤ (8 : Nat) :=
  ⟨((isVCPUAvailable_iff freshHostLib [] 2 8 rfl (by decide) (by decide) (by decide)).1).2
    ⟨by decide, by decide⟩, by decide, by decide⟩

theorem matchesMacPattern_iff_form (mac : String) :
    matchesMacPattern mac = true ↔ SixOctetForm mac := by
  constructor
  · intro h
    unfold matchesMacPattern at h
    split at h
    · rename_i a1 a2 s1 b1 b2 s2 c1 c2 s3 d1 d2 s4 e1 e2 s5 f1 f2 heq
      simp only [List.all_cons, List.all_nil, Bool.and_true, Bool.and_eq_true,
        decide_eq_true_eq] at h
      obtain ⟨⟨ha1, ha2, hb1, hb2, hc1, hc2, hd1, hd2, he1, he2, hf1, hf2⟩,
        hs1, hs2, hs3, hs4, hs5⟩ := h
      subst hs1 hs2 hs3 hs4 hs5
      refine ⟨[(a1, a2), (b1, b2), (c1, c2), (d1, d2), (e1, e2), (f1, f2)], rfl, ?_, ?_⟩
      · intro o ho
        simp only [List.mem_cons, List.mem_singleton, List.not_mem_nil, or_false] at ho
        rcases ho with rfl | rfl | rfl | rfl | rfl | rfl <;> exact ⟨‹_›, ‹_›⟩
      · rw [heq]
        rfl
    · exact absurd h (by simp)
  · rintro ⟨octets, hlen, hhex, heq⟩
    rcases octets with _ | ⟨o1, _ | ⟨o2, _ | ⟨o3, _ | ⟨o4, _ | ⟨o5, _ | ⟨o6, _ | ⟨o7, rest⟩⟩⟩⟩⟩⟩⟩ <;>
      simp only [List.length_cons, List.length_nil] at hlen <;> try omega
    have h1 := hhex o1 (by simp)
    have h2 := hhex o2 (by simp)
    have h3 := hhex o3 (by simp)
    have h4 := hhex o4 (by simp)
    have h5 := hhex o5 (by simp)
    have h6 := hhex o6 (by simp)
    have heq2 : mac.toList = [o1.1, o1.2, ':', o2.1, o2.2, ':', o3.1, o3.2, ':', o4.1, o4.2, ':',
        o5.1, o5.2, ':', o6.1, o6.2] := by
      rw [heq]
      rfl
    unfold matchesMacPattern
    rw [heq2]
    simp [h1, h2, h3, h4, h5, h6]

theorem startsWith_vendor_of_pattern (mac : String) (hm : matchesMacPattern mac = true) :
    startsWith mac "52:54:00:" = startsWith mac "52:54:00" := by
  unfold matchesMacPattern at hm
  split at hm
  · rename_i a1 a2 s1 b1 b2 s2 c1 c2 s3 d1 d2 s4 e1 e2 s5 f1 f2 heq
    simp only [List.all_cons, List.all_nil, Bool.and_true, Bool.and_eq_true,
      decide_eq_true_eq] at hm
    obtain ⟨-, hs1, hs2, hs3, hs4, hs5⟩ := hm
    subst hs1 hs2 hs3 hs4 hs5
    have e9 : "52:54:00:".toList = ['5', '2', ':', '5', '4', ':', '0', '0', ':'] := rfl
    have e8 : "52:54:00".toList = ['5', '2', ':', '5', '4', ':', '0', '0'] := rfl
    simp only [startsWith, heq, e8, e9, List.isPrefixOf, Bool.and_true, beq_self_eq_true]
  · exact absurd hm (by simp)

/-- C14: `isMACvalid` accepts a string exactly when it starts with `52:54:00:` and has the
form of six two-digit hexadecimal octets (either case) separated by colons; every other
string is rejected with an error; `52:54:00:ab:cd:ef` is accepted. -/
theorem isMACvalid_iff (mac : String) :
    (isMACvalid mac = (true, none) ↔ startsWith mac "52:54:00:" = true ∧ SixOctetForm mac) ∧
    (¬ (startsWith mac "52:54:00:" = true ∧ SixOctetForm mac) →
      (isMACvalid mac).1 = false ∧ (isMACvalid mac).2 ≠ none) ∧
    isMACvalid "52:54:00:ab:cd:ef" = (true, none) := by
  have key : isMACvalid mac = (true, none) ↔
      startsWith mac "52:54:00:" = true ∧ SixOctetForm mac := by
    rw [← matchesMacPattern_iff_form]
    unfold isMACvalid
    by_cases hm : matchesMacPattern mac = true
    · rw [startsWith_vendor_of_pattern mac hm]
      by_cases hp : startsWith mac "52:54:00" = true
      · simp [hm, hp]
      · simp [hm, hp]
    · by_cases hp : startsWith mac "52:54:00" = true
      · simp [hm, hp]
      · simp [hm, hp]
  refine ⟨key, ?_, by decide⟩
  intro hnot
  have hne : isMACvalid mac ≠ (true, none) := fun h => hnot (key.mp h)
  unfold isMACvalid at hne ⊢
  by_cases hp : startsWith mac "52:54:00" = true
  · by_cases hm : matchesMacPattern mac = true
    · simp [hm, hp] at hne
    · simp [hm, hp]
  · simp [hp]

theorem firstFailing_pass_iff (cs : List Check) (t : List Call) :
    (firstFailing cs t).1 = (true, none) ↔ allPass cs t := by
  induction cs generalizing t with
  | nil => simp [firstFailing, allPass]
  | cons c rest ih =>
    by_cases h : (c t).1 = (true, none)
    · simp only [firstFailing, allPass, h, if_true, true_and]
      exact ih _
    · simp only [firstFailing, allPass, h, if_false, false_and, iff_false]
      simp

theorem firstFailing_stops (pre : List Check) (c : Check) (post : List Check) (t : List Call)
    (hpre : allPass pre t) (hc : (c (runAll pre t)).1 ≠ (true, none)) :
    firstFailing (pre ++ c :: post) t
      = ((false, (c (runAll pre t)).1.2), (c (runAll pre t)).2) := by
  induction pre generalizing t with
  | nil =>
    simp only [runAll, List.foldl_nil] at hc
    simp [firstFailing, runAll, hc]
  | cons d rest ih =>
    obtain ⟨hd, hrest⟩ := hpre
    simp only [List.cons_append, firstFailing, hd, if_true]
    exact ih _ hrest hc

theorem validateCreateDomain_eq_firstFailing (lib : Lib) (t : List Call) (uuid name : String)
    (vCPU : Int) (memory : Nat) (storage template network mac : String) :
    validateCreateDomain lib t uuid name vCPU memory storage template network mac
      = firstFailing (createChecks lib uuid name vCPU memory storage template network mac) t := by
  unfold validateCreateDomain
  simp only [createChecks, firstFailing]
  rcases isUUIDValid uuid with ⟨_ | _, _ | e⟩ <;> try simp
  rcases isDomainNameValidAndAvailable lib t name with ⟨⟨_ | _, _ | e⟩, t1⟩ <;> try simp
  rcases isVCPUAvailable lib t1 vCPU with ⟨⟨_ | _, _ | e⟩, t2⟩ <;> try simp
  rcases isMemoryAvailable lib t2 memory with ⟨⟨_ | _, _ | e⟩, t3⟩ <;> try simp
  rcases isStorageAvailable lib t3 storage with ⟨⟨_ | _, _ | e⟩, t4⟩ <;> try simp
  rcases isTemplateInsideStorageAvailable lib t4 storage template with
    ⟨⟨_ | _, _ | e⟩, t5⟩ <;> try simp
  rcases isNetworkVFAvailable lib t5 network with ⟨⟨_ | _, _ | e⟩, t6⟩ <;> try simp
  rcases isMACvalid mac with ⟨_ | _, _ | e⟩ <;> simp

/-- C18: `validateCreateDomain` is the run of the eight checks in the order UUID, name, vCPU,
memory, storage pool, template, network VFs, MAC that stops at the first failing one: it
returns `(true, nil)` exactly when all eight pass, and when a check fails after the ones
before it passed, the result is `false` with that check's error and the calls made are
those up to the end of that check, so no later check is evaluated. -/
theorem validateCreateDomain_first_failing (lib : Lib) (t : List Call) (uuid name : String)
    (vCPU : Int) (memory : Nat) (storage template network mac : String) :
    validateCreateDomain lib t uuid name vCPU memory storage template network mac
      = firstFailing (createChecks lib uuid name vCPU memory storage template network mac) t ∧
    ((validateCreateDomain lib t uuid name vCPU memory storage template network mac).1
        = (true, none) ↔
      allPass (createChecks lib uuid name vCPU memory storage template network mac) t) ∧
    ∀ (pre : List Check) (c : Check) (post : List Check),
      createChecks lib uuid name vCPU memory storage template network mac = pre ++ c :: post →
      allPass pre t → (c (runAll pre t)).1 ≠ (true, none) →
      validateCreateDomain lib t uuid name vCPU memory storage template network mac
        = ((false, (c (runAll pre t)).1.2), (c (runAll pre t)).2) := by
  refine ⟨validateCreateDomain_eq_firstFailing .., ?_, ?_⟩
  · rw [validateCreateDomain_eq_firstFailing]
    exact firstFailing_pass_iff _ _
  · intro pre c post hsplit hpre hc
    rw [validateCreateDomain_eq_firstFailing, hsplit]
    exact firstFailing_stops pre c post t hpre hc

/-! ## Create -/

theorem genUUID_readOnly (lib : Lib) (t : List Call) : Extends ReadOnly t (genUUID lib t).2 := by
  unfold genUUID
  split <;> exact Extends.single _ _ rfl

theorem isDomainNameValidAndAvailable_readOnly (lib : Lib) (t : List Call) (name : String) :
    Extends ReadOnly t (isDomainNameValidAndAvailable lib t name).2 := by
  unfold isDomainNameValidAndAvailable isDomainExists Lib.exec
  split
  · exact Extends.refl _ _
  · split
    · exact Extends.refl _ _
    · cases lib.fails t (Call.lookupDomainByName name) <;> exact Extends.single _ _ rfl

theorem isVCPUAvailable_readOnly (lib : Lib) (t : List Call) (vCPU : Int) :
    Extends ReadOnly t (isVCPUAvailable lib t vCPU).2 := by
  unfold isVCPUAvailable getNodeInfo
  cases lib.nodeInfo t with
  | error e => exact Extends.single _ _ rfl
  | ok n =>
    simp only
    split
    · exact Extends.single _ _ rfl
    · split <;> exact Extends.single _ _ rfl

theorem isMemoryAvailable_readOnly (lib : Lib) (t : List Call) (memory : Nat) :
    Extends ReadOnly t (isMemoryAvailable lib t memory).2 := by
  unfold isMemoryAvailable getNodeMemoryStats
  cases lib.procMeminfo t with
  | error e => exact Extends.single _ _ rfl
  | ok m =>
    simp only
    split
    · exact Extends.single _ _ rfl
    · split
      · exact Extends.single _ _ rfl
      · split <;> exact Extends.single _ _ rfl

theorem isMemoryAvailable_floor (lib : Lib) (t : List Call) (memory : Nat)
    (hread : ∃ m, lib.procMeminfo t = Except.ok m) (hpos : 0 < memory)
    (hlow : memory < 256 * 1024) :
    (isMemoryAvailable lib t memory).1
      = (false, some "memory can not be lesser that 256 MB") := by
  obtain ⟨m, hm⟩ := hread
  have h0 : memory ≠ 0 := by omega
  simp [isMemoryAvailable, getNodeMemoryStats, hm, h0, hlow]

theorem Create_validation_error (w : World) (UUID Name : String) (VCPU : Int) (Memory : Nat)
    (Storage Template Network MAC : String) (VLAN : Nat)
    (hlock : (isLockedAndMakeLock w.env w.reg "Local Hypervisor" 60).locked = false)
    (hopen : w.lib.fails [] (Call.openConnection "rw") = none) (e : String) (t3 : List Call)
    (hval : validateCreateDomain w.lib
        (if UUID.length = 0 then genUUID w.lib [Call.openConnection "rw"]
          else (UUID, [Call.openConnection "rw"])).2
        (if UUID.length = 0 then genUUID w.lib [Call.openConnection "rw"]
          else (UUID, [Call.openConnection "rw"])).1
        Name VCPU Memory Storage Template Network MAC = ((false, some e), t3)) :
    Create w UUID Name VCPU Memory Storage Template Network MAC VLAN
      = ⟨false, some ("failed to validate domain options: " ++ e), t3,
          (isLockedAndMakeLock w.env w.reg "Local Hypervisor" 60).registry,
          Status.returned, []⟩ := by
  unfold Create
  simp only [hlock, Lib.exec, hopen, List.nil_append, Bool.false_eq_true, if_false]
  rcases hu : (if UUID.length = 0 then genUUID w.lib [Call.openConnection "rw"]
      else (UUID, [Call.openConnection "rw"])) with ⟨uuid, t2⟩
  rw [hu] at hval
  simp only at hval ⊢
  rw [hval]

/-- C17, as the code behaves: on the fresh host, the request of the specification with
`Memory = 131072` is refused with the message of the memory floor behind the prefix
`failed to validate domain options: `, not with the bare message. -/
theorem Create_wraps_memory_floor_message :
    (Create freshHostWorld "" "vm01" 2 131072 "pool-a" "ubuntu-22.04.qcow2" "pf-enp6s2f0"
        "52:54:00:ab:cd:ef" 222).ok = false ∧
    (Create freshHostWorld "" "vm01" 2 131072 "pool-a" "ubuntu-22.04.qcow2" "pf-enp6s2f0"
        "52:54:00:ab:cd:ef" 222).err
      = some "failed to validate domain options: memory can not be lesser that 256 MB" ∧
    (Create freshHostWorld "" "vm01" 2 131072 "pool-a" "ubuntu-22.04.qcow2" "pf-enp6s2f0"
        "52:54:00:ab:cd:ef" 222).err
      ≠ some "memory can not be lesser that 256 MB" := by
  decide

/-- C17, amended: when the lock is granted, the connection opens, the UUID (given or
generated), the name and the vCPU count pass their checks, the memory statistics are read
and `0 < Memory < 256*1024`, `Create` returns false with the error
`failed to validate domain options: memory can not be lesser that 256 MB`, and none of
the calls it made is a mutation: no volume is cloned and no domain is defined. -/
theorem Create_memory_floor (w : World) (UUID Name : String) (VCPU : Int) (Memory : Nat)
    (Storage Template Network MAC : String) (VLAN : Nat)
    (hlock : (isLockedAndMakeLock w.env w.reg "Local Hypervisor" 60).locked = false)
    (hopen : w.lib.fails [] (Call.openConnection "rw") = none)
    (huuid : isUUIDValid
      (if UUID.length = 0 then genUUID w.lib [Call.openConnection "rw"]
        else (UUID, [Call.openConnection "rw"])).1 = (true, none))
    (hname : (isDomainNameValidAndAvailable w.lib
      (if UUID.length = 0 then genUUID w.lib [Call.openConnection "rw"]
        else (UUID, [Call.openConnection "rw"])).2 Name).1 = (true, none))
    (hvcpu : (isVCPUAvailable w.lib (isDomainNameValidAndAvailable w.lib
      (if UUID.length = 0 then genUUID w.lib [Call.openConnection "rw"]
        else (UUID, [Call.openConnection "rw"])).2 Name).2 VCPU).1 = (true, none))
    (hmem : ∃ m, w.lib.procMeminfo (isVCPUAvailable w.lib (isDomainNameValidAndAvailable w.lib
      (if UUID.length = 0 then genUUID w.lib [Call.openConnection "rw"]
        else (UUID, [Call.openConnection "rw"])).2 Name).2 VCPU).2 = Except.ok m)
    (hpos : 0 < Memory) (hlow : Memory < 256 * 1024) :
    (Create w UUID Name VCPU Memory Storage Template Network MAC VLAN).ok = false ∧
    (Create w UUID Name VCPU Memory Storage Template Network MAC VLAN).err
      = some "failed to validate domain options: memory can not be lesser that 256 MB" ∧
    (Create w UUID Name VCPU Memory Storage Template Network MAC VLAN).status
      = Status.returned ∧
    (∀ c ∈ (Create w UUID Name VCPU Memory Storage Template Network MAC VLAN).calls,
      c.mutating = false) ∧
    (∀ pool xml vol, Call.storageVolCreateXMLFrom pool xml vol ∉
      (Create w UUID Name VCPU Memory Storage Template Network MAC VLAN).calls) ∧
    (∀ xml flags, Call.domainDefineXMLFlags xml flags ∉
      (Create w UUID Name VCPU Memory Storage Template Network MAC VLAN).calls) := by
  have hcreate := fun e t3 =>
    Create_validation_error w UUID Name VCPU Memory Storage Template Network MAC VLAN
      hlock hopen e t3
  have hro : Extends ReadOnly [Call.openConnection "rw"]
      (if UUID.length = 0 then genUUID w.lib [Call.openConnection "rw"]
        else (UUID, [Call.openConnection "rw"])).2 := by
    split
    · exact genUUID_readOnly w.lib [Call.openConnection "rw"]
    · exact Extends.refl _ _
  generalize (if UUID.length = 0 then genUUID w.lib [Call.openConnection "rw"]
        else (UUID, [Call.openConnection "rw"])) = u at huuid hname hvcpu hmem hro hcreate
  have hfloor := isMemoryAvailable_floor w.lib _ Memory hmem hpos hlow
  have hn := isDomainNameValidAndAvailable_readOnly w.lib u.2 Name
  have hv := isVCPUAvailable_readOnly w.lib (isDomainNameValidAndAvailable w.lib u.2 Name).2 VCPU
  have hm := isMemoryAvailable_readOnly w.lib
    (isVCPUAvailable w.lib (isDomainNameValidAndAvailable w.lib u.2 Name).2 VCPU).2 Memory
  have hall := (hro.trans (hn.trans (hv.trans hm))).forall_mem
    (fun c hc => by
      simp only [List.mem_singleton] at hc
      subst hc
      rfl)
  have hval : validateCreateDomain w.lib u.2 u.1 Name VCPU Memory Storage Template Network MAC
      = ((false, some "memory can not be lesser that 256 MB"),
        (isMemoryAvailable w.lib (isVCPUAvailable w.lib
          (isDomainNameValidAndAvailable w.lib u.2 Name).2 VCPU).2 Memory).2) := by
    rw [validateCreateDomain_eq_firstFailing]
    have := firstFailing_stops
      [fun t => (isUUIDValid u.1, t), fun t => isDomainNameValidAndAvailable w.lib t Name,
        fun t => isVCPUAvailable w.lib t VCPU]
      (fun t => isMemoryAvailable w.lib t Memory)
      [fun t => isStorageAvailable w.lib t Storage,
        fun t => isTemplateInsideStorageAvailable w.lib t Storage Template,
        fun t => isNetworkVFAvailable w.lib t Network, fun t => (isMACvalid MAC, t)]
      u.2 ⟨huuid, hname, hvcpu, trivial⟩ (by
        simp only [runAll, List.foldl_cons, List.foldl_nil]
        rw [hfloor]
        decide)
    simp only [runAll, List.foldl_cons, List.foldl_nil, hfloor] at this
    exact this
  rw [hcreate _ _ hval]
  refine ⟨rfl, rfl, rfl, hall, ?_, ?_⟩
  · intro pool xml vol hmemb
    exact Bool.noConfusion (show true = false from hall _ hmemb)
  · intro xml flags hmemb
    exact Bool.noConfusion (show true = false from hall _ hmemb)

/-- Witness of C17: the request of the specification with `Memory = 131072` on the fresh
host. -/
theorem Create_memory_floor_witness :
    (Create freshHostWorld "" "vm01" 2 131072 "pool-a" "ubuntu-22.04.qcow2" "pf-enp6s2f0"
        "52:54:00:ab:cd:ef" 222).ok = false ∧
    (Create freshHostWorld "" "vm01" 2 131072 "pool-a" "ubuntu-22.04.qcow2" "pf-enp6s2f0"
        "52:54:00:ab:cd:ef" 222).status = Status.returned :=
  have h := Create_memory_floor freshHostWorld "" "vm01" 2 131072 "pool-a"
    "ubuntu-22.04.qcow2" "pf-enp6s2f0" "52:54:00:ab:cd:ef" 222 (by decide) (by decide)
    (by decide) (by decide) (by decide) ⟨_, rfl⟩ (by decide) (by decide)
  ⟨h.1, h.2.2.1⟩

/-! ## Virtual functions of a network -/

theorem countInner_eq (a : String) (D : List String) (init : Int) :
    D.foldl (fun used d => if a = d then used + 1 else used) init = init + (D.count a : Nat) := by
  induction D generalizing init with
  | nil => simp
  | cons d rest ih =>
    simp only [List.foldl_cons, List.count_cons]
    rw [ih]
    by_cases h : a = d
    · subst h
      simp
      ring
    · have h2 : (d == a) = false := by
        simp only [beq_eq_false_iff_ne, ne_eq]
        exact fun e => h e.symm
      simp [h, h2]

theorem countUsedVFs_eq (N D : List String) :
    countUsedVFs N D = ((N.map fun a => D.count a).sum : Nat) := by
  unfold countUsedVFs
  have key : ∀ init : Int,
      N.foldl (fun usedVFs hostDevAddr =>
        D.foldl (fun used domainAddr => if hostDevAddr = domainAddr then used + 1 else used)
          usedVFs) init = init + ((N.map fun a => D.count a).sum : Nat) := by
    induction N with
    | nil => simp
    | cons a rest ih =>
      intro init
      simp only [List.foldl_cons, List.map_cons, List.sum_cons]
      rw [countInner_eq, ih]
      push_cast
      ring
  simpa using key 0

theorem sum_count_eq_card_inter (N D : List String) (hN : N.Nodup) (hD : D.Nodup) :
    (N.map fun a => D.count a).sum = (N.toFinset ∩ D.toFinset).card := by
  induction N with
  | nil => simp
  | cons a rest ih =>
    have hna : a ∉ rest := (List.nodup_cons.mp hN).1
    have hrest := ih (List.nodup_cons.mp hN).2
    simp only [List.map_cons, List.sum_cons, List.toFinset_cons]
    rw [hrest]
    by_cases ha : a ∈ D
    · rw [List.count_eq_one_of_mem hD ha, Finset.insert_inter_of_mem (by simpa using ha),
        Finset.card_insert_of_not_mem (by simp [hna])]
      omega
    · rw [List.count_eq_zero_of_not_mem ha, Finset.insert_inter_of_not_mem (by simpa using ha)]
      omega

/-- C19, as the code behaves: for a network with two VF addresses, the first of which two
domains name, `getNetworkVFCount` returns used 2 and total 1, while the two address sets
share one address and the network has two. -/
theorem getNetworkVFCount_pairs_and_one_less :
    sharedVFLib.networkAddresses [] "net0" = Except.ok ["0000:03:10.0", "0000:03:10.1"] ∧
    sharedVFLib.domainsNetworkDevices [Call.query "Network.GetXMLDesc" "net0"]
      = Except.ok ["0000:03:10.0", "0000:03:10.0"] ∧
    (getNetworkVFCount sharedVFLib [] "net0").1 = (2, 1, none) ∧
    (["0000:03:10.0", "0000:03:10.1"].toFinset ∩
      ["0000:03:10.0", "0000:03:10.0"].toFinset).card = 1 ∧
    ["0000:03:10.0", "0000:03:10.1"].length = 2 := by
  decide

/-- C19, amended: for the list `N` of VF addresses of the network and the list `D` of VF
addresses of the domains, `getNetworkVFCount` returns used = the number of pairs of a
position of `N` and a position of `D` that hold the same address, and
total = the number of addresses in `N` minus one; when neither list repeats an address,
used is the size of the intersection of the two address sets. -/
theorem getNetworkVFCount_counts (lib : Lib) (t : List Call) (net : String)
    (N D : List String)
    (hN : lib.networkAddresses t net = Except.ok N)
    (hD : lib.domainsNetworkDevices (t ++ [Call.query "Network.GetXMLDesc" net])
      = Except.ok D) :
    (getNetworkVFCount lib t net).1
      = ((((N.map fun a => D.count a).sum : Nat) : Int), (N.length : Int) - 1, none) ∧
    (N.Nodup → D.Nodup →
      (getNetworkVFCount lib t net).1.1 = ((N.toFinset ∩ D.toFinset).card : Nat)) := by
  have h : (getNetworkVFCount lib t net).1
      = ((((N.map fun a => D.count a).sum : Nat) : Int), (N.length : Int) - 1, none) := by
    simp only [getNetworkVFCount, getInterfacesFromNetwork, hN, getDomainsNetworkDevices, hD,
      countUsedVFs_eq]
  refine ⟨h, fun hn hd => ?_⟩
  rw [h, sum_count_eq_card_inter N D hn hd]

/-- Witness of C19: a network of two addresses, one of them used by one domain. -/
theorem getNetworkVFCount_counts_witness :
    (getNetworkVFCount secondVFUsedLib [] "net0").1.1
      = ((["0000:03:10.0", "0000:03:10.1"].toFinset ∩ ["0000:03:10.1"].toFinset).card : Nat) :=
  (getNetworkVFCount_counts secondVFUsedLib [] "net0" ["0000:03:10.0", "0000:03:10.1"] ["0000:03:10.1"]
    rfl rfl).2 (by decide) (by decide)

/-! ## Node info -/

theorem networkEntry_available (name : String) (usedVFs totalVFs : Int) :
    0 ≤ (networkEntry name usedVFs totalVFs).AvaliableVFs ∧
    0 ≤ (networkEntry name usedVFs totalVFs).TotalVFs ∧
    (networkEntry name usedVFs totalVFs).AvaliableVFs
      = max 0 ((networkEntry name usedVFs totalVFs).TotalVFs
          - (networkEntry name usedVFs totalVFs).UsedVFs) := by
  unfold networkEntry
  simp only
  split_ifs <;> omega

theorem networkEntries_available (lib : Lib) (nets : List String) (acc : List nodeNetwork)
    (t : List Call)
    (hacc : ∀ e ∈ acc, 0 ≤ e.AvaliableVFs ∧ 0 ≤ e.TotalVFs ∧
      e.AvaliableVFs = max 0 (e.TotalVFs - e.UsedVFs)) :
    ∀ e ∈ (networkEntries lib nets acc t).1, 0 ≤ e.AvaliableVFs ∧ 0 ≤ e.TotalVFs ∧
      e.AvaliableVFs = max 0 (e.TotalVFs - e.UsedVFs) := by
  induction nets generalizing acc t with
  | nil => simpa [networkEntries] using hacc
  | cons net rest ih =>
    unfold networkEntries
    rcases getNetworkName lib t net with ⟨_ | name, t1⟩
    · exact ih acc t1 hacc
    · simp only
      rcases getNetworkVFCount lib t1 net with ⟨⟨u, tot, _ | e⟩, t2⟩
      · simp only
        apply ih
        intro e he
        rcases List.mem_append.mp he with h | h
        · exact hacc e h
        · simp only [List.mem_singleton] at h
          subst h
          exact networkEntry_available name u tot
      · exact ih acc t2 hacc

/-- C20, as the code behaves: for a network whose single VF address is used by a domain,
the entry of the response has used 1, total 0 and available 0, which is not total minus
used. -/
theorem getNodeInfoResponse_clamps_available :
    (getNetworkVFCount onlyVFUsedLib [] "net0").1 = (1, 0, none) ∧
    (getNodeInfoResponse onlyVFUsedLib []).1 = Except.ok [⟨"pf-enp6s2f0", 1, 0, 0⟩] ∧
    (0 : Int) ≠ 0 - 1 := by
  decide

/-- C20, amended: every network entry of the node info response has
`AvaliableVFs = max(0, TotalVFs - UsedVFs)`, with `AvaliableVFs >= 0` and `TotalVFs >= 0`;
so `AvaliableVFs = TotalVFs - UsedVFs` holds exactly for the entries with
`UsedVFs <= TotalVFs`. -/
theorem getNodeInfoResponse_available (lib : Lib) (t : List Call) (entries : List nodeNetwork)
    (h : (getNodeInfoResponse lib t).1 = Except.ok entries) :
    ∀ e ∈ entries, 0 ≤ e.AvaliableVFs ∧ 0 ≤ e.TotalVFs ∧
      e.AvaliableVFs = max 0 (e.TotalVFs - e.UsedVFs) ∧
      (e.AvaliableVFs = e.TotalVFs - e.UsedVFs ↔ e.UsedVFs ≤ e.TotalVFs) := by
  have hall : ∀ e ∈ entries, 0 ≤ e.AvaliableVFs ∧ 0 ≤ e.TotalVFs ∧
      e.AvaliableVFs = max 0 (e.TotalVFs - e.UsedVFs) := by
    unfold getNodeInfoResponse at h
    rcases hp : nodeInfoPrelude lib t with ⟨_ | e, t1⟩
    · rw [hp] at h
      simp only at h
      rcases hl : listNetworks lib t1 with ⟨_ | networks, t2⟩
      · rw [hl] at h
        simp at h
      · rw [hl] at h
        simp only at h
        have hent := networkEntries_available lib networks [] t2 (by simp)
        cases hs : lib.listAllStoragePools (networkEntries lib networks [] t2).2
            ["CONNECT_LIST_STORAGE_POOLS_DIR"] with
        | error e =>
          rw [hs] at h
          simp at h
        | ok pools =>
          rw [hs] at h
          simp only [Except.ok.injEq] at h
          subst h
          exact hent
    · rw [hp] at h
      simp at h
  intro e he
  obtain ⟨h1, h2, h3⟩ := hall e he
  refine ⟨h1, h2, h3, ?_⟩
  omega

/-- Witness of C20: the response for the network whose single VF address is in use. -/
theorem getNodeInfoResponse_available_witness :
    (getNodeInfoResponse onlyVFUsedLib []).1 = Except.ok [⟨"pf-enp6s2f0", 1, 0, 0⟩] ∧
    (⟨"pf-enp6s2f0", 1, 0, 0⟩ : nodeNetwork).AvaliableVFs
      = max 0 ((⟨"pf-enp6s2f0", 1, 0, 0⟩ : nodeNetwork).TotalVFs
          - (⟨"pf-enp6s2f0", 1, 0, 0⟩ : nodeNetwork).UsedVFs) :=
  ⟨by decide,
    (getNodeInfoResponse_available onlyVFUsedLib [] [⟨"pf-enp6s2f0", 1, 0, 0⟩] (by decide)
      ⟨"pf-enp6s2f0", 1, 0, 0⟩ (List.mem_singleton.mpr rfl)).2.2.1⟩

/-! ## Destroy -/

theorem finalLookups_returned (lib : Lib) (paths : List String) (t t' : List Call)
    (h : finalLookups lib paths t = (Status.returned, t')) :
    (∃ new, t' = t ++ new ∧ ∀ c ∈ new, c.mutating = false) ∧
    ∀ path ∈ paths, ∃ before after,
      t' = before ++ Call.lookupStorageVolByPath path :: after ∧
      (∃ e, lib.lookupStorageVolByPath before path = Except.error e) ∧
      (∀ c ∈ after, c.mutating = false) ∧ ∃ mid, before = t ++ mid := by
  induction paths generalizing t with
  | nil =>
    simp only [finalLookups, Prod.mk.injEq, true_and] at h
    subst h
    exact ⟨⟨[], by simp, by simp⟩, by simp⟩
  | cons p rest ih =>
    simp only [finalLookups, lookupStorageVolByPath] at h
    cases hl : lib.lookupStorageVolByPath t p with
    | ok v =>
      rw [hl] at h
      simp at h
    | error e =>
      rw [hl] at h
      simp only at h
      obtain ⟨⟨new, hnew, hro⟩, hrest⟩ := ih _ h
      have hnew2 : t' = t ++ Call.lookupStorageVolByPath p :: new := by
        rw [hnew, List.append_assoc]
        rfl
      refine ⟨⟨Call.lookupStorageVolByPath p :: new, hnew2, ?_⟩, ?_⟩
      · intro c hc
        rcases List.mem_cons.mp hc with rfl | hc
        · rfl
        · exact hro c hc
      · intro path hpath
        rcases List.mem_cons.mp hpath with rfl | hpath
        · exact ⟨t, new, hnew2, ⟨e, hl⟩, hro, [], by simp⟩
        · obtain ⟨before, after, h1, h2, h3, mid, h4⟩ := hrest path hpath
          exact ⟨before, after, h1, h2, h3, Call.lookupStorageVolByPath p :: mid, by
            rw [h4, List.append_assoc]
            rfl⟩

/-- C21 as stated fails: the deletion of the volume of the domain's disk is refused and the
final lookup of its path fails because the connection is lost; `destroyDomain` returns without
error, and the pool still lists the volume at the former block path. -/
theorem destroyDomain_returns_with_volume_left :
    (getDomainBlockDeviceNamesOrPaths stuckVolumeLib [Call.domainGetConnect] true).1
      = Except.ok ["/var/lib/libvirt/images/vm01.qcow2"] ∧
    (destroyDomain stuckVolumeLib [] ["DOMAIN_DESTROY_GRACEFUL"]).ok = true ∧
    (destroyDomain stuckVolumeLib [] ["DOMAIN_DESTROY_GRACEFUL"]).err = none ∧
    (destroyDomain stuckVolumeLib [] ["DOMAIN_DESTROY_GRACEFUL"]).status = Status.returned ∧
    deletesOf (destroyDomain stuckVolumeLib [] ["DOMAIN_DESTROY_GRACEFUL"]).calls
      = ["vm01.qcow2"] ∧
    stuckVolumeLib.fails
        ((destroyDomain stuckVolumeLib [] ["DOMAIN_DESTROY_GRACEFUL"]).calls.take 10)
        (Call.storageVolDelete "vm01.qcow2" ["STORAGE_VOL_DELETE_NORMAL"])
      = some "cannot unlink file: Permission denied" ∧
    (destroyDomain stuckVolumeLib [] ["DOMAIN_DESTROY_GRACEFUL"]).calls.get? 10
      = some (Call.storageVolDelete "vm01.qcow2" ["STORAGE_VOL_DELETE_NORMAL"]) ∧
    stuckVolumeLib.listAllStorageVolumes
        (destroyDomain stuckVolumeLib [] ["DOMAIN_DESTROY_GRACEFUL"]).calls "default"
      = Except.ok ["vm01.qcow2"] ∧
    stuckVolumeLib.volGetPath
        (destroyDomain stuckVolumeLib [] ["DOMAIN_DESTROY_GRACEFUL"]).calls "vm01.qcow2"
      = Except.ok "/var/lib/libvirt/images/vm01.qcow2" := by
  decide

/-- C21, amended: whenever `destroyDomain` returns without error, every block path the
domain had was looked up in the final pass, that lookup returned an error (which the code
takes as "no storage volume at that path"), and no mutating call was made after it. -/
theorem destroyDomain_returns_without_leftover (lib : Lib) (t : List Call) (flags : Flags)
    (hst : (destroyDomain lib t flags).status = Status.returned)
    (herr : (destroyDomain lib t flags).err = none) :
    ∃ paths,
      (getDomainBlockDeviceNamesOrPaths lib (t ++ [Call.domainGetConnect]) true).1
        = Except.ok paths ∧
      ∀ path ∈ paths, ∃ before after,
        (destroyDomain lib t flags).calls
          = before ++ Call.lookupStorageVolByPath path :: after ∧
        (∃ e, lib.lookupStorageVolByPath before path = Except.error e) ∧
        (∀ c ∈ after, c.mutating = false) := by
  unfold destroyDomain at hst herr ⊢
  simp only [Lib.exec] at hst herr ⊢
  cases hc : lib.fails t Call.domainGetConnect with
  | some e =>
    rw [hc] at herr
    simp at herr
  | none =>
    rw [hc] at hst herr
    simp only at hst herr ⊢
    rcases hp : getDomainBlockDeviceNamesOrPaths lib (t ++ [Call.domainGetConnect]) true with
      ⟨e | paths, t2⟩
    · rw [hp] at herr
      simp at herr
    · rw [hp] at hst herr
      simp only at hst herr ⊢
      refine ⟨paths, rfl, ?_⟩
      rcases hb : createBackups lib paths t2 with ⟨_ | e, t3⟩
      swap
      · rw [hb] at herr
        simp at herr
      rw [hb] at hst herr
      simp only at hst herr ⊢
      rcases hd : destroyAndUndefineDomain lib t3 flags with ⟨⟨b, _ | e⟩, t4⟩
      swap
      · rw [hd] at herr
        simp at herr
      rw [hd] at hst herr
      simp only at hst herr ⊢
      cases hpools : lib.listAllStoragePools t4
          ["CONNECT_LIST_STORAGE_POOLS_ACTIVE", "CONNECT_LIST_STORAGE_POOLS_PERSISTENT"] with
      | error e =>
        rw [hpools] at herr
        simp at herr
      | ok pools =>
        rw [hpools] at hst herr
        simp only at hst herr ⊢
        by_cases hempty : pools.isEmpty = true
        · rw [if_pos hempty] at herr
          simp at herr
        · rw [if_neg hempty] at hst herr ⊢
          rcases hf : finalLookups lib paths (sweepPools lib paths pools (t4 ++
              [Call.listAllStoragePools ["CONNECT_LIST_STORAGE_POOLS_ACTIVE",
                "CONNECT_LIST_STORAGE_POOLS_PERSISTENT"]])) with ⟨st, t5⟩
          rw [hf] at hst
          cases st with
          | returned =>
            simp only
            intro path hpath
            obtain ⟨before, after, h1, h2, h3, -⟩ :=
              (finalLookups_returned lib paths _ t5 hf).2 path hpath
            exact ⟨before, after, h1, h2, h3⟩
          | panicked => simp at hst
          | unfinished => simp at hst

/-- Witness of C21: the domain whose volume is deleted by the sweep. -/
theorem destroyDomain_returns_without_leftover_witness :
    (destroyDomain cleanDestroyLib [] ["DOMAIN_DESTROY_GRACEFUL"]).ok = true ∧
    ∃ paths,
      (getDomainBlockDeviceNamesOrPaths cleanDestroyLib ([] ++ [Call.domainGetConnect]) true).1
        = Except.ok paths ∧
      ∀ path ∈ paths, ∃ before after,
        (destroyDomain cleanDestroyLib [] ["DOMAIN_DESTROY_GRACEFUL"]).calls
          = before ++ Call.lookupStorageVolByPath path :: after ∧
        (∃ e, cleanDestroyLib.lookupStorageVolByPath before path = Except.error e) ∧
        (∀ c ∈ after, c.mutating = false) :=
  ⟨by decide, destroyDomain_returns_without_leftover cleanDestroyLib []
    ["DOMAIN_DESTROY_GRACEFUL"] (by decide) (by decide)⟩

/-- C27, as the code behaves: when the volume of the domain's disk is still there after the
sweep (here its deletion fails), the final lookup succeeds, the loop reaches `err.Error()`
on the nil error, and `destroyDomain` ends in a run-time panic instead of reaching its final
return; so does the `Destroy` handler. -/
theorem destroyDomain_leftover_panics :
    (destroyDomain leftoverLib [] ["DOMAIN_DESTROY_GRACEFUL"]).status = Status.panicked ∧
    (Destroy { lib := leftoverLib } "vm01").status = Status.panicked ∧
    (Destroy { lib := leftoverLib } "vm01").ok = false ∧
    leftoverLib.lookupStorageVolByPath
        (destroyDomain leftoverLib [] ["DOMAIN_DESTROY_GRACEFUL"]).calls.dropLast
        "/var/lib/libvirt/images/vm01.qcow2"
      = Except.ok "/var/lib/libvirt/images/vm01.qcow2" := by
  decide

/-! ## Node memory -/

/-- C22, as the code behaves: with total 8388608, free 1048576, cached 6291456 and buffers
2097152 KiB the difference is negative; `Used` is an unsigned 64-bit value, the test
`Used < 0` is never true, and the wrapped difference `2^64 - 1048576` is reported, not
`Total - Free`. -/
theorem getNodeMemoryStats_used_wraps :
    (getNodeMemoryStats containerLib []).1.map (fun m => m.Used)
      = Except.ok 18446744073708503040 ∧
    (8388608 : Int) - 1048576 - 6291456 - 2097152 < 0 ∧
    (18446744073708503040 : Nat) ≠ 8388608 - 1048576 := by
  decide

/-! ## Network metadata -/

theorem networkChildren_in_range (previous : netMetadata) (rate : Nat) (hr : rate < 2 ^ 63)
    (hq : previous.QoS < 2 ^ 63) :
    networkChildren previous rate
      = [("max_tx_rate", toString rate), ("qos", toString previous.QoS),
          ("trust", if previous.Trust.length = 0 then "off" else previous.Trust),
          ("spoofchk", if previous.SpoofChk.length = 0 then "on" else previous.SpoofChk),
          ("query_rss", if previous.QueryRss.length = 0 then "off" else previous.QueryRss)] := by
  have h1 : toInt64 rate = (rate : Int) := by
    unfold toInt64
    rw [Nat.mod_eq_of_lt (by omega), if_pos hr]
  have h2 : toInt64 previous.QoS = (previous.QoS : Int) := by
    unfold toInt64
    rw [Nat.mod_eq_of_lt (by omega), if_pos hq]
  unfold networkChildren
  rw [h1, h2]
  rfl

/-- C23, as the code behaves: for the new rate `2^63` the value written for `max_tx_rate`
is `strconv.Itoa(int(rate))`, the negative number `-9223372036854775808`; the other four
children are as the specification says. -/
theorem setDomainMetadataNetworkRate_rate_wraps :
    networkChildren ⟨100, "on", "off", "on", 5⟩ (2 ^ 63)
      = [("max_tx_rate", "-9223372036854775808"), ("qos", "5"), ("trust", "on"),
          ("spoofchk", "off"), ("query_rss", "on")] ∧
    (setDomainMetadataNetworkRate meteredLib [] (2 ^ 63)).1 = (true, none) ∧
    (SetNetworkSpeed { lib := meteredLib } "vm01" (2 ^ 63)).calls.getLast?
      = some (Call.setMetadata
          (renderCustom [("max_tx_rate", "-9223372036854775808"), ("qos", "5"),
            ("trust", "on"), ("spoofchk", "off"), ("query_rss", "on")])
          ["DOMAIN_AFFECT_CURRENT"]) := by
  refine ⟨?_, ?_, ?_⟩ <;> rfl

/-! ## VLAN of a network device -/

/-- C25, as the code behaves: on a stopped domain whose only interface has another MAC, the
request for `52:54:00:ab:cd:ef` fails with `malformed XML description for interface`, not
with `no interfaces match specified MAC`: the zero interface the search leaves has no source,
and the source is tested first. -/
theorem setPVIDForDomainNetworkDevice_unmatched_reports_malformed :
    (isMACvalid "52:54:00:ab:cd:ef") = (true, none) ∧
    (setPVIDForDomainNetworkDevice otherMacLib [] "52:54:00:ab:cd:ef" 333).1
      = (false, some "malformed XML description for interface") ∧
    (SetPVIDForNetworkDevice { lib := otherMacLib } "vm01" "52:54:00:ab:cd:ef" 333).err
      = some "malformed XML description for interface" := by
  decide

/-! ## Snapshot XML -/

/-- C26, as the code behaves: for a domain without a devices section, and for one whose only
block device is a read-only CD-ROM, `prepareXMLForSnapshot` returns the empty string with a
nil error, and `MakeSnapshot` goes on to create a snapshot from the empty XML. -/
theorem prepareXMLForSnapshot_no_disk_returns_nil :
    (prepareXMLForSnapshot noDevicesLib [] "snap1" true).1 = ("", none) ∧
    (prepareXMLForSnapshot cdromOnlyLib [] "snap1" true).1 = ("", none) ∧
    (MakeSnapshot { lib := noDevicesLib } "vm01" "snap1").calls.getLast?
      = some (Call.createSnapshotXML ""
          ["DOMAIN_SNAPSHOT_CREATE_ATOMIC", "DOMAIN_SNAPSHOT_CREATE_HALT"]) ∧
    (MakeSnapshot { lib := cdromOnlyLib } "vm01" "snap1").calls.getLast?
      = some (Call.createSnapshotXML ""
          ["DOMAIN_SNAPSHOT_CREATE_ATOMIC", "DOMAIN_SNAPSHOT_CREATE_HALT"]) ∧
    (MakeSnapshot { lib := cdromOnlyLib } "vm01" "snap1").ok = true := by
  decide

/-! ## Image path of a new domain -/

/-- C28, as the code behaves: the name `../vm01` passes the name check, and with the pool
path `/var/lib/libvirt/images` the image path computed for it is
`/var/lib/libvirt/vm01.qcow2`, which is not inside the pool directory. -/
theorem getNewDomainImageName_leaves_pool :
    (isDomainNameValidAndAvailable imagesPoolLib [] "../vm01").1 = (true, none) ∧
    (getNewDomainImageName imagesPoolLib [] "../vm01" "pool-a").1
      = Except.ok "/var/lib/libvirt/vm01.qcow2" ∧
    filepathClean "/var/lib/libvirt/images" = "/var/lib/libvirt/images" ∧
    startsWith "/var/lib/libvirt/vm01.qcow2" "/var/lib/libvirt/images/" = false := by
  decide

/-! ## Network of a virtual function -/

/-- C30, as the code behaves: with one network `pf-enp6s2f0` whose only address is
`0000:03:10.0`, the search for `0000:04:00.1` returns `pf-enp6s2f0` and no error: the name
read in the last iteration is still in the variable when the loop ends without a match. -/
theorem getNetworkNameForVFAddress_returns_last_name :
    onlyVFUsedLib.networkAddresses [] "net0" = Except.ok ["0000:03:10.0"] ∧
    (getNetworkNameForVFAddress onlyVFUsedLib [] "0000:04:00.1").1 = Except.ok "pf-enp6s2f0" ∧
    (getNetworkNameForVFAddress onlyVFUsedLib [] "0000:03:10.0").1 = Except.ok "pf-enp6s2f0" ∧
    (getNetworkNameForVFAddress {} [] "0000:04:00.1").1
      = Except.error "no defined network matches search criteria" := by
  decide

/-! ## Generated UUID -/

theorem hexDigit_facts : ∀ n : Fin 16,
    isLowerHexChar (hexDigit n.val) = true ∧ isHexChar (hexDigit n.val) = true ∧
      hexDigit n.val ≠ '-' := by
  decide

theorem hexDigit_mod (n : Nat) :
    isLowerHexChar (hexDigit (n % 16)) = true ∧ isHexChar (hexDigit (n % 16)) = true ∧
      hexDigit (n % 16) ≠ '-' :=
  hexDigit_facts ⟨n % 16, Nat.mod_lt _ (by decide)⟩

theorem version_nibble : ∀ x : Fin 256, ((x.val ||| 0x40) &&& 0x4F) / 16 % 16 = 4 := by
  set_option maxRecDepth 8000 in decide

theorem variant_nibble : ∀ x : Fin 256,
    ((x.val ||| 0x80) &&& 0xBF) / 16 % 16 ∈ [8, 9, 10, 11] := by
  set_option maxRecDepth 8000 in decide

theorem formatUUID_toList (b0 b1 b2 b3 b4 b5 b6 b7 b8 b9 b10 b11 b12 b13 b14 b15 : Nat) :
    (formatUUID [b0, b1, b2, b3, b4, b5, b6, b7, b8, b9, b10, b11, b12, b13, b14, b15]).toList
      = [b0 / 16, b0, b1 / 16, b1, b2 / 16, b2, b3 / 16, b3].map (fun n => hexDigit (n % 16))
        ++ '-' :: ([b4 / 16, b4, b5 / 16, b5].map (fun n => hexDigit (n % 16))
        ++ '-' :: ([b6 / 16, b6, b7 / 16, b7].map (fun n => hexDigit (n % 16))
        ++ '-' :: ([b8 / 16, b8, b9 / 16, b9].map (fun n => hexDigit (n % 16))
        ++ '-' :: [b10 / 16, b10, b11 / 16, b11, b12 / 16, b12, b13 / 16, b13, b14 / 16, b14,
            b15 / 16, b15].map (fun n => hexDigit (n % 16))))) :=
  rfl

theorem uuidBytes_eq (u : Bytes) :
    uuidBytes u = [(u.getD 0 0).val, (u.getD 1 0).val, (u.getD 2 0).val, (u.getD 3 0).val,
      (u.getD 4 0).val, (u.getD 5 0).val, ((u.getD 6 0).val ||| 0x40) &&& 0x4F,
      (u.getD 7 0).val, ((u.getD 8 0).val ||| 0x80) &&& 0xBF, (u.getD 9 0).val,
      (u.getD 10 0).val, (u.getD 11 0).val, (u.getD 12 0).val, (u.getD 13 0).val,
      (u.getD 14 0).val, (u.getD 15 0).val] :=
  rfl

theorem formatUUID_form (u : Bytes) :
    LowerUUIDForm (formatUUID (uuidBytes u)) ∧
    matchesUUIDPattern (formatUUID (uuidBytes u)) = true ∧
    (hexDigitsOf (formatUUID (uuidBytes u))).get? 12 = some '4' ∧
    ∃ c ∈ ['8', '9', 'a', 'b'], (hexDigitsOf (formatUUID (uuidBytes u))).get? 16 = some c := by
  have hl := fun n => (hexDigit_mod n).1
  have hh := fun n => (hexDigit_mod n).2.1
  have hd := fun n => (hexDigit_mod n).2.2
  have h6 := version_nibble (u.getD 6 0)
  have h8 := variant_nibble (u.getD 8 0)
  simp only [List.getD_eq_getElem?_getD] at h6 h8
  rw [uuidBytes_eq]
  refine ⟨⟨_, _, _, _, _, ?_, ?_, ?_, ?_, ?_, ?_, formatUUID_toList ..⟩, ?_, ?_, ?_⟩
  · rfl
  · rfl
  · rfl
  · rfl
  · rfl
  · intro c hc
    simp only [List.mem_append, List.mem_map] at hc
    rcases hc with (((⟨n, -, rfl⟩ | ⟨n, -, rfl⟩) | ⟨n, -, rfl⟩) | ⟨n, -, rfl⟩) | ⟨n, -, rfl⟩ <;>
      exact hl n
  · unfold matchesUUIDPattern
    rw [formatUUID_toList]
    simp [List.range, List.range.loop, hh]
  · unfold hexDigitsOf
    rw [formatUUID_toList]
    simp [hd, List.filter, h6]
    rfl
  · unfold hexDigitsOf
    rw [formatUUID_toList]
    simp only [List.mem_cons, List.mem_singleton, List.not_mem_nil, or_false] at h8
    rcases h8 with h8 | h8 | h8 | h8
    · refine ⟨'8', by simp, ?_⟩
      simp [hd, List.filter, h8]
      rfl
    · refine ⟨'9', by simp, ?_⟩
      simp [hd, List.filter, h8]
      rfl
    · refine ⟨'a', by simp, ?_⟩
      simp [hd, List.filter, h8]
      rfl
    · refine ⟨'b', by simp, ?_⟩
      simp [hd, List.filter, h8]
      rfl

/-- C24: for every 16 bytes the random source delivers, `genUUID` returns a lower-case
string in the 8-4-4-4-12 hexadecimal form that `isUUIDValid` accepts, whose 13th hexadecimal
digit is `4` and whose 17th is one of `8`, `9`, `a`, `b`; the validation of a `Create` call
that was given this UUID is then decided by the seven checks after the UUID check. -/
theorem genUUID_version4 (lib : Lib) (t : List Call) (u : Bytes)
    (h : lib.randRead t = Except.ok u) :
    LowerUUIDForm (genUUID lib t).1 ∧
    isUUIDValid (genUUID lib t).1 = (true, none) ∧
    (hexDigitsOf (genUUID lib t).1).get? 12 = some '4' ∧
    (∃ c ∈ ['8', '9', 'a', 'b'], (hexDigitsOf (genUUID lib t).1).get? 16 = some c) ∧
    ∀ (t2 : List Call) (name : String) (vCPU : Int) (memory : Nat)
      (storage template network mac : String),
      validateCreateDomain lib t2 (genUUID lib t).1 name vCPU memory storage template network mac
        = firstFailing
            (createChecks lib (genUUID lib t).1 name vCPU memory storage template network
              mac).tail t2 := by
  have hgen : (genUUID lib t).1 = formatUUID (uuidBytes u) := by
    simp [genUUID, h]
  obtain ⟨h1, h2, h3, h4⟩ := formatUUID_form u
  have hvalid : isUUIDValid (formatUUID (uuidBytes u)) = (true, none) := by
    simp [isUUIDValid, h2]
  rw [hgen]
  refine ⟨h1, hvalid, h3, h4, ?_⟩
  intro t2 name vCPU memory storage template network mac
  rw [validateCreateDomain_eq_firstFailing]
  simp [createChecks, firstFailing, hvalid]

/-- Witness of C24: the sixteen bytes `0xff`. -/
theorem genUUID_version4_witness :
    (genUUID onesRandomLib []).1
      = "ffffffff-ffff-4fff-bfff-ffffffffffff" ∧
    isUUIDValid (genUUID onesRandomLib []).1
      = (true, none) :=
  ⟨by decide, (genUUID_version4 onesRandomLib []
    (List.replicate 16 255) rfl).2.1⟩

/-! ## Paths accepted by the overlay clean-up -/

theorem splitSlash_ne_nil (cs : List Char) : splitSlash cs ≠ [] := by
  cases cs with
  | nil => simp [splitSlash]
  | cons c rest =>
    unfold splitSlash
    split
    · simp
    · split <;> simp

theorem splitSlash_slash (rest : List Char) : splitSlash ('/' :: rest) = [] :: splitSlash rest := by
  simp [splitSlash]

theorem splitSlash_other (c : Char) (rest h : List Char) (tl : List (List Char)) (hc : c ≠ '/')
    (hs : splitSlash rest = h :: tl) : splitSlash (c :: rest) = (c :: h) :: tl := by
  simp [splitSlash, hc, hs]

theorem splitSlash_free (X : List Char) (hX : ∀ c ∈ X, c ≠ '/') : splitSlash X = [X] := by
  induction X with
  | nil => simp [splitSlash]
  | cons c X ih =>
    exact splitSlash_other c X X [] (hX c (by simp)) (ih fun x hx => hX x (by simp [hx]))

theorem splitSlash_word (w r : List Char) (hw : ∀ c ∈ w, c ≠ '/') :
    splitSlash (w ++ '/' :: r) = w :: splitSlash r := by
  induction w with
  | nil => simp [splitSlash]
  | cons c w ih =>
    exact splitSlash_other c _ w _ (hw c (by simp)) (ih fun x hx => hw x (by simp [hx]))

theorem splitSlash_suffix (pre X : List Char) (hX : ∀ c ∈ X, c ≠ '/') :
    ∃ init last, splitSlash pre = init ++ [last] ∧ splitSlash (pre ++ X) = init ++ [last ++ X] := by
  induction pre with
  | nil => exact ⟨[], [], by simp [splitSlash], by simpa using splitSlash_free X hX⟩
  | cons c p ih =>
    obtain ⟨init, last, h1, h2⟩ := ih
    by_cases hc : c = '/'
    · subst hc
      exact ⟨[] :: init, last, by simp [splitSlash_slash, h1], by simp [splitSlash_slash, h2]⟩
    · cases init with
      | nil =>
        exact ⟨[], c :: last, by simpa using splitSlash_other c p last [] hc (by simpa using h1),
          by simpa using splitSlash_other c (p ++ X) (last ++ X) [] hc (by simpa using h2)⟩
      | cons i0 is =>
        exact ⟨(c :: i0) :: is, last,
          by simpa using splitSlash_other c p i0 (is ++ [last]) hc (by simpa using h1),
          by simpa using splitSlash_other c (p ++ X) i0 (is ++ [last ++ X]) hc (by simpa using h2)⟩

theorem splitSlash_head (cs h : List Char) (tl : List (List Char)) (hs : splitSlash cs = h :: tl)
    (htl : tl ≠ []) : ∃ r, cs = h ++ '/' :: r := by
  induction cs generalizing h tl with
  | nil =>
    simp [splitSlash] at hs
    exact absurd hs.2 htl
  | cons d rest ih =>
    by_cases hd : d = '/'
    · subst hd
      rw [splitSlash_slash] at hs
      simp only [List.cons.injEq] at hs
      exact ⟨rest, by simp [← hs.1]⟩
    · rcases hr : splitSlash rest with _ | ⟨h', tl'⟩
      · exact absurd hr (splitSlash_ne_nil rest)
      · rw [splitSlash_other d rest h' tl' hd hr] at hs
        simp only [List.cons.injEq] at hs
        obtain ⟨r, hr2⟩ := ih h' tl' hr (by rw [hs.2]; exact htl)
        exact ⟨r, by rw [← hs.1, hr2]; rfl⟩

theorem splitSlash_init_no_parent (cs : List Char)
    (h : containsChars cs ['.', '.', '/'] = false) (init : List (List Char)) (last : List Char)
    (hs : splitSlash cs = init ++ [last]) : ∀ seg ∈ init, seg ≠ ['.', '.'] := by
  induction cs generalizing init last with
  | nil =>
    cases init with
    | nil => simp
    | cons i0 is =>
      simp [splitSlash] at hs
  | cons c rest ih =>
    simp only [containsChars, Bool.or_eq_false_iff] at h
    obtain ⟨hpre, hrest⟩ := h
    obtain ⟨i', l', hr⟩ : ∃ i' l', splitSlash rest = i' ++ [l'] :=
      ⟨(splitSlash rest).dropLast, (splitSlash rest).getLast (splitSlash_ne_nil rest),
        (List.dropLast_append_getLast (splitSlash_ne_nil rest)).symm⟩
    have ih' := ih hrest i' l' hr
    by_cases hc : c = '/'
    · subst hc
      rw [splitSlash_slash, hr] at hs
      have := List.append_inj' (show ([] :: i') ++ [l'] = init ++ [last] from hs) rfl
      rw [← this.1]
      intro seg hseg
      rcases List.mem_cons.mp hseg with rfl | hseg
      · simp
      · exact ih' seg hseg
    · cases i' with
      | nil =>
        rw [splitSlash_other c rest l' [] hc (by simpa using hr)] at hs
        have := List.append_inj' (show [] ++ [c :: l'] = init ++ [last] from hs) rfl
        rw [← this.1]
        simp
      | cons i0 is =>
        rw [splitSlash_other c rest i0 (is ++ [l']) hc (by simpa using hr)] at hs
        have := List.append_inj' (show ((c :: i0) :: is) ++ [l'] = init ++ [last] from hs) rfl
        rw [← this.1]
        intro seg hseg
        rcases List.mem_cons.mp hseg with rfl | hseg
        · intro heq
          simp only [List.cons.injEq, and_true] at heq
          obtain ⟨r, hr2⟩ := splitSlash_head rest i0 (is ++ [l']) (by simpa using hr) (by simp)
          rw [hr2, heq.1, heq.2] at hpre
          simp [List.isPrefixOf] at hpre
        · exact ih' seg (by simp [hseg])

theorem cleanElements_no_parent (rooted : Bool) (es kept : List (List Char))
    (h : ∀ e ∈ es, e ≠ ['.', '.']) :
    cleanElements rooted es kept
      = kept.reverse ++ es.filter (fun e => decide (e ≠ []) && decide (e ≠ ['.'])) := by
  induction es generalizing kept with
  | nil => simp [cleanElements]
  | cons e es ih =>
    have he := h e (by simp)
    have ih' := fun k => ih k (fun x hx => h x (by simp [hx]))
    unfold cleanElements
    by_cases h1 : e = [] ∨ e = ['.']
    · rw [if_pos h1, ih']
      rcases h1 with h1 | h1 <;> simp [h1]
    · rw [if_neg h1, if_neg he, ih']
      simp only [not_or] at h1
      simp [h1.1, h1.2]

/-- C29: every path that `deleteTemporaryExternalSnapshot` accepts for deletion has no
element equal to `..` between its slashes, and its lexically cleaned form (`filepath.Clean`)
still starts with `/var/lib/libvirt/`. -/
theorem acceptedForDeletion_stays_inside (path : String)
    (h : acceptedForDeletion path = true) :
    (∀ seg ∈ splitSlash path.toList, seg ≠ ['.', '.']) ∧
    startsWith (filepathClean path) "/var/lib/libvirt/" = true := by
  simp only [acceptedForDeletion, Bool.and_eq_true, Bool.not_eq_true', startsWith, endsWith,
    containsStr] at h
  obtain ⟨⟨⟨⟨hP, hX⟩, -⟩, hdd⟩, -⟩ := h
  have eP : "/var/lib/libvirt/".toList
      = '/' :: (['v', 'a', 'r'] ++ '/' :: (['l', 'i', 'b'] ++ '/' ::
          (['l', 'i', 'b', 'v', 'i', 'r', 't'] ++ '/' :: []))) := rfl
  have eD : "../".toList = ['.', '.', '/'] := rfl
  rw [eD] at hdd
  obtain ⟨rest, hrest⟩ := List.isPrefixOf_iff_prefix.mp hP
  obtain ⟨r, hr⟩ := List.isPrefixOf_iff_prefix.mp hX
  have hcs : path.toList = r.reverse ++ ".external.snapshot.qcow2".toList := by
    have := congrArg List.reverse hr
    simpa using this.symm
  have hXfree : ∀ c ∈ ".external.snapshot.qcow2".toList, c ≠ '/' := by decide
  have hXlen : ".external.snapshot.qcow2".toList.length = 24 := rfl
  obtain ⟨init, last, -, h2⟩ := splitSlash_suffix r.reverse _ hXfree
  rw [← hcs] at h2
  have hinit := splitSlash_init_no_parent path.toList hdd init _ h2
  have hlast : ∀ s : List Char, s.length < 24 →
      last ++ ".external.snapshot.qcow2".toList ≠ s := by
    intro s hs heq
    have := congrArg List.length heq
    rw [List.length_append, hXlen] at this
    omega
  have hall : ∀ seg ∈ splitSlash path.toList, seg ≠ ['.', '.'] := by
    rw [h2]
    intro seg hseg
    rcases List.mem_append.mp hseg with hseg | hseg
    · exact hinit seg hseg
    · rw [List.mem_singleton.mp hseg]
      exact hlast _ (by decide)
  refine ⟨hall, ?_⟩
  have hsegs : splitSlash path.toList
      = [] :: ['v', 'a', 'r'] :: ['l', 'i', 'b'] :: ['l', 'i', 'b', 'v', 'i', 'r', 't'] ::
          splitSlash rest := by
    rw [← hrest, eP]
    simp only [List.cons_append, List.nil_append, List.append_assoc]
    show splitSlash ('/' :: (['v', 'a', 'r'] ++ '/' :: (['l', 'i', 'b'] ++ '/' ::
      (['l', 'i', 'b', 'v', 'i', 'r', 't'] ++ '/' :: rest)))) = _
    rw [splitSlash_slash, splitSlash_word _ _ (by decide), splitSlash_word _ _ (by decide),
      splitSlash_word _ _ (by decide)]
  have hmem : last ++ ".external.snapshot.qcow2".toList ∈ splitSlash rest := by
    have hl : (splitSlash path.toList).getLast?
        = some (last ++ ".external.snapshot.qcow2".toList) := by
      rw [h2]
      simp
    obtain ⟨i', l', hr'⟩ : ∃ i' l', splitSlash rest = i' ++ [l'] :=
      ⟨(splitSlash rest).dropLast, (splitSlash rest).getLast (splitSlash_ne_nil rest),
        (List.dropLast_append_getLast (splitSlash_ne_nil rest)).symm⟩
    rw [hsegs, hr'] at hl
    have hl2 : ([] :: ['v', 'a', 'r'] :: ['l', 'i', 'b'] ::
        ['l', 'i', 'b', 'v', 'i', 'r', 't'] :: (i' ++ [l'])).getLast? = some l' := by
      rw [show ([] :: ['v', 'a', 'r'] :: ['l', 'i', 'b'] ::
          ['l', 'i', 'b', 'v', 'i', 'r', 't'] :: (i' ++ [l']))
        = ([] :: ['v', 'a', 'r'] :: ['l', 'i', 'b'] ::
          ['l', 'i', 'b', 'v', 'i', 'r', 't'] :: i') ++ [l'] from rfl]
      exact List.getLast?_append_cons _ _ _ |>.trans (by simp)
    rw [hl2] at hl
    rw [hr', ← Option.some.inj hl]
    simp
  have hrooted : path.toList.head? = some '/' := by
    rw [← hrest, eP]
    rfl
  obtain ⟨f, fs, hF⟩ : ∃ f fs,
      (splitSlash rest).filter (fun e => decide (e ≠ []) && decide (e ≠ ['.'])) = f :: fs := by
    have hin : last ++ ".external.snapshot.qcow2".toList ∈
        (splitSlash rest).filter (fun e => decide (e ≠ []) && decide (e ≠ ['.'])) := by
      refine List.mem_filter.mpr ⟨hmem, ?_⟩
      simp only [Bool.and_eq_true, decide_eq_true_eq]
      exact ⟨hlast _ (by decide), hlast _ (by decide)⟩
    cases hfl : (splitSlash rest).filter (fun e => decide (e ≠ []) && decide (e ≠ ['.'])) with
    | nil =>
      rw [hfl] at hin
      simp at hin
    | cons f fs => exact ⟨f, fs, rfl⟩
  unfold filepathClean
  simp only [hrooted, if_true, decide_True]
  rw [cleanElements_no_parent _ _ _ hall, hsegs]
  simp only [List.reverse_nil, List.nil_append]
  rw [show ([] :: ['v', 'a', 'r'] :: ['l', 'i', 'b'] :: ['l', 'i', 'b', 'v', 'i', 'r', 't'] ::
        splitSlash rest).filter (fun e => decide (e ≠ []) && decide (e ≠ ['.']))
      = ['v', 'a', 'r'] :: ['l', 'i', 'b'] :: ['l', 'i', 'b', 'v', 'i', 'r', 't'] ::
        (splitSlash rest).filter (fun e => decide (e ≠ []) && decide (e ≠ ['.'])) from by
    simp [List.filter], hF]
  have eP2 : "/var/lib/libvirt/".toList
      = ['/', 'v', 'a', 'r', '/', 'l', 'i', 'b', '/', 'l', 'i', 'b', 'v', 'i', 'r', 't', '/'] :=
    rfl
  simp [startsWith, eP2, List.intercalate, List.intersperse, List.isPrefixOf]

/-- Witness of C29: an overlay file in the images directory. -/
theorem acceptedForDeletion_stays_inside_witness :
    filepathClean "/var/lib/libvirt/images/a.external.snapshot.qcow2"
      = "/var/lib/libvirt/images/a.external.snapshot.qcow2" ∧
    startsWith (filepathClean "/var/lib/libvirt/images/a.external.snapshot.qcow2")
      "/var/lib/libvirt/" = true :=
  ⟨by decide, (acceptedForDeletion_stays_inside
    "/var/lib/libvirt/images/a.external.snapshot.qcow2" (by decide)).2⟩


end LibvirtRpc
